import Mathlib

/-!
# polycube-cpp: the numeric kernel

A shallow embedding of `utils/include/glslMath.h` (vectors, column-major
matrices, camera helpers) and `utils/src/perlinNoise.cpp` (permutation table
and gradient noise), followed by the properties proved about them.

Conventions of the embedding.

* The C++ templates are generic in the element type `T`; so are the
  definitions here.  Each definition asks only for the operations its body
  uses.  Theorems pick the algebraic structure they need (`CommRing`,
  `Field`, `ℝ`).
* Overloads of one C++ name live in the namespace of their argument type:
  `dot` on `tvec3` is `tvec3.dot`, `inverse` on `tmat4` is `tmat4.inverse`.
* C++ operators get a name: `operator*(matrix, vector)` is `mulVec`,
  `operator*(vector, matrix)` is `vecMul`, `operator*(matrix, matrix)` is
  `mul`, `operator*(vector, scalar)` is `mulScalar`.
* Constructors get a name: `tmatN<T>(T v)` is `ofScalar`, the element-list
  constructor is `ofElems`, the column constructor is the structure's `mk`.
* `sqrt` is passed as a parameter, so the definitions stay executable; the
  theorems about real arithmetic instantiate it with `Real.sqrt`.
* Floating-point operations are the exact field operations, which is what the
  properties stated "in exact arithmetic" are about.  Where a property is
  about `float` itself, the rounding is explicit: `floormod256_float` rounds
  its subtraction with `roundToFloat` (IEEE 754 binary32).
* A reference parameter that can be the object itself (the argument of a
  swizzle setter) is a function of the object's state, read again at every
  use.
-/

/-! ## Vectors -/

/-- Class `tvec2<T>`: members `x, y`. -/
structure tvec2 (T : Type) where
  x : T
  y : T
  deriving DecidableEq, Repr

/-- Class `tvec3<T>`: members `x, y, z`. -/
structure tvec3 (T : Type) where
  x : T
  y : T
  z : T
  deriving DecidableEq, Repr

/-- Class `tvec4<T>`: members `x, y, z, w`. -/
structure tvec4 (T : Type) where
  x : T
  y : T
  z : T
  w : T
  deriving DecidableEq, Repr

namespace tvec2
variable {T : Type}

/-- Constructor `tvec2(T v) : x(v), y(v)`. -/
def splat (v : T) : tvec2 T := ⟨v, v⟩

/-- Unary `operator-`. -/
def neg [Neg T] (a : tvec2 T) : tvec2 T := ⟨-a.x, -a.y⟩

/-- Binary `operator+` on vectors. -/
def add [Add T] (a b : tvec2 T) : tvec2 T := ⟨a.x + b.x, a.y + b.y⟩

/-- Binary `operator-` on vectors. -/
def sub [Sub T] (a b : tvec2 T) : tvec2 T := ⟨a.x - b.x, a.y - b.y⟩

/-- The `operator*(const tvec2<T>& a, T b)`. -/
def mulScalar [Mul T] (a : tvec2 T) (b : T) : tvec2 T := ⟨a.x * b, a.y * b⟩

/-- The `operator*(T b, const tvec2<T>& a)`; the body multiplies on the right. -/
def scalarMul [Mul T] (b : T) (a : tvec2 T) : tvec2 T := ⟨a.x * b, a.y * b⟩

/-- Function `dot` on `tvec2`. -/
def dot [Add T] [Mul T] (a b : tvec2 T) : T := a.x * b.x + a.y * b.y

/-- Function `length(a) = sqrt(dot(a, a))`. -/
def length [Add T] [Mul T] (sqrt : T → T) (a : tvec2 T) : T := sqrt (dot a a)

/-- Function `normalize`: the zero vector `T(0)` when the length is zero,
else `a*(1/d)`. -/
def normalize [Add T] [Mul T] [Div T] [Zero T] [One T] [DecidableEq T]
    (sqrt : T → T) (a : tvec2 T) : tvec2 T :=
  let d := length sqrt a
  if d = 0 then splat 0 else mulScalar a (1 / d)

end tvec2

namespace tvec3
variable {T : Type}

/-- Constructor `tvec3(T v) : x(v), y(v), z(v)`. -/
def splat (v : T) : tvec3 T := ⟨v, v, v⟩

/-- Constructor `tvec3(const tvec4<T>& v)`: drops `w`. -/
def ofVec4 (v : tvec4 T) : tvec3 T := ⟨v.x, v.y, v.z⟩

/-- Unary `operator-`. -/
def neg [Neg T] (a : tvec3 T) : tvec3 T := ⟨-a.x, -a.y, -a.z⟩

/-- Binary `operator+` on vectors. -/
def add [Add T] (a b : tvec3 T) : tvec3 T := ⟨a.x + b.x, a.y + b.y, a.z + b.z⟩

/-- Binary `operator-` on vectors. -/
def sub [Sub T] (a b : tvec3 T) : tvec3 T := ⟨a.x - b.x, a.y - b.y, a.z - b.z⟩

/-- The `operator*(const tvec3<T>& a, T b)`. -/
def mulScalar [Mul T] (a : tvec3 T) (b : T) : tvec3 T := ⟨a.x * b, a.y * b, a.z * b⟩

/-- The `operator*(T b, const tvec3<T>& a)`; the body multiplies on the right. -/
def scalarMul [Mul T] (b : T) (a : tvec3 T) : tvec3 T := ⟨a.x * b, a.y * b, a.z * b⟩

/-- Function `dot` on `tvec3`. -/
def dot [Add T] [Mul T] (a b : tvec3 T) : T := a.x * b.x + a.y * b.y + a.z * b.z

/-- Function `cross` on `tvec3`. -/
def cross [Sub T] [Mul T] (a b : tvec3 T) : tvec3 T :=
  ⟨a.y * b.z - b.y * a.z, a.z * b.x - b.z * a.x, a.x * b.y - b.x * a.y⟩

/-- Function `length(a) = sqrt(dot(a, a))`. -/
def length [Add T] [Mul T] (sqrt : T → T) (a : tvec3 T) : T := sqrt (dot a a)

/-- Function `normalize`: the zero vector `T(0)` when the length is zero,
else `a*(1/d)`. -/
def normalize [Add T] [Mul T] [Div T] [Zero T] [One T] [DecidableEq T]
    (sqrt : T → T) (a : tvec3 T) : tvec3 T :=
  let d := length sqrt a
  if d = 0 then splat 0 else mulScalar a (1 / d)

end tvec3

namespace tvec4
variable {T : Type}

/-- Constructor `tvec4(T v) : x(v), y(v), z(v), w(v)`. -/
def splat (v : T) : tvec4 T := ⟨v, v, v, v⟩

/-- Constructor `tvec4(const tvec3<T>& v, T w)`. -/
def ofVec3 (v : tvec3 T) (w : T) : tvec4 T := ⟨v.x, v.y, v.z, w⟩

/-- Unary `operator-`. -/
def neg [Neg T] (a : tvec4 T) : tvec4 T := ⟨-a.x, -a.y, -a.z, -a.w⟩

/-- Binary `operator+` on vectors. -/
def add [Add T] (a b : tvec4 T) : tvec4 T :=
  ⟨a.x + b.x, a.y + b.y, a.z + b.z, a.w + b.w⟩

/-- Binary `operator-` on vectors. -/
def sub [Sub T] (a b : tvec4 T) : tvec4 T :=
  ⟨a.x - b.x, a.y - b.y, a.z - b.z, a.w - b.w⟩

/-- The `operator*(const tvec4<T>& a, T b)`. -/
def mulScalar [Mul T] (a : tvec4 T) (b : T) : tvec4 T :=
  ⟨a.x * b, a.y * b, a.z * b, a.w * b⟩

/-- The `operator*(T b, const tvec4<T>& a)`; the body multiplies on the right. -/
def scalarMul [Mul T] (b : T) (a : tvec4 T) : tvec4 T :=
  ⟨a.x * b, a.y * b, a.z * b, a.w * b⟩

/-- Function `dot` on `tvec4`. -/
def dot [Add T] [Mul T] (a b : tvec4 T) : T :=
  a.x * b.x + a.y * b.y + a.z * b.z + a.w * b.w

/-- Function `length(a) = sqrt(dot(a, a))`. -/
def length [Add T] [Mul T] (sqrt : T → T) (a : tvec4 T) : T := sqrt (dot a a)

/-- Function `normalize`: the zero vector `T(0)` when the length is zero,
else `a*(1/d)`. -/
def normalize [Add T] [Mul T] [Div T] [Zero T] [One T] [DecidableEq T]
    (sqrt : T → T) (a : tvec4 T) : tvec4 T :=
  let d := length sqrt a
  if d = 0 then splat 0 else mulScalar a (1 / d)

end tvec4

/-! ## Matrices (column-major: `m[j]` is column `j`) -/

/-- Class `tmat2<T>`: `tvec2<T> m[2]`, the two columns. -/
structure tmat2 (T : Type) where
  m0 : tvec2 T
  m1 : tvec2 T
  deriving DecidableEq, Repr

/-- Class `tmat3<T>`: `tvec3<T> m[3]`, the three columns. -/
structure tmat3 (T : Type) where
  m0 : tvec3 T
  m1 : tvec3 T
  m2 : tvec3 T
  deriving DecidableEq, Repr

/-- Class `tmat4<T>`: `tvec4<T> m[4]`, the four columns. -/
structure tmat4 (T : Type) where
  m0 : tvec4 T
  m1 : tvec4 T
  m2 : tvec4 T
  m3 : tvec4 T
  deriving DecidableEq, Repr

namespace tmat2
variable {T : Type}

/-- The `operator[](size_t index)`: column `index`. -/
def col (m : tmat2 T) (index : Fin 2) : tvec2 T :=
  match index with
  | 0 => m.m0
  | 1 => m.m1

/-- Constructor `tmat2(T v) : m{{v,0}, {0,v}}`. -/
def ofScalar [Zero T] (v : T) : tmat2 T := ⟨⟨v, 0⟩, ⟨0, v⟩⟩

/-- Constructor `tmat2(T xx, T xy, T yx, T yy) : m{{xx,xy}, {yx,yy}}`. -/
def ofElems (xx xy yx yy : T) : tmat2 T := ⟨⟨xx, xy⟩, ⟨yx, yy⟩⟩

/-- The `operator*(const tmat2<T>& m, const tvec2<T>& v)`. -/
def mulVec [Add T] [Mul T] (m : tmat2 T) (v : tvec2 T) : tvec2 T :=
  ⟨m.m0.x * v.x + m.m1.x * v.y,
   m.m0.y * v.x + m.m1.y * v.y⟩

/-- The `operator*(const tvec2<T>& v, const tmat2<T>& m)`. -/
def vecMul [Add T] [Mul T] (v : tvec2 T) (m : tmat2 T) : tvec2 T :=
  ⟨m.m0.x * v.x + m.m0.y * v.y,
   m.m1.x * v.x + m.m1.y * v.y⟩

/-- The `operator*(const tmat2<T>& a, const tmat2<T>& b)`. -/
def mul [Add T] [Mul T] (a b : tmat2 T) : tmat2 T :=
  let a00 := a.m0.x; let a01 := a.m0.y; let a10 := a.m1.x; let a11 := a.m1.y
  let b00 := b.m0.x; let b01 := b.m0.y; let b10 := b.m1.x; let b11 := b.m1.y
  ofElems
    (a00*b00 + a10*b01)
    (a01*b00 + a11*b01)
    (a00*b10 + a10*b11)
    (a01*b10 + a11*b11)

/-- Function `transpose` on `tmat2`. -/
def transpose (m : tmat2 T) : tmat2 T :=
  ofElems
    m.m0.x m.m1.x
    m.m0.y m.m1.y

/-- Function `inverse` on `tmat2`: adjugate times `1/(a*d - b*c)`. -/
def inverse [Sub T] [Mul T] [Div T] [Neg T] [One T] (m : tmat2 T) : tmat2 T :=
  let a := m.m0.x; let b := m.m0.y; let c := m.m1.x; let d := m.m1.y
  let f := 1 / (a*d - b*c)
  ofElems (d*f) (-b*f) (-c*f) (a*f)

end tmat2

namespace tmat3
variable {T : Type}

/-- The `operator[](size_t index)`: column `index`. -/
def col (m : tmat3 T) (index : Fin 3) : tvec3 T :=
  match index with
  | 0 => m.m0
  | 1 => m.m1
  | 2 => m.m2

/-- Constructor `tmat3(T v)`: `v` on the diagonal. -/
def ofScalar [Zero T] (v : T) : tmat3 T := ⟨⟨v, 0, 0⟩, ⟨0, v, 0⟩, ⟨0, 0, v⟩⟩

/-- Constructor `tmat3(T xx, ..., T zz) : m{{xx,xy,xz}, {yx,yy,yz}, {zx,zy,zz}}`. -/
def ofElems (xx xy xz yx yy yz zx zy zz : T) : tmat3 T :=
  ⟨⟨xx, xy, xz⟩, ⟨yx, yy, yz⟩, ⟨zx, zy, zz⟩⟩

/-- Constructor `tmat3(const tmat4<T>& m)`: the upper-left block. -/
def ofMat4 (m : tmat4 T) : tmat3 T :=
  ⟨⟨m.m0.x, m.m0.y, m.m0.z⟩, ⟨m.m1.x, m.m1.y, m.m1.z⟩, ⟨m.m2.x, m.m2.y, m.m2.z⟩⟩

/-- The `operator*(const tmat3<T>& m, const tvec3<T>& v)`. -/
def mulVec [Add T] [Mul T] (m : tmat3 T) (v : tvec3 T) : tvec3 T :=
  ⟨m.m0.x * v.x + m.m1.x * v.y + m.m2.x * v.z,
   m.m0.y * v.x + m.m1.y * v.y + m.m2.y * v.z,
   m.m0.z * v.x + m.m1.z * v.y + m.m2.z * v.z⟩

/-- The `operator*(const tvec3<T>& v, const tmat3<T>& m)`. -/
def vecMul [Add T] [Mul T] (v : tvec3 T) (m : tmat3 T) : tvec3 T :=
  ⟨m.m0.x * v.x + m.m0.y * v.y + m.m0.z * v.z,
   m.m1.x * v.x + m.m1.y * v.y + m.m1.z * v.z,
   m.m2.x * v.x + m.m2.y * v.y + m.m2.z * v.z⟩

/-- The `operator*(const tmat3<T>& a, const tmat3<T>& b)`. -/
def mul [Add T] [Mul T] (a b : tmat3 T) : tmat3 T :=
  let a00 := a.m0.x; let a01 := a.m0.y; let a02 := a.m0.z
  let a10 := a.m1.x; let a11 := a.m1.y; let a12 := a.m1.z
  let a20 := a.m2.x; let a21 := a.m2.y; let a22 := a.m2.z
  let b00 := b.m0.x; let b01 := b.m0.y; let b02 := b.m0.z
  let b10 := b.m1.x; let b11 := b.m1.y; let b12 := b.m1.z
  let b20 := b.m2.x; let b21 := b.m2.y; let b22 := b.m2.z
  ofElems
    (a00*b00 + a10*b01 + a20*b02)
    (a01*b00 + a11*b01 + a21*b02)
    (a02*b00 + a12*b01 + a22*b02)
    (a00*b10 + a10*b11 + a20*b12)
    (a01*b10 + a11*b11 + a21*b12)
    (a02*b10 + a12*b11 + a22*b12)
    (a00*b20 + a10*b21 + a20*b22)
    (a01*b20 + a11*b21 + a21*b22)
    (a02*b20 + a12*b21 + a22*b22)

/-- Function `transpose` on `tmat3`. -/
def transpose (m : tmat3 T) : tmat3 T :=
  ofElems
    m.m0.x m.m1.x m.m2.x
    m.m0.y m.m1.y m.m2.y
    m.m0.z m.m1.z m.m2.z

/-- Function `inverse` on `tmat3`: cofactors times
`1/(ax*dax + bx*dbx + cx*dcx)`.  The local `by` of the source is `by_` here. -/
def inverse [Add T] [Sub T] [Mul T] [Div T] [One T] (m : tmat3 T) : tmat3 T :=
  let ax := m.m0.x; let ay := m.m0.y; let az := m.m0.z
  let bx := m.m1.x; let by_ := m.m1.y; let bz := m.m1.z
  let cx := m.m2.x; let cy := m.m2.y; let cz := m.m2.z
  let dax := by_*cz - bz*cy
  let dbx := cy*az - cz*ay
  let dcx := ay*bz - az*by_
  let d := 1 / (ax*dax + bx*dbx + cx*dcx)
  ofElems (dax*d) (dbx*d) (dcx*d)
    ((bz*cx - bx*cz)*d) ((cz*ax - cx*az)*d) ((az*bx - ax*bz)*d)
    ((bx*cy - by_*cx)*d) ((cx*ay - cy*ax)*d) ((ax*by_ - ay*bx)*d)

end tmat3

namespace tmat4
variable {T : Type}

/-- The `operator[](size_t index)`: column `index`. -/
def col (m : tmat4 T) (index : Fin 4) : tvec4 T :=
  match index with
  | 0 => m.m0
  | 1 => m.m1
  | 2 => m.m2
  | 3 => m.m3

/-- Constructor `tmat4(T v)`: `v` on the diagonal. -/
def ofScalar [Zero T] (v : T) : tmat4 T :=
  ⟨⟨v, 0, 0, 0⟩, ⟨0, v, 0, 0⟩, ⟨0, 0, v, 0⟩, ⟨0, 0, 0, v⟩⟩

/-- Constructor `tmat4(T xx, ..., T ww)`:
`m{{xx,xy,xz,xw}, {yx,yy,yz,yw}, {zx,zy,zz,zw}, {wx,wy,wz,ww}}`. -/
def ofElems (xx xy xz xw yx yy yz yw zx zy zz zw wx wy wz ww : T) : tmat4 T :=
  ⟨⟨xx, xy, xz, xw⟩, ⟨yx, yy, yz, yw⟩, ⟨zx, zy, zz, zw⟩, ⟨wx, wy, wz, ww⟩⟩

/-- The `operator*(const tmat4<T>& m, const tvec4<T>& v)`. -/
def mulVec [Add T] [Mul T] (m : tmat4 T) (v : tvec4 T) : tvec4 T :=
  ⟨m.m0.x * v.x + m.m1.x * v.y + m.m2.x * v.z + m.m3.x * v.w,
   m.m0.y * v.x + m.m1.y * v.y + m.m2.y * v.z + m.m3.y * v.w,
   m.m0.z * v.x + m.m1.z * v.y + m.m2.z * v.z + m.m3.z * v.w,
   m.m0.w * v.x + m.m1.w * v.y + m.m2.w * v.z + m.m3.w * v.w⟩

/-- The `operator*(const tvec4<T>& v, const tmat4<T>& m)`. -/
def vecMul [Add T] [Mul T] (v : tvec4 T) (m : tmat4 T) : tvec4 T :=
  ⟨m.m0.x * v.x + m.m0.y * v.y + m.m0.z * v.z + m.m0.w * v.w,
   m.m1.x * v.x + m.m1.y * v.y + m.m1.z * v.z + m.m1.w * v.w,
   m.m2.x * v.x + m.m2.y * v.y + m.m2.z * v.z + m.m2.w * v.w,
   m.m3.x * v.x + m.m3.y * v.y + m.m3.z * v.z + m.m3.w * v.w⟩

/-- The `operator*(const tmat4<T>& a, const tmat4<T>& b)`. -/
def mul [Add T] [Mul T] (a b : tmat4 T) : tmat4 T :=
  let a00 := a.m0.x; let a01 := a.m0.y; let a02 := a.m0.z; let a03 := a.m0.w
  let a10 := a.m1.x; let a11 := a.m1.y; let a12 := a.m1.z; let a13 := a.m1.w
  let a20 := a.m2.x; let a21 := a.m2.y; let a22 := a.m2.z; let a23 := a.m2.w
  let a30 := a.m3.x; let a31 := a.m3.y; let a32 := a.m3.z; let a33 := a.m3.w
  let b00 := b.m0.x; let b01 := b.m0.y; let b02 := b.m0.z; let b03 := b.m0.w
  let b10 := b.m1.x; let b11 := b.m1.y; let b12 := b.m1.z; let b13 := b.m1.w
  let b20 := b.m2.x; let b21 := b.m2.y; let b22 := b.m2.z; let b23 := b.m2.w
  let b30 := b.m3.x; let b31 := b.m3.y; let b32 := b.m3.z; let b33 := b.m3.w
  ofElems
    (a00*b00 + a10*b01 + a20*b02 + a30*b03)
    (a01*b00 + a11*b01 + a21*b02 + a31*b03)
    (a02*b00 + a12*b01 + a22*b02 + a32*b03)
    (a03*b00 + a13*b01 + a23*b02 + a33*b03)
    (a00*b10 + a10*b11 + a20*b12 + a30*b13)
    (a01*b10 + a11*b11 + a21*b12 + a31*b13)
    (a02*b10 + a12*b11 + a22*b12 + a32*b13)
    (a03*b10 + a13*b11 + a23*b12 + a33*b13)
    (a00*b20 + a10*b21 + a20*b22 + a30*b23)
    (a01*b20 + a11*b21 + a21*b22 + a31*b23)
    (a02*b20 + a12*b21 + a22*b22 + a32*b23)
    (a03*b20 + a13*b21 + a23*b22 + a33*b23)
    (a00*b30 + a10*b31 + a20*b32 + a30*b33)
    (a01*b30 + a11*b31 + a21*b32 + a31*b33)
    (a02*b30 + a12*b31 + a22*b32 + a32*b33)
    (a03*b30 + a13*b31 + a23*b32 + a33*b33)

/-- Function `transpose` on `tmat4`. -/
def transpose (m : tmat4 T) : tmat4 T :=
  ofElems
    m.m0.x m.m1.x m.m2.x m.m3.x
    m.m0.y m.m1.y m.m2.y m.m3.y
    m.m0.z m.m1.z m.m2.z m.m3.z
    m.m0.w m.m1.w m.m2.w m.m3.w

/-- Function `inverse` on `tmat4`: the sixteen cofactors `dst0..dst15`, built
from the pair products `tmp0..tmp11` (computed twice, as in the source),
times `1/(src0*dst0 + src1*dst1 + src2*dst2 + src3*dst3)`.  A statement
`dst -= e` after `dst = e0` is the value `e0 - e`. -/
def inverse [Add T] [Sub T] [Mul T] [Div T] [One T] (m : tmat4 T) : tmat4 T :=
  -- Transpose matrix
  let src0 := m.m0.x; let src1 := m.m1.x; let src2 := m.m2.x; let src3 := m.m3.x
  let src4 := m.m0.y; let src5 := m.m1.y; let src6 := m.m2.y; let src7 := m.m3.y
  let src8 := m.m0.z; let src9 := m.m1.z; let src10 := m.m2.z; let src11 := m.m3.z
  let src12 := m.m0.w; let src13 := m.m1.w; let src14 := m.m2.w; let src15 := m.m3.w
  -- Calculate pairs for first 8 elements (cofactors)
  let tmp0 := src10 * src15
  let tmp1 := src11 * src14
  let tmp2 := src9 * src15
  let tmp3 := src11 * src13
  let tmp4 := src9 * src14
  let tmp5 := src10 * src13
  let tmp6 := src8 * src15
  let tmp7 := src11 * src12
  let tmp8 := src8 * src14
  let tmp9 := src10 * src12
  let tmp10 := src8 * src13
  let tmp11 := src9 * src12
  -- Calculate first 8 elements (cofactors)
  let dst0 := (tmp0*src5 + tmp3*src6 + tmp4*src7) - (tmp1*src5 + tmp2*src6 + tmp5*src7)
  let dst1 := (tmp1*src4 + tmp6*src6 + tmp9*src7) - (tmp0*src4 + tmp7*src6 + tmp8*src7)
  let dst2 := (tmp2*src4 + tmp7*src5 + tmp10*src7) - (tmp3*src4 + tmp6*src5 + tmp11*src7)
  let dst3 := (tmp5*src4 + tmp8*src5 + tmp11*src6) - (tmp4*src4 + tmp9*src5 + tmp10*src6)
  let dst4 := (tmp1*src1 + tmp2*src2 + tmp5*src3) - (tmp0*src1 + tmp3*src2 + tmp4*src3)
  let dst5 := (tmp0*src0 + tmp7*src2 + tmp8*src3) - (tmp1*src0 + tmp6*src2 + tmp9*src3)
  let dst6 := (tmp3*src0 + tmp6*src1 + tmp11*src3) - (tmp2*src0 + tmp7*src1 + tmp10*src3)
  let dst7 := (tmp4*src0 + tmp9*src1 + tmp10*src2) - (tmp5*src0 + tmp8*src1 + tmp11*src2)
  -- Calculate pairs for second 8 elements (cofactors)
  let tmp0 := src2*src7
  let tmp1 := src3*src6
  let tmp2 := src1*src7
  let tmp3 := src3*src5
  let tmp4 := src1*src6
  let tmp5 := src2*src5
  let tmp6 := src0*src7
  let tmp7 := src3*src4
  let tmp8 := src0*src6
  let tmp9 := src2*src4
  let tmp10 := src0*src5
  let tmp11 := src1*src4
  -- Calculate second 8 elements (cofactors)
  let dst8 := (tmp0*src13 + tmp3*src14 + tmp4*src15) - (tmp1*src13 + tmp2*src14 + tmp5*src15)
  let dst9 := (tmp1*src12 + tmp6*src14 + tmp9*src15) - (tmp0*src12 + tmp7*src14 + tmp8*src15)
  let dst10 := (tmp2*src12 + tmp7*src13 + tmp10*src15) - (tmp3*src12 + tmp6*src13 + tmp11*src15)
  let dst11 := (tmp5*src12 + tmp8*src13 + tmp11*src14) - (tmp4*src12 + tmp9*src13 + tmp10*src14)
  let dst12 := (tmp2*src10 + tmp5*src11 + tmp1*src9) - (tmp4*src11 + tmp0*src9 + tmp3*src10)
  let dst13 := (tmp8*src11 + tmp0*src8 + tmp7*src10) - (tmp6*src10 + tmp9*src11 + tmp1*src8)
  let dst14 := (tmp6*src9 + tmp11*src11 + tmp3*src8) - (tmp10*src11 + tmp2*src8 + tmp7*src9)
  let dst15 := (tmp10*src10 + tmp4*src8 + tmp9*src9) - (tmp8*src9 + tmp11*src10 + tmp5*src8)
  -- Multiply by inverse of determinant
  let d := 1 / (src0*dst0 + src1*dst1 + src2*dst2 + src3*dst3)
  ofElems (dst0*d) (dst1*d) (dst2*d) (dst3*d)
    (dst4*d) (dst5*d) (dst6*d) (dst7*d)
    (dst8*d) (dst9*d) (dst10*d) (dst11*d)
    (dst12*d) (dst13*d) (dst14*d) (dst15*d)

end tmat4

/-! ## Camera helpers -/

/-- Function `getCameraPosition`:
`inverse(tmat3<T>(m)) * (-tvec3<T>(m[3]))`. -/
def getCameraPosition {T : Type} [Add T] [Sub T] [Mul T] [Div T] [Neg T] [One T]
    (m : tmat4 T) : tvec3 T :=
  tmat3.mulVec (tmat3.inverse (tmat3.ofMat4 m)) (tvec3.neg (tvec3.ofVec4 m.m3))

/-- Function `setCameraPosition`:
`m[3] = tvec4<T>(tmat3<T>(m)*(-pos), 1.0)`; the other columns are kept. -/
def setCameraPosition {T : Type} [Add T] [Mul T] [Neg T] [One T]
    (m : tmat4 T) (pos : tvec3 T) : tmat4 T :=
  { m with m3 := tvec4.ofVec3 (tmat3.mulVec (tmat3.ofMat4 m) (tvec3.neg pos)) 1 }

/-! ## Reflection, translation, rotation, view and projection builders -/

/-- Function `reflect(a, b) = a - (2*dot(a, b))*b` on `tvec2`. -/
def tvec2.reflect {T : Type} [Add T] [Sub T] [Mul T] [OfNat T 2] (a b : tvec2 T) : tvec2 T :=
  tvec2.sub a (tvec2.scalarMul (2 * tvec2.dot a b) b)

/-- Function `reflect(a, b) = a - (2*dot(a, b))*b` on `tvec3`. -/
def tvec3.reflect {T : Type} [Add T] [Sub T] [Mul T] [OfNat T 2] (a b : tvec3 T) : tvec3 T :=
  tvec3.sub a (tvec3.scalarMul (2 * tvec3.dot a b) b)

/-- Function `reflect(a, b) = a - (2*dot(a, b))*b` on `tvec4`. -/
def tvec4.reflect {T : Type} [Add T] [Sub T] [Mul T] [OfNat T 2] (a b : tvec4 T) : tvec4 T :=
  tvec4.sub a (tvec4.scalarMul (2 * tvec4.dot a b) b)

/-- Function `translate(tmat3<T>& m, x, y)`: `m[2].x` and `m[2].y` are updated,
`m[2].z` and the other columns are kept.  Returns the new value of `m`. -/
def tmat3.translate {T : Type} [Add T] [Mul T] (m : tmat3 T) (x y : T) : tmat3 T :=
  { m with m2 :=
      ⟨m.m2.x + (m.m0.x * x + m.m1.x * y),
       m.m2.y + (m.m0.y * x + m.m1.y * y),
       m.m2.z⟩ }

/-- Function `translate(tmat4<T>& m, x, y, z)`: `m[3].x`, `m[3].y` and `m[3].z` are
updated, `m[3].w` and the other columns are kept.  Returns the new value of
`m`. -/
def tmat4.translate {T : Type} [Add T] [Mul T] (m : tmat4 T) (x y z : T) : tmat4 T :=
  { m with m3 :=
      ⟨m.m3.x + (m.m0.x * x + m.m1.x * y + m.m2.x * z),
       m.m3.y + (m.m0.y * x + m.m1.y * y + m.m2.y * z),
       m.m3.z + (m.m0.z * x + m.m1.z * y + m.m2.z * z),
       m.m3.w⟩ }

/-- Function `rotation(T angle, T ax, T ay, T az)` (rank 3, Rodrigues).  The
functions `sqrt`, `sin`, `cos` and the constant `M_PI` are parameters. -/
def tmat3.rotation {T : Type} [LinearOrderedField T] (sqrt sin cos : T → T) (pi : T)
    (angle ax ay az : T) : tmat3 T :=
  let ad := sqrt (ax*ax + ay*ay + az*az)
  if ad > 0 then
    let ad := 1 / ad
    let ax := ax * ad
    let ay := ay * ad
    let az := az * ad
    let angle := angle * (-pi / 180)
    let si := sin angle
    let co := cos angle
    let ti := 1 - co
    let tx := ti * ax; let ty := ti * ay; let tz := ti * az
    let sx := si * ax; let sy := si * ay; let sz := si * az
    -- derived from multiply(mm,mm,bm)
    let bm0 := tx * ax + co
    let bm4 := tx * ay + sz
    let bm8 := tx * az - sy
    let bm1 := tx * ay - sz
    let bm5 := ty * ay + co
    let bm9 := ty * az + sx
    let bm2 := tx * az + sy
    let bm6 := ty * az - sx
    let bm10 := tz * az + co
    tmat3.ofElems
      bm0 bm1 bm2
      bm4 bm5 bm6
      bm8 bm9 bm10
  else
    tmat3.ofScalar 1

/-- Function `lookAt(mat, px, py, pz, fx, fy, fz, ux, uy, uz)`: all sixteen
entries of `mat` are written, so the result is returned. -/
def lookAt {T : Type} [Add T] [Sub T] [Mul T] [Div T] [Neg T] [Zero T] [One T]
    (sqrt : T → T) (px py pz fx fy fz ux uy uz : T) : tmat4 T :=
  let f0 := px - fx; let f1 := py - fy; let f2 := pz - fz
  let t := 1 / sqrt (f0*f0 + f1*f1 + f2*f2)
  let f0 := f0 * t; let f1 := f1 * t; let f2 := f2 * t
  let r0 := f2*uy - f1*uz
  let r1 := f0*uz - f2*ux
  let r2 := f1*ux - f0*uy
  let t := 1 / sqrt (r0*r0 + r1*r1 + r2*r2)
  let r0 := r0 * t; let r1 := r1 * t; let r2 := r2 * t
  let d0 := f1*r2 - f2*r1
  let d1 := f2*r0 - f0*r2
  let d2 := f0*r1 - f1*r0
  ⟨⟨r0, d0, f0, 0⟩, ⟨r1, d1, f1, 0⟩, ⟨r2, d2, f2, 0⟩,
   ⟨-(r0*px + r1*py + r2*pz), -(d0*px + d1*py + d2*pz), -(f0*px + f1*py + f2*pz), 1⟩⟩

/-- Function `lookAt(mat, p, f, u)`, the overload on `tvec3` arguments. -/
def lookAtVec {T : Type} [Add T] [Sub T] [Mul T] [Div T] [Neg T] [Zero T] [One T]
    (sqrt : T → T) (p f u : tvec3 T) : tmat4 T :=
  lookAt sqrt p.x p.y p.z f.x f.y f.z u.x u.y u.z

/-- Function `perspectiveProjection(fovy, aspect, near_z, far_z)`; `tan` and the
constant `M_PI` are parameters.  The local `by` of the source is `by_` here. -/
def perspectiveProjection {T : Type} [Field T] (tan : T → T) (pi : T)
    (fovy aspect near_z far_z : T) : tmat4 T :=
  let d := 1 / tan (pi * fovy / 360)
  let ax := d / aspect
  let by_ := d
  let cz := (near_z + far_z) / (near_z - far_z)
  let cp := 2 * far_z * near_z / (near_z - far_z)
  tmat4.ofElems
    ax 0 0 0
    0 by_ 0 0
    0 0 cz (-1)
    0 0 cp 0

/-- Function `orthographicProjection(left, right, bottom, top, near, far)`.  The
local `by` of the source is `by_` here. -/
def orthographicProjection {T : Type} [Field T] (left right bottom top near far : T) :
    tmat4 T :=
  let tx := -(right + left) / (right - left)
  let ty := -(top + bottom) / (top - bottom)
  let tz := -(far + near) / (far - near)
  let ax := 2 / (right - left)
  let by_ := 2 / (top - bottom)
  let cz := -2 / (far - near)
  tmat4.ofElems
    ax 0 0 0
    0 by_ 0 0
    0 0 cz 0
    tx ty tz 1

/-- Function `calculate_ray`: returns the pair `(ret_pos, ret_dir)`.  The viewport
arguments are `int`; `viewY + viewHeight` is an `int` sum, converted to `T`
when `screen_y` is subtracted.  `normalize` is applied to the `tvec4` product
and the result is converted to `tvec3` (dropping `w`) by the assignment to
`ret_dir`. -/
def calculate_ray {T : Type} [Field T] [DecidableEq T] (sqrt : T → T) (screen_x screen_y : T)
    (modelView projection : tmat4 T) (viewX viewY viewWidth viewHeight : ℤ) :
    tvec3 T × tvec3 T :=
  let ret_pos := getCameraPosition modelView
  let clip_dir : tvec4 T :=
    ⟨(screen_x - (viewX : T)) * 2 / (viewWidth : T) - 1,
     (((viewY + viewHeight : ℤ) : T) - screen_y) * 2 / (viewHeight : T) - 1,
     1, 1⟩
  let ret_dir := tvec3.ofVec4 (tvec4.normalize sqrt
    (tmat4.mulVec (tmat4.inverse modelView) (tmat4.mulVec (tmat4.inverse projection) clip_dir)))
  (ret_pos, ret_dir)

/-! ## Rank conversion constructors -/

/-- Constructor `tmat2(const tmat3<T>& m)`: the upper-left 2x2 block. -/
def tmat2.ofMat3 {T : Type} (m : tmat3 T) : tmat2 T :=
  ⟨⟨m.m0.x, m.m0.y⟩, ⟨m.m1.x, m.m1.y⟩⟩

/-- Constructor `tmat2(const tmat4<T>& m)`: the upper-left 2x2 block. -/
def tmat2.ofMat4 {T : Type} (m : tmat4 T) : tmat2 T :=
  ⟨⟨m.m0.x, m.m0.y⟩, ⟨m.m1.x, m.m1.y⟩⟩

/-- Constructor `tvec3(const tvec2<T>& v, T z)`. -/
def tvec3.ofVec2 {T : Type} (v : tvec2 T) (z : T) : tvec3 T := ⟨v.x, v.y, z⟩

/-- Constructor `tvec4(const tvec2<T>& v, T z, T w)`. -/
def tvec4.ofVec2 {T : Type} (v : tvec2 T) (z w : T) : tvec4 T := ⟨v.x, v.y, z, w⟩

/-- Constructor `tmat3(const tmat2<T>& m)`:
`m{tvec3<T>(m[0], 0), tvec3<T>(m[1], 0), tvec3<T>(0, 0, 1)}`. -/
def tmat3.ofMat2 {T : Type} [Zero T] [One T] (m : tmat2 T) : tmat3 T :=
  ⟨tvec3.ofVec2 m.m0 0, tvec3.ofVec2 m.m1 0, ⟨0, 0, 1⟩⟩

/-- Constructor `tmat4(const tmat3<T>& m)`:
`m{tvec4<T>(m[0], 0), tvec4<T>(m[1], 0), tvec4<T>(m[2], 0), tvec4<T>(0, 0, 0, 1)}`. -/
def tmat4.ofMat3 {T : Type} [Zero T] [One T] (m : tmat3 T) : tmat4 T :=
  ⟨tvec4.ofVec3 m.m0 0, tvec4.ofVec3 m.m1 0, tvec4.ofVec3 m.m2 0, ⟨0, 0, 0, 1⟩⟩

/-- Constructor `tmat4(const tmat2<T>& m)`:
`m{tvec4<T>(m[0], 0, 0), tvec4<T>(m[1], 0, 0), tvec4<T>(0, 0, 1, 0),
tvec4<T>(0, 0, 0, 1)}`. -/
def tmat4.ofMat2 {T : Type} [Zero T] [One T] (m : tmat2 T) : tmat4 T :=
  ⟨tvec4.ofVec2 m.m0 0 0, tvec4.ofVec2 m.m1 0 0, ⟨0, 0, 1, 0⟩, ⟨0, 0, 0, 1⟩⟩

/-! ## Orthonormalisation and spherical interpolation -/

/-- Function `mix(x, y, t) = x + (y - x)*t` on `tvec3` with a scalar `t`. -/
def tvec3.mix {T : Type} [Add T] [Sub T] [Mul T] (x y : tvec3 T) (t : T) : tvec3 T :=
  tvec3.add x (tvec3.mulScalar (tvec3.sub y x) t)

/-- Function `orthonormalize(v0, v1, v2)`: returns the new values of the three
in-out arguments.  The incoming value of `v2` is overwritten without being
read. -/
def orthonormalize {T : Type} [Add T] [Sub T] [Mul T] [Div T] [One T]
    (sqrt : T → T) (v0 v1 _v2 : tvec3 T) : tvec3 T × tvec3 T × tvec3 T :=
  let t := 1 / sqrt (v0.x*v0.x + v0.y*v0.y + v0.z*v0.z)
  let v0 : tvec3 T := ⟨v0.x * t, v0.y * t, v0.z * t⟩
  let t := v1.x*v0.x + v1.y*v0.y + v1.z*v0.z
  let v1 : tvec3 T := ⟨v1.x - t*v0.x, v1.y - t*v0.y, v1.z - t*v0.z⟩
  let t := 1 / sqrt (v1.x*v1.x + v1.y*v1.y + v1.z*v1.z)
  let v1 : tvec3 T := ⟨v1.x * t, v1.y * t, v1.z * t⟩
  let v2 : tvec3 T :=
    ⟨v0.y*v1.z - v0.z*v1.y,
     v0.z*v1.x - v0.x*v1.z,
     v0.x*v1.y - v0.y*v1.x⟩
  (v0, v1, v2)

/-- The combined axis `ax` of rank-3 `slerp` (the three assignments `ax.x = ...`,
`ax.y = ...`, `ax.z = ...`), with `irig, idow, ifor = a[0], a[1], a[2]` and
`irig2, idow2, ifor2 = b[0], b[1], b[2]`. -/
def tmat3.slerpAxis {T : Type} [Add T] [Sub T] [Mul T] (a b : tmat3 T) : tvec3 T :=
  let irig := a.m0; let idow := a.m1; let ifor := a.m2
  let irig2 := b.m0; let idow2 := b.m1; let ifor2 := b.m2
  ⟨irig.y*irig2.z - irig.z*irig2.y + idow.y*idow2.z - idow.z*idow2.y
      + ifor.y*ifor2.z - ifor.z*ifor2.y,
   irig.z*irig2.x - irig.x*irig2.z + idow.z*idow2.x - idow.x*idow2.z
      + ifor.z*ifor2.x - ifor.x*ifor2.z,
   irig.x*irig2.y - irig.y*irig2.x + idow.x*idow2.y - idow.y*idow2.x
      + ifor.x*ifor2.y - ifor.y*ifor2.x⟩

/-- The choice of the pair `(c, s)` in rank-3 `slerp`: `ox`, `oy` are the
components of `ax` along `irig` and `idow`; the pair of the smaller `fabs` is
taken (`irig` only when `fabs(ox) < fabs(oy)`). -/
def tmat3.slerpSelect {T : Type} [LinearOrderedField T] (a b : tmat3 T) (ax : tvec3 T) :
    T × T :=
  let irig := a.m0; let idow := a.m1
  let irig2 := b.m0; let idow2 := b.m1
  let ox := irig.x*ax.x + irig.y*ax.y + irig.z*ax.z
  let oy := idow.x*ax.x + idow.y*ax.y + idow.z*ax.z
  if abs ox < abs oy then
    (irig.x*irig2.x + irig.y*irig2.y + irig.z*irig2.z, ox*ox)
  else
    (idow.x*idow2.x + idow.y*idow2.y + idow.z*idow2.z, oy*oy)

/-- The tail of rank-3 `slerp`: the nine coefficients `k[0..8]` built from the
normalised axis `ax`, `s`, `c` (`t = 1.0f - c`; a second assignment to a `k[i]`
rebinds it), and their application to the three columns of `ret`. -/
def tmat3.slerpRotate {T : Type} [Add T] [Sub T] [Mul T] [One T]
    (ax : tvec3 T) (s c : T) (ret : tmat3 T) : tmat3 T :=
  let t := 1 - c
  let k0 := ax.x*t; let k7 := ax.x*s; let oz := ax.y*k0
  let k4 := ax.y*t; let k2 := ax.y*s; let oy := ax.z*k0
  let k8 := ax.z*t; let k3 := ax.z*s; let ox := ax.z*k4
  let k0 := ax.x*k0 + c; let k5 := ox - k7; let k7 := k7 + ox
  let k4 := ax.y*k4 + c; let k6 := oy - k2; let k2 := k2 + oy
  let k8 := ax.z*k8 + c; let k1 := oz - k3; let k3 := k3 + oz
  let col (v : tvec3 T) : tvec3 T :=
    let ox := v.x; let oy := v.y; let oz := v.z
    ⟨ox*k0 + oy*k1 + oz*k2,
     ox*k3 + oy*k4 + oz*k5,
     ox*k6 + oy*k7 + oz*k8⟩
  ⟨col ret.m0, col ret.m1, col ret.m2⟩

/-- Function `slerp(tmat3<T>& ret, a, b, rat)`: returns the final value of `ret`
(`ret = a` at the start; the two `return` statements leave it so).  `sqrt`,
`sin`, `cos`, `acos` are parameters. -/
def tmat3.slerp {T : Type} [LinearOrderedField T] (sqrt sin cos acos : T → T)
    (a b : tmat3 T) (rat : T) : tmat3 T :=
  let ret := a
  let ax := tmat3.slerpAxis a b
  let t := ax.x*ax.x + ax.y*ax.y + ax.z*ax.z
  if t = 0 then ret else
  let c := (tmat3.slerpSelect a b ax).1
  let s := (tmat3.slerpSelect a b ax).2
  if t = s then ret else
  let c := (c*t - s) / (t - s)
  let c := if c < -1 then -1 else c
  let c := if c > 1 then 1 else c
  let c := acos c * rat
  let s := sin c
  let c := cos c
  let t := 1 / sqrt t
  let ax : tvec3 T := ⟨ax.x * t, ax.y * t, ax.z * t⟩
  tmat3.slerpRotate ax s c ret

/-- Function `slerp(tmat4<T>& ret, a, b, t)`: returns the final value of `ret`.
Columns 0..2 are assigned from the rank-3 result, column 3 is written by
`setCameraPosition`; the incoming `ret[3]` is overwritten without being read. -/
def tmat4.slerp {T : Type} [LinearOrderedField T] (sqrt sin cos acos : T → T)
    (ret a b : tmat4 T) (t : T) : tmat4 T :=
  let apos := getCameraPosition a
  let bpos := getCameraPosition b
  let m := tmat3.slerp sqrt sin cos acos (tmat3.ofMat4 a) (tmat3.ofMat4 b) t
  let ret : tmat4 T := ⟨tvec4.ofVec3 m.m0 0, tvec4.ofVec3 m.m1 0, tvec4.ofVec3 m.m2 0, ret.m3⟩
  -- linearly interpolate position
  setCameraPosition ret (tvec3.mix apos bpos t)

/-! ## Swizzle accessors

The getters and setters of the vector classes are generated by the macros
`VEC2_GET*`, `VEC3_GET*`, `VEC4_GET*`, `VEC2_SET*`, `VEC3_SET*`, `VEC4_SET*`.
A macro is modelled by the list of methods it generates, each method given by
its axis tuple (the getter `xzy` is the tuple `(x, z, y)`); the bodies of the
three base getters and the three base setters are modelled once each.  Axes
are indices: `x = 0`, `y = 1`, `z = 2`, `w = 3`. -/

namespace Swizzle
variable {α T S : Type}

/-- Macro `VEC2_GET(A, B)`: the one getter `AB`. -/
def VEC2_GET (A B : α) : List (α × α) := [(A, B)]

/-- Macro `VEC2_GET2(A, B)`. -/
def VEC2_GET2 (A B : α) : List (α × α) :=
  VEC2_GET A B ++
  VEC2_GET B A

/-- Macro `VEC2_GET22(A, B)`. -/
def VEC2_GET22 (A B : α) : List (α × α) :=
  VEC2_GET2 A B ++
  VEC2_GET A A ++
  VEC2_GET B B

/-- Macro `VEC2_GET3(A, B, C)`. -/
def VEC2_GET3 (A B C : α) : List (α × α) :=
  VEC2_GET22 A B ++
  VEC2_GET2 A C ++
  VEC2_GET2 B C ++
  VEC2_GET C C

/-- Macro `VEC2_GET4(A, B, C, D)`. -/
def VEC2_GET4 (A B C D : α) : List (α × α) :=
  VEC2_GET3 A B C ++
  VEC2_GET2 A D ++
  VEC2_GET2 B D ++
  VEC2_GET2 C D ++
  VEC2_GET D D

/-- Macro `VEC3_GET(A, B, C)`: the one getter `ABC`. -/
def VEC3_GET (A B C : α) : List (α × α × α) := [(A, B, C)]

/-- Macro `VEC3_GET2(A, B, C)`. -/
def VEC3_GET2 (A B C : α) : List (α × α × α) :=
  VEC3_GET A B C ++
  VEC3_GET A C B

/-- Macro `VEC3_GET3(A, B, C)`. -/
def VEC3_GET3 (A B C : α) : List (α × α × α) :=
  VEC3_GET2 A B C ++
  VEC3_GET2 B A C ++
  VEC3_GET2 C A B

/-- Macro `VEC3_GET22(A, B)`. -/
def VEC3_GET22 (A B : α) : List (α × α × α) :=
  VEC3_GET A A B ++
  VEC3_GET A B A ++
  VEC3_GET B A A

/-- Macro `VEC3_GET222(A, B)`. -/
def VEC3_GET222 (A B : α) : List (α × α × α) :=
  VEC3_GET22 A B ++
  VEC3_GET22 B A

/-- Macro `VEC3_GET33(A, B, C)`. -/
def VEC3_GET33 (A B C : α) : List (α × α × α) :=
  VEC3_GET3 A B C ++
  VEC3_GET222 A B ++
  VEC3_GET222 A C ++
  VEC3_GET222 B C ++
  VEC3_GET A A A ++
  VEC3_GET B B B ++
  VEC3_GET C C C

/-- Macro `VEC3_GET44(A, B, C, D)`. -/
def VEC3_GET44 (A B C D : α) : List (α × α × α) :=
  VEC3_GET33 A B C ++
  VEC3_GET3 A B D ++
  VEC3_GET3 A C D ++
  VEC3_GET3 B C D ++
  VEC3_GET222 A D ++
  VEC3_GET222 B D ++
  VEC3_GET222 C D ++
  VEC3_GET D D D

/-- Macro `VEC4_GET(A, B, C, D)`: the one getter `ABCD`. -/
def VEC4_GET (A B C D : α) : List (α × α × α × α) := [(A, B, C, D)]

/-- Macro `VEC4_GET2(A, B, C, D)`. -/
def VEC4_GET2 (A B C D : α) : List (α × α × α × α) :=
  VEC4_GET A B C D ++
  VEC4_GET A B D C

/-- Macro `VEC4_GET3(A, B, C, D)`. -/
def VEC4_GET3 (A B C D : α) : List (α × α × α × α) :=
  VEC4_GET2 A B C D ++
  VEC4_GET2 A C B D ++
  VEC4_GET2 A D B C

/-- Macro `VEC4_GET4(A, B, C, D)`. -/
def VEC4_GET4 (A B C D : α) : List (α × α × α × α) :=
  VEC4_GET3 A B C D ++
  VEC4_GET3 B A C D ++
  VEC4_GET3 C A B D ++
  VEC4_GET3 D A B C

/-- Macro `VEC4_GET22(A, B, C)`. -/
def VEC4_GET22 (A B C : α) : List (α × α × α × α) :=
  VEC4_GET A A B C ++
  VEC4_GET A B A C ++
  VEC4_GET A B C A ++
  VEC4_GET B A A C ++
  VEC4_GET B A C A ++
  VEC4_GET B C A A

/-- Macro `VEC4_GET222(A, B, C)`. -/
def VEC4_GET222 (A B C : α) : List (α × α × α × α) :=
  VEC4_GET22 A B C ++
  VEC4_GET22 A C B

/-- Macro `VEC4_GET2222(A, B, C, D)`. -/
def VEC4_GET2222 (A B C D : α) : List (α × α × α × α) :=
  VEC4_GET222 A B C ++
  VEC4_GET222 A B D ++
  VEC4_GET222 A C D

/-- Macro `VEC4_GET22222(A, B, C, D)`. -/
def VEC4_GET22222 (A B C D : α) : List (α × α × α × α) :=
  VEC4_GET2222 A B C D ++
  VEC4_GET2222 B A C D ++
  VEC4_GET2222 C A B D ++
  VEC4_GET2222 D A B C

/-- Macro `VEC4_GET33(A, B)`. -/
def VEC4_GET33 (A B : α) : List (α × α × α × α) :=
  VEC4_GET A A A B ++
  VEC4_GET A A B A ++
  VEC4_GET A B A A ++
  VEC4_GET B A A A

/-- Macro `VEC4_GET333(A, B, C, D)`. -/
def VEC4_GET333 (A B C D : α) : List (α × α × α × α) :=
  VEC4_GET33 A B ++
  VEC4_GET33 A C ++
  VEC4_GET33 A D ++
  VEC4_GET33 B C ++
  VEC4_GET33 B D ++
  VEC4_GET33 C D

/-- Macro `VEC4_GET44(A, B, C, D)`. -/
def VEC4_GET44 (A B C D : α) : List (α × α × α × α) :=
  VEC4_GET4 A B C D ++
  VEC4_GET22222 A B C D ++
  VEC4_GET333 A B C D ++
  VEC4_GET A A A A ++
  VEC4_GET B B B B ++
  VEC4_GET C C C C ++
  VEC4_GET D D D D

/-- Body of the getter generated by `VEC2_GET(A, B)`: `return tvec2<T>(A, B)`;
`axis` reads a member of the object. -/
def VEC2_GET_body (axis : α → T) (n : α × α) : tvec2 T := ⟨axis n.1, axis n.2⟩

/-- Body of the getter generated by `VEC3_GET(A, B, C)`: `return tvec3<T>(A, B, C)`. -/
def VEC3_GET_body (axis : α → T) (n : α × α × α) : tvec3 T :=
  ⟨axis n.1, axis n.2.1, axis n.2.2⟩

/-- Body of the getter generated by `VEC4_GET(A, B, C, D)`:
`return tvec4<T>(A, B, C, D)`. -/
def VEC4_GET_body (axis : α → T) (n : α × α × α × α) : tvec4 T :=
  ⟨axis n.1, axis n.2.1, axis n.2.2.1, axis n.2.2.2⟩

end Swizzle

/-- Read of the member with index `i` of a `tvec2` (`x = 0`, `y = 1`). -/
def tvec2.axis {T : Type} (v : tvec2 T) (i : Fin 2) : T :=
  match i with
  | 0 => v.x
  | 1 => v.y

/-- Read of the member with index `i` of a `tvec3` (`x = 0`, `y = 1`, `z = 2`). -/
def tvec3.axis {T : Type} (v : tvec3 T) (i : Fin 3) : T :=
  match i with
  | 0 => v.x
  | 1 => v.y
  | 2 => v.z

/-- Read of the member with index `i` of a `tvec4`
(`x = 0`, `y = 1`, `z = 2`, `w = 3`). -/
def tvec4.axis {T : Type} (v : tvec4 T) (i : Fin 4) : T :=
  match i with
  | 0 => v.x
  | 1 => v.y
  | 2 => v.z
  | 3 => v.w

/-- The getters of class `tvec2`: `VEC2_GET22(x, y)`.  The class invokes no
`VEC3_GET*` or `VEC4_GET*` macro. -/
def tvec2.getters2 : List (Fin 2 × Fin 2) := Swizzle.VEC2_GET22 0 1

/-- The two-component getters of class `tvec3`: `VEC2_GET3(x, y, z)`. -/
def tvec3.getters2 : List (Fin 3 × Fin 3) := Swizzle.VEC2_GET3 0 1 2

/-- The three-component getters of class `tvec3`: `VEC3_GET33(x, y, z)`.  The
class invokes no `VEC4_GET*` macro. -/
def tvec3.getters3 : List (Fin 3 × Fin 3 × Fin 3) := Swizzle.VEC3_GET33 0 1 2

/-- The two-component getters of class `tvec4`: `VEC2_GET4(x, y, z, w)`. -/
def tvec4.getters2 : List (Fin 4 × Fin 4) := Swizzle.VEC2_GET4 0 1 2 3

/-- The three-component getters of class `tvec4`: `VEC3_GET44(x, y, z, w)`. -/
def tvec4.getters3 : List (Fin 4 × Fin 4 × Fin 4) := Swizzle.VEC3_GET44 0 1 2 3

/-- The four-component getters of class `tvec4`: `VEC4_GET44(x, y, z, w)`. -/
def tvec4.getters4 : List (Fin 4 × Fin 4 × Fin 4 × Fin 4) := Swizzle.VEC4_GET44 0 1 2 3

/-- The rank-2 matrix as a Mathlib matrix (row `i`, column `j`). -/
def tmat2.toMatrix {T : Type} (m : tmat2 T) : Matrix (Fin 2) (Fin 2) T :=
  Matrix.of ![![m.m0.x, m.m1.x], ![m.m0.y, m.m1.y]]

/-- The rank-3 matrix as a Mathlib matrix (row `i`, column `j`). -/
def tmat3.toMatrix {T : Type} (m : tmat3 T) : Matrix (Fin 3) (Fin 3) T :=
  Matrix.of ![![m.m0.x, m.m1.x, m.m2.x], ![m.m0.y, m.m1.y, m.m2.y],
    ![m.m0.z, m.m1.z, m.m2.z]]

/-- The rank-4 matrix as a Mathlib matrix (row `i`, column `j`). -/
def tmat4.toMatrix {T : Type} (m : tmat4 T) : Matrix (Fin 4) (Fin 4) T :=
  Matrix.of ![![m.m0.x, m.m1.x, m.m2.x, m.m3.x], ![m.m0.y, m.m1.y, m.m2.y, m.m3.y],
    ![m.m0.z, m.m1.z, m.m2.z, m.m3.z], ![m.m0.w, m.m1.w, m.m2.w, m.m3.w]]

/-! ## Perlin noise (`perlinNoise.cpp`) -/

/-- Function `crand(uint32_t& seed)`: `seed = seed * 214013 + 2531011` in 32-bit
unsigned arithmetic, result `(seed >> 16) & 0x7fff`.  Returns the updated
seed and the draw. -/
def crand (seed : Nat) : Nat × Nat :=
  let seed := (seed * 214013 + 2531011) % 2 ^ 32
  (seed, (seed >>> 16) &&& 0x7fff)

/-- Function `fgrad(h, x, y, z)`: one of sixteen gradient directions, chosen by
`h & 15`. -/
def fgrad {T : Type} [Add T] [Sub T] [Neg T] [Zero T] (h : Nat) (x y z : T) : T :=
  match h &&& 15 with
  | 0 => x + y
  | 1 => -x + y
  | 2 => x - y
  | 3 => -x - y
  | 4 => x + z
  | 5 => -x + z
  | 6 => x - z
  | 7 => -x - z
  | 8 => y + z
  | 9 => -y + z
  | 10 => y - z
  | 11 => -y - z
  | 12 => x + y
  | 13 => -x + y
  | 14 => y - z
  | 15 => -y - z
  | _ => 0

/-- The conversion `static_cast<uint32_t>(x)` of a floating value: the fraction is
discarded; the value is taken modulo `2 ^ 32` (values above the `uint32_t`
range are outside what C++ defines; every use below masks the result with
`& 255`, which the wrap does not change).  Values in `(-1, 0)` give `0`. -/
def toUint32 {T : Type} [LinearOrderedField T] [FloorRing T] (x : T) : Nat :=
  Int.toNat ⌊x⌋ % 2 ^ 32

/-- Function `floormod256(float x)` in exact arithmetic: the subtraction `-x - 1` is
not rounded.  This is the function the noise functions below call; the same body with
the subtraction rounded to `float` is `floormod256_float`. -/
def floormod256 {T : Type} [LinearOrderedField T] [FloorRing T] (x : T) : Nat :=
  if x < 0 then 255 - (toUint32 (-x - 1) &&& 255) else toUint32 x &&& 255

/-- Rounding of a rational to the nearest integer, ties to the even one. -/
def roundHalfEven (k : ℚ) : ℤ :=
  if k - ⌊k⌋ < 1 / 2 then ⌊k⌋
  else if 1 / 2 < k - ⌊k⌋ then ⌊k⌋ + 1
  else if ⌊k⌋ % 2 = 0 then ⌊k⌋ else ⌊k⌋ + 1

/-- Spacing of the `float` values (IEEE 754 binary32: 24-bit significand, smallest
normal exponent `-126`) around `q`: `2 ^ (e - 23)` with `e = floor(log2 |q|)`, and the
subnormal spacing `2 ^ (-149)` below `2 ^ (-126)`. -/
def floatUlp (q : ℚ) : ℚ := 2 ^ (max (Int.log 2 |q|) (-126) - 23)

/-- Result of a `float` operation whose exact value is `q`: the nearest `float` value,
ties to the even significand.  (Values that overflow the finite range do not arise
from `-x - 1` with `x` a negative `float`.)  A rational `q` is a `float` value when
`roundToFloat q = q`. -/
def roundToFloat (q : ℚ) : ℚ := roundHalfEven (q / floatUlp q) * floatUlp q

/-- Function `floormod256(float x)` in `float` arithmetic: the comparison, the negation
and the two conversions to `uint32_t` are exact, the subtraction `-x - 1` (with `1`
converted to `float`) is rounded to `float`. -/
def floormod256_float (x : ℚ) : Nat :=
  if x < 0 then 255 - (toUint32 (roundToFloat (-x - 1)) &&& 255) else toUint32 x &&& 255

/-- Type `NoiseLUT = std::array<uint32_t, 768>`; `t[i]` is `t.getD i 0`. -/
abbrev NoiseLUT := List Nat

/-- The `std::swap(arr[i], arr[j])`. -/
def swapAt (arr : NoiseLUT) (i j : Nat) : NoiseLUT :=
  let ai := arr.getD i 0
  let aj := arr.getD j 0
  (arr.set i aj).set j ai

/-- One pass of the shuffle loop body of `gen_table` at index `i`:
`j = (crand(seed)*(i+1)) >> 15` in 32-bit unsigned arithmetic, then
`swap(arr[i], arr[j])`. -/
def shuffleStep (st : NoiseLUT × Nat) (i : Nat) : NoiseLUT × Nat :=
  let (arr, seed) := st
  let (seed, r) := crand seed
  let j := ((r * (i + 1)) % 2 ^ 32) >>> 15
  (swapAt arr i j, seed)

/-- Function `gen_table()`.  The array starts with 768 unspecified entries
(here `0`; each is written before it is read); the three loops are
`arr[i] = i` for `i < 256`, the shuffle for `i = 255` down to `1` from seed
`1`, and the two copies `arr[i+256] = arr[i]; arr[i+512] = arr[i]`. -/
def gen_table : NoiseLUT :=
  let arr : NoiseLUT := List.replicate 768 0
  let arr := (List.range 256).foldl (fun arr i => arr.set i i) arr
  let arr := (((List.range 255).reverse.map (· + 1)).foldl shuffleStep (arr, 1)).1
  (List.range 256).foldl
    (fun arr i => (arr.set (i + 256) (arr.getD i 0)).set (i + 512) (arr.getD i 0)) arr

/-- The global `static NoiseLUT noisep = gen_table();`. -/
def noisep : NoiseLUT := gen_table

/-- Function `noise1d(float fx)`. -/
def noise1d {T : Type} [LinearOrderedField T] [FloorRing T] (fx : T) : T :=
  let p0 : T := (⌊fx⌋ : ℤ)
  let fx := fx - p0
  let t0 := (3 - 2 * fx) * fx * fx
  let l0 := floormod256 p0
  let f0 := fgrad (noisep.getD (noisep.getD (noisep.getD l0 0) 0) 0) fx 0 0
  let f1 := fgrad (noisep.getD (noisep.getD (noisep.getD (l0 + 1) 0) 0) 0) (fx - 1) 0 0
  (f1 - f0) * t0 + f0

/-- Function `noise2d(float fx, float fy)`; the `fy--` between `f1` and `f2`
is the rebinding of `fy`. -/
def noise2d {T : Type} [LinearOrderedField T] [FloorRing T] (fx fy : T) : T :=
  let p0 : T := (⌊fx⌋ : ℤ)
  let p1 : T := (⌊fy⌋ : ℤ)
  let fx := fx - p0
  let t0 := (3 - 2 * fx) * fx * fx
  let fy := fy - p1
  let t1 := (3 - 2 * fy) * fy * fy
  let l0 := floormod256 p0
  let l1 := floormod256 p1
  let i := noisep.getD l0 0
  let a0 := noisep.getD (i + l1) 0
  let a2 := noisep.getD (i + l1 + 1) 0
  let i := noisep.getD (l0 + 1) 0
  let a1 := noisep.getD (i + l1) 0
  let a3 := noisep.getD (i + l1 + 1) 0
  let f0 := fgrad (noisep.getD a0 0) fx fy 0
  let f1 := fgrad (noisep.getD a1 0) (fx - 1) fy 0
  let fy := fy - 1
  let f2 := fgrad (noisep.getD a2 0) fx fy 0
  let f3 := fgrad (noisep.getD a3 0) (fx - 1) fy 0
  let f0 := (f1 - f0) * t0 + f0
  let f1 := (f3 - f2) * t0 + f2
  (f1 - f0) * t1 + f0

/-- Function `noise3d(float fx, float fy, float fz)`; the `fz--` between `f3`
and `f4` is the rebinding of `fz`. -/
def noise3d {T : Type} [LinearOrderedField T] [FloorRing T] (fx fy fz : T) : T :=
  let p0 : T := (⌊fx⌋ : ℤ)
  let p1 : T := (⌊fy⌋ : ℤ)
  let p2 : T := (⌊fz⌋ : ℤ)
  let fx := fx - p0
  let t0 := (3 - 2 * fx) * fx * fx
  let fy := fy - p1
  let t1 := (3 - 2 * fy) * fy * fy
  let fz := fz - p2
  let t2 := (3 - 2 * fz) * fz * fz
  let l0 := floormod256 p0
  let l1 := floormod256 p1
  let l2 := floormod256 p2
  let i := noisep.getD l0 0
  let a0 := noisep.getD (i + l1) 0
  let a2 := noisep.getD (i + l1 + 1) 0
  let i := noisep.getD (l0 + 1) 0
  let a1 := noisep.getD (i + l1) 0
  let a3 := noisep.getD (i + l1 + 1) 0
  let f0 := fgrad (noisep.getD (a0 + l2) 0) fx fy fz
  let f1 := fgrad (noisep.getD (a1 + l2) 0) (fx - 1) fy fz
  let f2 := fgrad (noisep.getD (a2 + l2) 0) fx (fy - 1) fz
  let f3 := fgrad (noisep.getD (a3 + l2) 0) (fx - 1) (fy - 1) fz
  let fz := fz - 1
  let f4 := fgrad (noisep.getD (a0 + l2 + 1) 0) fx fy fz
  let f5 := fgrad (noisep.getD (a1 + l2 + 1) 0) (fx - 1) fy fz
  let f6 := fgrad (noisep.getD (a2 + l2 + 1) 0) fx (fy - 1) fz
  let f7 := fgrad (noisep.getD (a3 + l2 + 1) 0) (fx - 1) (fy - 1) fz
  let f0 := (f1 - f0) * t0 + f0
  let f1 := (f3 - f2) * t0 + f2
  let f2 := (f5 - f4) * t0 + f4
  let f3 := (f7 - f6) * t0 + f6
  let f0 := (f1 - f0) * t1 + f0
  let f1 := (f3 - f2) * t1 + f2
  (f1 - f0) * t2 + f0

/-! ## Integer helpers -/

/-- The value of an `int` computation: the mathematical result wrapped into the
32-bit two's complement range `-2^31 .. 2^31 - 1`. -/
def toInt32 (z : Int) : Int := (z + 2 ^ 31) % 2 ^ 32 - 2 ^ 31

/-- Function `uimod(int x, int y) = (x<0) ? y-1 - (-x-1)%y : x%y`.  The operator `%`
of C truncates towards zero (`Int.tmod`); every `int` operation is wrapped by
`toInt32`. -/
def uimod (x y : Int) : Int :=
  if x < 0 then toInt32 (toInt32 (y - 1) - Int.tmod (toInt32 (toInt32 (-x) - 1)) y)
  else Int.tmod x y

/-! ## Rank-2 rotation and `rotate` -/

/-- Function `rotation(T angle)` (rank 2); `sin`, `cos` and the constant `M_PI` are
parameters. -/
def tmat2.rotation {T : Type} [Field T] (sin cos : T → T) (pi : T) (angle : T) : tmat2 T :=
  let angle := angle * (pi / 180)
  let co := cos angle
  let si := sin angle
  let bm0 := co; let bm1 := si
  let bm2 := -si; let bm3 := co
  tmat2.ofElems bm0 bm1 bm2 bm3

/-- Function `rotate(tmat3<T>& m, angle)`: `m *= tmat3<T>(rotation<T>(angle))`, where
`m *= a` is `m = m * a`.  Returns the new `m`. -/
def tmat3.rotate {T : Type} [Field T] (sin cos : T → T) (pi : T) (m : tmat3 T) (angle : T) :
    tmat3 T :=
  tmat3.mul m (tmat3.ofMat2 (tmat2.rotation sin cos pi angle))

/-- Function `rotate(tmat4<T>& m, angle, ax, ay, az)`:
`m *= tmat4<T>(rotation<T>(angle, ax, ay, az))`.  Returns the new `m`. -/
def tmat4.rotate {T : Type} [LinearOrderedField T] (sqrt sin cos : T → T) (pi : T)
    (m : tmat4 T) (angle ax ay az : T) : tmat4 T :=
  tmat4.mul m (tmat4.ofMat3 (tmat3.rotation sqrt sin cos pi angle ax ay az))

/-! ## Element-type-converting constructors

The member `m` of a matrix class is a C array of columns (`tvec4<T> m[4]`).  The
converting constructors read it directly (`v.m[i]`), without a bounds check; a read
past the last element is undefined behaviour, modelled as `none`. -/

/-- Constructor `tvec2(const tvec2<TT>& v)`: `static_cast<T>` of each component;
`conv` is the cast. -/
def tvec2.convert {TT T : Type} (conv : TT → T) (v : tvec2 TT) : tvec2 T :=
  ⟨conv v.x, conv v.y⟩

/-- Constructor `tvec3(const tvec3<TT>& v)`. -/
def tvec3.convert {TT T : Type} (conv : TT → T) (v : tvec3 TT) : tvec3 T :=
  ⟨conv v.x, conv v.y, conv v.z⟩

/-- Constructor `tvec4(const tvec4<TT>& v)`. -/
def tvec4.convert {TT T : Type} (conv : TT → T) (v : tvec4 TT) : tvec4 T :=
  ⟨conv v.x, conv v.y, conv v.z, conv v.w⟩

/-- The array read `v.m[i]` on a `tmat2` (two elements). -/
def tmat2.mAt {T : Type} (v : tmat2 T) (i : Nat) : Option (tvec2 T) :=
  match i with
  | 0 => some v.m0
  | 1 => some v.m1
  | _ => none

/-- The array read `v.m[i]` on a `tmat3` (three elements). -/
def tmat3.mAt {T : Type} (v : tmat3 T) (i : Nat) : Option (tvec3 T) :=
  match i with
  | 0 => some v.m0
  | 1 => some v.m1
  | 2 => some v.m2
  | _ => none

/-- The array read `v.m[i]` on a `tmat4` (four elements). -/
def tmat4.mAt {T : Type} (v : tmat4 T) (i : Nat) : Option (tvec4 T) :=
  match i with
  | 0 => some v.m0
  | 1 => some v.m1
  | 2 => some v.m2
  | 3 => some v.m3
  | _ => none

/-- Constructor `tmat2(const tmat2<TT>& v) : m{v.m[0], v.m[1]}`; each column is
converted by the `tvec2` converting constructor. -/
def tmat2.convert {TT T : Type} (conv : TT → T) (v : tmat2 TT) : Option (tmat2 T) := do
  let c0 ← v.mAt 0
  let c1 ← v.mAt 1
  pure ⟨c0.convert conv, c1.convert conv⟩

/-- Constructor `tmat3(const tmat3<TT>& v) : m{v.m[0], v.m[1], v.m[2]}`. -/
def tmat3.convert {TT T : Type} (conv : TT → T) (v : tmat3 TT) : Option (tmat3 T) := do
  let c0 ← v.mAt 0
  let c1 ← v.mAt 1
  let c2 ← v.mAt 2
  pure ⟨c0.convert conv, c1.convert conv, c2.convert conv⟩

/-- Constructor `tmat4(const tmat4<TT>& v) : m{v.m[0], v.m[1], v.m[2], v.m[4]}`. -/
def tmat4.convert {TT T : Type} (conv : TT → T) (v : tmat4 TT) : Option (tmat4 T) := do
  let c0 ← v.mAt 0
  let c1 ← v.mAt 1
  let c2 ← v.mAt 2
  let c3 ← v.mAt 4
  pure ⟨c0.convert conv, c1.convert conv, c2.convert conv, c3.convert conv⟩

/-! ## Noise with traced table reads

The noise functions read the table with `noisep[i]` (`std::array::operator[]`, no
bounds check).  The traced variants below are the same functions, returning next to
the value the list of the indices `i` of all reads `noisep[i]`, in the order in which
the reads are evaluated. -/

/-- The read `noisep[i]`, recording the index `i` at the end of the trace `tr`. -/
def noisepTraced (i : Nat) (tr : List Nat) : Nat × List Nat :=
  (noisep.getD i 0, tr ++ [i])

/-- Function `noise1d(float fx)` with traced reads; the nested read
`noisep[noisep[noisep[l0]]]` is three reads, innermost first. -/
def noise1d_traced {T : Type} [LinearOrderedField T] [FloorRing T] (fx : T) :
    T × List Nat :=
  let tr : List Nat := []
  let p0 : T := (⌊fx⌋ : ℤ)
  let fx := fx - p0
  let t0 := (3 - 2 * fx) * fx * fx
  let l0 := floormod256 p0
  let (h, tr) := noisepTraced l0 tr
  let (h, tr) := noisepTraced h tr
  let (h, tr) := noisepTraced h tr
  let f0 := fgrad h fx 0 0
  let (h, tr) := noisepTraced (l0 + 1) tr
  let (h, tr) := noisepTraced h tr
  let (h, tr) := noisepTraced h tr
  let f1 := fgrad h (fx - 1) 0 0
  ((f1 - f0) * t0 + f0, tr)

/-- Function `noise2d(float fx, float fy)` with traced reads. -/
def noise2d_traced {T : Type} [LinearOrderedField T] [FloorRing T] (fx fy : T) :
    T × List Nat :=
  let tr : List Nat := []
  let p0 : T := (⌊fx⌋ : ℤ)
  let p1 : T := (⌊fy⌋ : ℤ)
  let fx := fx - p0
  let t0 := (3 - 2 * fx) * fx * fx
  let fy := fy - p1
  let t1 := (3 - 2 * fy) * fy * fy
  let l0 := floormod256 p0
  let l1 := floormod256 p1
  let (i, tr) := noisepTraced l0 tr
  let (a0, tr) := noisepTraced (i + l1) tr
  let (a2, tr) := noisepTraced (i + l1 + 1) tr
  let (i, tr) := noisepTraced (l0 + 1) tr
  let (a1, tr) := noisepTraced (i + l1) tr
  let (a3, tr) := noisepTraced (i + l1 + 1) tr
  let (h, tr) := noisepTraced a0 tr
  let f0 := fgrad h fx fy 0
  let (h, tr) := noisepTraced a1 tr
  let f1 := fgrad h (fx - 1) fy 0
  let fy := fy - 1
  let (h, tr) := noisepTraced a2 tr
  let f2 := fgrad h fx fy 0
  let (h, tr) := noisepTraced a3 tr
  let f3 := fgrad h (fx - 1) fy 0
  let f0 := (f1 - f0) * t0 + f0
  let f1 := (f3 - f2) * t0 + f2
  ((f1 - f0) * t1 + f0, tr)

/-- Function `noise3d(float fx, float fy, float fz)` with traced reads. -/
def noise3d_traced {T : Type} [LinearOrderedField T] [FloorRing T] (fx fy fz : T) :
    T × List Nat :=
  let tr : List Nat := []
  let p0 : T := (⌊fx⌋ : ℤ)
  let p1 : T := (⌊fy⌋ : ℤ)
  let p2 : T := (⌊fz⌋ : ℤ)
  let fx := fx - p0
  let t0 := (3 - 2 * fx) * fx * fx
  let fy := fy - p1
  let t1 := (3 - 2 * fy) * fy * fy
  let fz := fz - p2
  let t2 := (3 - 2 * fz) * fz * fz
  let l0 := floormod256 p0
  let l1 := floormod256 p1
  let l2 := floormod256 p2
  let (i, tr) := noisepTraced l0 tr
  let (a0, tr) := noisepTraced (i + l1) tr
  let (a2, tr) := noisepTraced (i + l1 + 1) tr
  let (i, tr) := noisepTraced (l0 + 1) tr
  let (a1, tr) := noisepTraced (i + l1) tr
  let (a3, tr) := noisepTraced (i + l1 + 1) tr
  let (h, tr) := noisepTraced (a0 + l2) tr
  let f0 := fgrad h fx fy fz
  let (h, tr) := noisepTraced (a1 + l2) tr
  let f1 := fgrad h (fx - 1) fy fz
  let (h, tr) := noisepTraced (a2 + l2) tr
  let f2 := fgrad h fx (fy - 1) fz
  let (h, tr) := noisepTraced (a3 + l2) tr
  let f3 := fgrad h (fx - 1) (fy - 1) fz
  let fz := fz - 1
  let (h, tr) := noisepTraced (a0 + l2 + 1) tr
  let f4 := fgrad h fx fy fz
  let (h, tr) := noisepTraced (a1 + l2 + 1) tr
  let f5 := fgrad h (fx - 1) fy fz
  let (h, tr) := noisepTraced (a2 + l2 + 1) tr
  let f6 := fgrad h fx (fy - 1) fz
  let (h, tr) := noisepTraced (a3 + l2 + 1) tr
  let f7 := fgrad h (fx - 1) (fy - 1) fz
  let f0 := (f1 - f0) * t0 + f0
  let f1 := (f3 - f2) * t0 + f2
  let f2 := (f5 - f4) * t0 + f4
  let f3 := (f7 - f6) * t0 + f6
  let f0 := (f1 - f0) * t1 + f0
  let f1 := (f3 - f2) * t1 + f2
  ((f1 - f0) * t2 + f0, tr)

/-! ## MeshBuilder

The class `MeshBuilder` of `glHelpers`: a vertex buffer of floats, an index buffer
and the state of the current `begin`/`end` block.  `GLuint` values are natural
numbers below `2 ^ 32`; the conversion `static_cast<GLuint>(vertexData.size())`
of the 64-bit size is `% 2 ^ 32`. -/

/-- Enumeration `GLMesh::Format`. -/
inductive GLMesh.Format where
  | None | XYZ | XYZUV | XYZUVN | XYZUVNC | PTNC
  deriving DecidableEq

/-- The integer value of a `GLMesh::Format` enumerator (`None = 0`, then in order). -/
def GLMesh.Format.toNat : GLMesh.Format → Nat
  | .None => 0
  | .XYZ => 1
  | .XYZUV => 2
  | .XYZUVN => 3
  | .XYZUVNC => 4
  | .PTNC => 5

/-- Table `GLMeshStride[6]`: bytes per vertex of each format. -/
def GLMeshStride : List Nat :=
  [0,
   12, -- XYZ
   12 + 8, -- XYZUV
   12 + 8 + 12, -- XYZUVN
   12 + 8 + 12 + 16, -- XYZUVNC
   16 + 16 + 12 + 16] -- PTNC

/-- Enumeration `MeshBuilder::Mode`. -/
inductive MeshBuilder.Mode where
  | LINES | LINE_STRIP | LINE_LOOP | TRIANGLES | TRIANGLE_FAN | QUADS
  deriving DecidableEq

/-- The data members of class `MeshBuilder`.  `D` is `double` (the element type of
`vec3`, `vec4`), `F` is `GLfloat`. -/
structure MeshBuilder (D F : Type) where
  format : GLMesh.Format
  currMode : MeshBuilder.Mode
  currNormal : tvec3 D
  currTexCoord : tvec4 D
  currColor : tvec4 D
  currBeginOffset : Nat
  vertexData : List F
  indexData : List Nat

/-- What stops `MeshBuilder::end`: the division by `vertexSize = 0`, or one of its two
`assert`s failing. -/
inductive MeshBuilder.Fault where
  | divisionByZero | assertBegin | assertSize
  deriving DecidableEq

namespace MeshBuilder
variable {D F : Type}

/-- Method `clear()`. -/
def clear [Zero D] [One D] (s : MeshBuilder D F) : MeshBuilder D F :=
  { s with
    currMode := Mode.TRIANGLES
    currNormal := ⟨0, 0, 1⟩
    currColor := tvec4.splat 1
    currTexCoord := tvec4.splat 0
    currBeginOffset := 0
    vertexData := []
    indexData := [] }

/-- Constructor `MeshBuilder(GLMesh::Format format)`: sets `format`, then `clear()`.
The other members start unspecified; `clear` overwrites each of them. -/
def new [Zero D] [One D] (format : GLMesh.Format) : MeshBuilder D F :=
  clear ⟨format, Mode.LINES, tvec3.splat 0, tvec4.splat 0, tvec4.splat 0, 0, [], []⟩

/-- Method `begin(Mode mode)`. -/
def begin (s : MeshBuilder D F) (mode : Mode) : MeshBuilder D F :=
  { s with currMode := mode, currBeginOffset := s.vertexData.length % 2 ^ 32 }

/-- The loop `for (...; it < itEnd; prev = it, ++it) { push_back(prev); push_back(it); }`
of the `LINE_STRIP` and `LINE_LOOP` cases; returns the final `prev` and the index
buffer. -/
def segmentLoop (prev it itEnd : Nat) (indexData : List Nat) : Nat × List Nat :=
  if it < itEnd then segmentLoop it (it + 1) itEnd (indexData ++ [prev, it])
  else (prev, indexData)
termination_by itEnd - it

/-- The loop `for (; it < itEnd; ++it) push_back(it);` of the `LINES` and `TRIANGLES`
cases. -/
def pointLoop (it itEnd : Nat) (indexData : List Nat) : List Nat :=
  if it < itEnd then pointLoop (it + 1) itEnd (indexData ++ [it]) else indexData
termination_by itEnd - it

/-- The loop `for (...; it < itEnd; ++it) { push_back(it0); push_back(it - 1);
push_back(it); }` of the `TRIANGLE_FAN` case. -/
def fanLoop (it0 it itEnd : Nat) (indexData : List Nat) : List Nat :=
  if it < itEnd then fanLoop it0 (it + 1) itEnd (indexData ++ [it0, it - 1, it])
  else indexData
termination_by itEnd - it

/-- The loop `for (; it < itEnd; it += 4)` of the `QUADS` case, pushing
`it, it + 1, it + 3, it + 1, it + 2, it + 3`. -/
def quadLoop (it itEnd : Nat) (indexData : List Nat) : List Nat :=
  if it < itEnd then
    quadLoop (it + 4) itEnd (indexData ++ [it, it + 1, it + 3, it + 1, it + 2, it + 3])
  else indexData
termination_by itEnd - it

/-- Method `end()`.  `vertexSize = GLMeshStride[format] >> 2`; the division by a zero
`vertexSize` and a failing `assert` stop the method.  The products of the `assert`s
are `GLuint` products (`% 2 ^ 32`); the second one is compared with the 64-bit
`vertexData.size()`.  A non-zero `vertexSize` is at least 3, so
`it < itEnd ≤ (2 ^ 32 - 1) / 3` in the loops and `it + 4` stays below `2 ^ 32`. -/
def end_ (s : MeshBuilder D F) : Except Fault (MeshBuilder D F) :=
  let vertexSize := GLMeshStride.getD s.format.toNat 0 >>> 2
  if vertexSize = 0 then Except.error Fault.divisionByZero else
  let it := s.currBeginOffset / vertexSize
  let itEnd := (s.vertexData.length % 2 ^ 32) / vertexSize
  if (it * vertexSize) % 2 ^ 32 ≠ s.currBeginOffset then Except.error Fault.assertBegin else
  if (itEnd * vertexSize) % 2 ^ 32 ≠ s.vertexData.length then Except.error Fault.assertSize else
  let indexData :=
    match s.currMode with
    | Mode.LINE_STRIP =>
      let prev := it
      (segmentLoop prev (it + 1) itEnd s.indexData).2
    | Mode.LINE_LOOP =>
      let it0 := it
      let prev := it
      let it := it + 1
      if it < itEnd then
        let (prev, indexData) := segmentLoop prev it itEnd s.indexData
        indexData ++ [prev, it0]
      else s.indexData
    | Mode.LINES => pointLoop it itEnd s.indexData
    | Mode.TRIANGLES => pointLoop it itEnd s.indexData
    | Mode.TRIANGLE_FAN =>
      let it0 := it
      fanLoop it0 (it + 2) itEnd s.indexData
    | Mode.QUADS => quadLoop it itEnd s.indexData
  Except.ok { s with indexData := indexData }

/-- Method `vertex(const vec4& v)`; `cast` is `static_cast<float>`. -/
def vertex (cast : D → F) (s : MeshBuilder D F) (v : tvec4 D) : MeshBuilder D F :=
  let vertexData := s.vertexData ++ [cast v.x, cast v.y, cast v.z]
  let vertexData :=
    if s.format = GLMesh.Format.PTNC then vertexData ++ [cast v.w] else vertexData
  let vertexData :=
    if s.format.toNat ≥ GLMesh.Format.XYZUV.toNat then
      vertexData ++ [cast s.currTexCoord.x, cast s.currTexCoord.y]
    else vertexData
  let vertexData :=
    if s.format = GLMesh.Format.PTNC then
      vertexData ++ [cast s.currTexCoord.z, cast s.currTexCoord.w]
    else vertexData
  let vertexData :=
    if s.format.toNat ≥ GLMesh.Format.XYZUVN.toNat then
      vertexData ++ [cast s.currNormal.x, cast s.currNormal.y, cast s.currNormal.z]
    else vertexData
  let vertexData :=
    if s.format.toNat ≥ GLMesh.Format.XYZUVNC.toNat then
      vertexData ++ [cast s.currColor.x, cast s.currColor.y, cast s.currColor.z,
        cast s.currColor.w]
    else vertexData
  { s with vertexData := vertexData }

/-- Method `vertex(const vec4& v, const vec4& t, const vec3& n, const vec4& c)`. -/
def vertexAttr (cast : D → F) (s : MeshBuilder D F) (v t : tvec4 D) (n : tvec3 D)
    (c : tvec4 D) : MeshBuilder D F :=
  let vertexData := s.vertexData ++ [cast v.x, cast v.y, cast v.z]
  let vertexData :=
    if s.format = GLMesh.Format.PTNC then vertexData ++ [cast v.w] else vertexData
  let vertexData :=
    if s.format.toNat ≥ GLMesh.Format.XYZUV.toNat then vertexData ++ [cast t.x, cast t.y]
    else vertexData
  let vertexData :=
    if s.format = GLMesh.Format.PTNC then vertexData ++ [cast t.z, cast t.w]
    else vertexData
  let vertexData :=
    if s.format.toNat ≥ GLMesh.Format.XYZUVN.toNat then
      vertexData ++ [cast n.x, cast n.y, cast n.z]
    else vertexData
  let vertexData :=
    if s.format.toNat ≥ GLMesh.Format.XYZUVNC.toNat then
      vertexData ++ [cast c.x, cast c.y, cast c.z, cast c.w]
    else vertexData
  { s with vertexData := vertexData }

/-- A call of one of the methods `begin`, `vertex` (either overload) and `end`. -/
inductive Call (D : Type) where
  | begin (mode : Mode)
  | vertex (v : tvec4 D)
  | vertexAttr (v t : tvec4 D) (n : tvec3 D) (c : tvec4 D)
  | end_

/-- The effect of one call. -/
def step (cast : D → F) (s : MeshBuilder D F) : Call D → Except Fault (MeshBuilder D F)
  | Call.begin mode => Except.ok (s.begin mode)
  | Call.vertex v => Except.ok (s.vertex cast v)
  | Call.vertexAttr v t n c => Except.ok (s.vertexAttr cast v t n c)
  | Call.end_ => s.end_

/-- A sequence of calls, stopping at the first fault. -/
def run (cast : D → F) (s : MeshBuilder D F) : List (Call D) → Except Fault (MeshBuilder D F)
  | [] => Except.ok s
  | c :: cs =>
    match step cast s c with
    | Except.ok s' => run cast s' cs
    | Except.error e => Except.error e

/-- The number of `vertex` calls (of either overload) in a sequence of calls. -/
def vertexCalls : List (Call D) → Nat
  | [] => 0
  | Call.vertex _ :: cs => vertexCalls cs + 1
  | Call.vertexAttr _ _ _ _ :: cs => vertexCalls cs + 1
  | Call.begin _ :: cs => vertexCalls cs
  | Call.end_ :: cs => vertexCalls cs

end MeshBuilder

/-! # Theorems -/

/-! ## Determinants and the Mathlib view of the matrices -/

/-- The Mathlib determinant of a rank-3 matrix, expanded along the first row. -/
theorem tmat3_det_toMatrix {T : Type} [CommRing T] (m : tmat3 T) :
    m.toMatrix.det = m.m0.x * (m.m1.y * m.m2.z - m.m1.z * m.m2.y)
      + m.m1.x * (m.m2.y * m.m0.z - m.m2.z * m.m0.y)
      + m.m2.x * (m.m0.y * m.m1.z - m.m0.z * m.m1.y) := by
  simp [tmat3.toMatrix, Matrix.det_fin_three]
  ring

/-- The Mathlib determinant of a rank-2 matrix. -/
theorem tmat2_det_toMatrix {T : Type} [CommRing T] (m : tmat2 T) :
    m.toMatrix.det = m.m0.x * m.m1.y - m.m0.y * m.m1.x := by
  simp [tmat2.toMatrix, Matrix.det_fin_two]
  ring

/-- The Mathlib determinant of a rank-4 matrix, expanded along the first row; the
right-hand side is the denominator `src0*dst0 + src1*dst1 + src2*dst2 + src3*dst3`
of `tmat4.inverse`. -/
theorem tmat4_det_toMatrix {T : Type} [CommRing T] (m : tmat4 T) :
    m.toMatrix.det =
      m.m0.x * ((m.m2.z * m.m3.w * m.m1.y + m.m3.z * m.m1.w * m.m2.y + m.m1.z * m.m2.w * m.m3.y)
        - (m.m3.z * m.m2.w * m.m1.y + m.m1.z * m.m3.w * m.m2.y + m.m2.z * m.m1.w * m.m3.y))
      + m.m1.x * ((m.m3.z * m.m2.w * m.m0.y + m.m0.z * m.m3.w * m.m2.y + m.m2.z * m.m0.w * m.m3.y)
        - (m.m2.z * m.m3.w * m.m0.y + m.m3.z * m.m0.w * m.m2.y + m.m0.z * m.m2.w * m.m3.y))
      + m.m2.x * ((m.m1.z * m.m3.w * m.m0.y + m.m3.z * m.m0.w * m.m1.y + m.m0.z * m.m1.w * m.m3.y)
        - (m.m3.z * m.m1.w * m.m0.y + m.m0.z * m.m3.w * m.m1.y + m.m1.z * m.m0.w * m.m3.y))
      + m.m3.x * ((m.m2.z * m.m1.w * m.m0.y + m.m0.z * m.m2.w * m.m1.y + m.m1.z * m.m0.w * m.m2.y)
        - (m.m1.z * m.m2.w * m.m0.y + m.m2.z * m.m0.w * m.m1.y + m.m0.z * m.m1.w * m.m2.y)) := by
  rw [Matrix.det_succ_row_zero]
  simp only [Fin.sum_univ_succ, Matrix.det_fin_three, Matrix.submatrix_apply]
  have e1 : (Fin.succAbove (1 : Fin 4)) 0 = 0 := by decide
  have e2 : (Fin.succAbove (1 : Fin 4)) 1 = 2 := by decide
  have e3 : (Fin.succAbove (1 : Fin 4)) 2 = 3 := by decide
  have e4 : (Fin.succAbove (2 : Fin 4)) 0 = 0 := by decide
  have e5 : (Fin.succAbove (2 : Fin 4)) 1 = 1 := by decide
  have e6 : (Fin.succAbove (2 : Fin 4)) 2 = 3 := by decide
  have e7 : (Fin.succAbove (3 : Fin 4)) 0 = 0 := by decide
  have e8 : (Fin.succAbove (3 : Fin 4)) 1 = 1 := by decide
  have e9 : (Fin.succAbove (3 : Fin 4)) 2 = 2 := by decide
  have f1 : (Fin.succAbove (0 : Fin 4)) 0 = 1 := by decide
  have f2 : (Fin.succAbove (0 : Fin 4)) 1 = 2 := by decide
  have f3 : (Fin.succAbove (0 : Fin 4)) 2 = 3 := by decide
  have g1 : Fin.succ (0 : Fin 3) = 1 := rfl
  have g2 : Fin.succ (1 : Fin 3) = 2 := rfl
  have g3 : Fin.succ (2 : Fin 3) = 3 := rfl
  have k1 : Fin.succ (0 : Fin 2) = 1 := rfl
  have k2 : Fin.succ (1 : Fin 2) = 2 := rfl
  have k3 : Fin.succ (0 : Fin 1) = 1 := rfl
  have h3 : ((3 : Fin 4) : ℕ) = 3 := rfl
  have h2 : ((2 : Fin 4) : ℕ) = 2 := rfl
  simp [tmat4.toMatrix, e1, e2, e3, e4, e5, e6, e7, e8, e9, f1, f2, f3, g1, g2, g3, k1, k2, k3,
    h2, h3, pow_succ]
  ring

/-- The product `tmat3.mul` is the Mathlib matrix product. -/
theorem tmat3_toMatrix_mul {T : Type} [CommRing T] (a b : tmat3 T) :
    (tmat3.mul a b).toMatrix = a.toMatrix * b.toMatrix := by
  ext i j
  fin_cases i <;> fin_cases j <;>
    simp [tmat3.toMatrix, tmat3.mul, tmat3.ofElems, Matrix.mul_apply, Fin.sum_univ_succ] <;> ring

/-- The function `tmat3.transpose` is the Mathlib transpose. -/
theorem tmat3_toMatrix_transpose {T : Type} (a : tmat3 T) :
    (tmat3.transpose a).toMatrix = a.toMatrix.transpose := by
  ext i j
  fin_cases i <;> fin_cases j <;> rfl

/-- The matrix `tmat3.ofScalar 1` is the Mathlib identity. -/
theorem tmat3_toMatrix_one {T : Type} [CommRing T] :
    (tmat3.ofScalar (1 : T)).toMatrix = 1 := by
  ext i j
  fin_cases i <;> fin_cases j <;> rfl

/-- An orthonormal rank-3 matrix (`transpose(R) * R = 1`) has a non-zero determinant. -/
theorem tmat3_det_ne_zero_of_orthonormal {T : Type} [Field T] (R : tmat3 T)
    (h : tmat3.mul (tmat3.transpose R) R = tmat3.ofScalar 1) : R.toMatrix.det ≠ 0 := by
  have h1 := congrArg (fun m => m.toMatrix.det) h
  simp only [tmat3_toMatrix_mul, tmat3_toMatrix_transpose, tmat3_toMatrix_one, Matrix.det_mul,
    Matrix.det_transpose, Matrix.det_one] at h1
  intro h0
  rw [h0] at h1
  simp at h1


/-! ## Inverses (C1, C2) -/

set_option maxHeartbeats 4000000 in
/-- Claim C1: in a field, for every 4x4 matrix `M` with non-zero determinant,
`M * inverse(M)` equals the 4x4 identity matrix `tmat4(1)` in all 16 entries: the
twelve off-diagonal entries vanish identically, the four diagonal ones are the
denominator of `inverse` (the determinant) times its inverse. -/
theorem tmat4.mul_inverse {T : Type} [Field T] (M : tmat4 T) (h : M.toMatrix.det ≠ 0) :
    tmat4.mul M (tmat4.inverse M) = tmat4.ofScalar 1 := by
  rw [tmat4_det_toMatrix] at h
  have one_eq := mul_inv_cancel₀ h
  simp only [tmat4.mul, tmat4.inverse, tmat4.ofElems, tmat4.ofScalar, tmat4.mk.injEq,
    tvec4.mk.injEq]
  refine ⟨⟨?_, ?_, ?_, ?_⟩, ⟨?_, ?_, ?_, ?_⟩, ⟨?_, ?_, ?_, ?_⟩, ?_, ?_, ?_, ?_⟩ <;>
    first
    | ring1
    | (refine Eq.trans ?_ one_eq; ring1)

/-- Witness of C1 on the matrix of the unit test,
`mat4(1, 2, 3, 4, 6, 5, 4, 3, 7, 9, 8, 6, 9, 6, 3, 2)`, over `ℚ`. -/
theorem tmat4.mul_inverse_witness :
    (tmat4.ofElems (1 : ℚ) 2 3 4 6 5 4 3 7 9 8 6 9 6 3 2).toMatrix.det ≠ 0 ∧
    tmat4.mul (tmat4.ofElems (1 : ℚ) 2 3 4 6 5 4 3 7 9 8 6 9 6 3 2)
      (tmat4.inverse (tmat4.ofElems (1 : ℚ) 2 3 4 6 5 4 3 7 9 8 6 9 6 3 2))
        = tmat4.ofScalar 1 :=
  ⟨by rw [tmat4_det_toMatrix]; norm_num [tmat4.ofElems],
   tmat4.mul_inverse _ (by rw [tmat4_det_toMatrix]; norm_num [tmat4.ofElems])⟩

/-- Claim C2: in a field, for every 2x2 matrix `M` with `a*d - b*c ≠ 0`
(`a = m[0].x, b = m[0].y, c = m[1].x, d = m[1].y`) and every 3x3 matrix `M`
with non-zero determinant, `M * inverse(M)` equals the identity matrix of that
rank in every entry. -/
theorem mul_inverse_rank2_rank3 {T : Type} [Field T] :
    (∀ M : tmat2 T, M.m0.x * M.m1.y - M.m0.y * M.m1.x ≠ 0 →
        tmat2.mul M (tmat2.inverse M) = tmat2.ofScalar 1) ∧
    (∀ M : tmat3 T, M.toMatrix.det ≠ 0 →
        tmat3.mul M (tmat3.inverse M) = tmat3.ofScalar 1) := by
  constructor
  · intro M h
    simp only [tmat2.mul, tmat2.inverse, tmat2.ofElems, tmat2.ofScalar, tmat2.mk.injEq,
      tvec2.mk.injEq]
    refine ⟨⟨?_, ?_⟩, ?_, ?_⟩ <;> field_simp <;> ring
  · intro M h
    rw [tmat3_det_toMatrix] at h
    simp only [tmat3.mul, tmat3.inverse, tmat3.ofElems, tmat3.ofScalar, tmat3.mk.injEq,
      tvec3.mk.injEq]
    refine ⟨⟨?_, ?_, ?_⟩, ⟨?_, ?_, ?_⟩, ?_, ?_, ?_⟩ <;> field_simp <;> ring

/-- Witness of C2 on the two matrices of the unit test, `mat2(1, 2, 4, 3)` and
`mat3(1, 2, 3, 6, 5, 4, 7, 9, 8)`, over `ℚ`. -/
theorem mul_inverse_rank2_rank3_witness :
    ((1 : ℚ) * 3 - 2 * 4 ≠ 0 ∧
      tmat2.mul (tmat2.ofElems (1 : ℚ) 2 4 3) (tmat2.inverse (tmat2.ofElems (1 : ℚ) 2 4 3))
        = tmat2.ofScalar 1) ∧
    ((tmat3.ofElems (1 : ℚ) 2 3 6 5 4 7 9 8).toMatrix.det ≠ 0 ∧
      tmat3.mul (tmat3.ofElems (1 : ℚ) 2 3 6 5 4 7 9 8)
        (tmat3.inverse (tmat3.ofElems (1 : ℚ) 2 3 6 5 4 7 9 8)) = tmat3.ofScalar 1) :=
  ⟨⟨by norm_num,
    mul_inverse_rank2_rank3.1 (tmat2.ofElems (1 : ℚ) 2 4 3) (by norm_num [tmat2.ofElems])⟩,
   ⟨by rw [tmat3_det_toMatrix]; norm_num [tmat3.ofElems],
    mul_inverse_rank2_rank3.2 (tmat3.ofElems (1 : ℚ) 2 3 6 5 4 7 9 8)
      (by rw [tmat3_det_toMatrix]; norm_num [tmat3.ofElems])⟩⟩

/-! ## Products (C3, C4, C5) -/

/-- Claim C3: for every rank `N` in `{2, 3, 4}`, every `N x N` matrix `M` and
every `N`-vector `v` over a commutative ring, the row-vector product `v * M`
equals `transpose(M) * v`. -/
theorem vecMul_eq_transpose_mulVec {T : Type} [CommRing T] :
    (∀ (v : tvec2 T) (M : tmat2 T),
      tmat2.vecMul v M = tmat2.mulVec (tmat2.transpose M) v) ∧
    (∀ (v : tvec3 T) (M : tmat3 T),
      tmat3.vecMul v M = tmat3.mulVec (tmat3.transpose M) v) ∧
    (∀ (v : tvec4 T) (M : tmat4 T),
      tmat4.vecMul v M = tmat4.mulVec (tmat4.transpose M) v) := by
  refine ⟨?_, ?_, ?_⟩ <;> intro v M <;> rfl

/-- Claim C5: the three matrices of the unit test, built from explicit element
lists, give exactly the listed products: `mat2(1,2,4,3)` with `a = (1,2)` gives
`M*a = (9,8)` and `a*M = (5,10)`; `mat3(1,2,3,6,5,4,7,9,8)` with `a = (1,2,3)`
gives `M*a = (34,39,35)` and `a*M = (14,28,49)`;
`mat4(1,2,3,4,6,5,4,3,7,9,8,6,9,6,3,2)` with `a = (1,2,3,4)` gives
`M*a = (70,63,47,36)` and `a*M = (30,40,73,38)` (in every commutative ring). -/
theorem unit_test_products {T : Type} [CommRing T] :
    (tmat2.mulVec (tmat2.ofElems (1 : T) 2 4 3) ⟨1, 2⟩ = ⟨9, 8⟩ ∧
     tmat2.vecMul ⟨1, 2⟩ (tmat2.ofElems (1 : T) 2 4 3) = ⟨5, 10⟩) ∧
    (tmat3.mulVec (tmat3.ofElems (1 : T) 2 3 6 5 4 7 9 8) ⟨1, 2, 3⟩ = ⟨34, 39, 35⟩ ∧
     tmat3.vecMul ⟨1, 2, 3⟩ (tmat3.ofElems (1 : T) 2 3 6 5 4 7 9 8) = ⟨14, 28, 49⟩) ∧
    (tmat4.mulVec (tmat4.ofElems (1 : T) 2 3 4 6 5 4 3 7 9 8 6 9 6 3 2) ⟨1, 2, 3, 4⟩
        = ⟨70, 63, 47, 36⟩ ∧
     tmat4.vecMul ⟨1, 2, 3, 4⟩ (tmat4.ofElems (1 : T) 2 3 4 6 5 4 3 7 9 8 6 9 6 3 2)
        = ⟨30, 40, 73, 38⟩) := by
  simp only [tmat2.mulVec, tmat2.vecMul, tmat2.ofElems, tmat3.mulVec, tmat3.vecMul,
    tmat3.ofElems, tmat4.mulVec, tmat4.vecMul, tmat4.ofElems, tvec2.mk.injEq, tvec3.mk.injEq,
    tvec4.mk.injEq]
  norm_num

/-! ## Camera position (C6) -/

/-- Claim C6: in a field, for every 4x4 matrix `M` whose upper-left 3x3 block has
non-zero determinant (in particular when that block is orthonormal, see
`tmat3_det_ne_zero_of_orthonormal`) and every 3-vector `p`,
`getCameraPosition(setCameraPosition(M, p))` is exactly `p`. -/
theorem getCameraPosition_setCameraPosition {T : Type} [Field T] (M : tmat4 T) (p : tvec3 T)
    (h : (tmat3.ofMat4 M).toMatrix.det ≠ 0) :
    getCameraPosition (setCameraPosition M p) = p := by
  rw [tmat3_det_toMatrix] at h
  simp only [tmat3.ofMat4] at h
  have ex := fun q : T => (congrArg (HMul.hMul q) (mul_inv_cancel₀ h)).trans (mul_one q)
  simp only [getCameraPosition, setCameraPosition, tmat3.ofMat4, tmat3.inverse, tmat3.mulVec,
    tmat3.ofElems, tvec3.neg, tvec3.ofVec4, tvec4.ofVec3]
  obtain ⟨px, py, pz⟩ := p
  simp only [tvec3.mk.injEq]
  refine ⟨?_, ?_, ?_⟩
  · refine Eq.trans ?_ (ex px); ring1
  · refine Eq.trans ?_ (ex py); ring1
  · refine Eq.trans ?_ (ex pz); ring1

/-- Witness of C6 on the matrix of the unit test and the position `(5, -7, 11)`,
over `ℚ`. -/
theorem getCameraPosition_setCameraPosition_witness :
    (tmat3.ofMat4 (tmat4.ofElems (1 : ℚ) 2 3 4 6 5 4 3 7 9 8 6 9 6 3 2)).toMatrix.det ≠ 0 ∧
    getCameraPosition (setCameraPosition (tmat4.ofElems (1 : ℚ) 2 3 4 6 5 4 3 7 9 8 6 9 6 3 2)
      ⟨5, -7, 11⟩) = ⟨5, -7, 11⟩ :=
  ⟨by rw [tmat3_det_toMatrix]; norm_num [tmat4.ofElems, tmat3.ofMat4],
   getCameraPosition_setCameraPosition _ _
     (by rw [tmat3_det_toMatrix]; norm_num [tmat4.ofElems, tmat3.ofMat4])⟩

/-! ## The permutation table (C8) -/

/-- A draw of `crand` is below `2 ^ 15`. -/
theorem crand_lt (seed : Nat) : (crand seed).2 < 2 ^ 15 := by
  have h := Nat.and_pow_two_sub_one_eq_mod (((seed * 214013 + 2531011) % 2 ^ 32) >>> 16) 15
  have e : (2 : Nat) ^ 15 - 1 = 0x7fff := by norm_num
  rw [e] at h
  simp only [crand, h]
  exact Nat.mod_lt _ (by norm_num)

/-- Reading index `k` after a write at index `i`. -/
theorem getD_set_eq (l : List Nat) (i k a : Nat) :
    (l.set i a).getD k 0 = if i = k ∧ i < l.length then a else l.getD k 0 := by
  simp only [List.getD_eq_getElem?_getD, List.getElem?_set]
  by_cases h : i = k
  · subst h
    by_cases h2 : i < l.length
    · simp [h2]
    · have : l.length ≤ i := by omega
      simp [h2, List.getElem?_eq_none this]
  · simp [h]

/-- Reading index `k` after `std::swap(arr[i], arr[j])` with both indices in bounds. -/
theorem getD_swapAt (l : List Nat) (i j k : Nat) (hi : i < l.length) (hj : j < l.length) :
    (swapAt l i j).getD k 0 =
      if k = j then l.getD i 0 else if k = i then l.getD j 0 else l.getD k 0 := by
  simp only [swapAt, getD_set_eq, List.length_set]
  by_cases h1 : k = j
  · simp [h1, hj]
  · by_cases h2 : k = i
    · subst h2
      have : ¬ j = k := fun h => h1 h.symm
      simp [h1, this, hi]
    · have a1 : ¬ j = k := fun h => h1 h.symm
      have a2 : ¬ i = k := fun h => h2 h.symm
      simp [h1, h2, a1, a2]

/-- The swap keeps the length. -/
theorem length_swapAt (l : List Nat) (i j : Nat) : (swapAt l i j).length = l.length := by
  simp [swapAt]

/-- The swap partner `j` of the shuffle loop is at most `i`: no 32-bit wrap occurs in
`crand(seed)*(i+1)` and the shift by 15 brings it below `i + 1`. -/
theorem shuffle_index_lt (seed i : Nat) (hi : i < 256) :
    (((crand seed).2 * (i + 1)) % 2 ^ 32) >>> 15 < i + 1 := by
  have hr := crand_lt seed
  have h1 : (crand seed).2 * (i + 1) < 2 ^ 15 * (i + 1) :=
    Nat.mul_lt_mul_of_pos_right hr (Nat.succ_pos i)
  have h2 : (crand seed).2 * (i + 1) < 2 ^ 32 := by
    have : 2 ^ 15 * (i + 1) ≤ 2 ^ 15 * 256 := Nat.mul_le_mul_left _ (by omega)
    have e : (2 : Nat) ^ 15 * 256 ≤ 2 ^ 32 := by norm_num
    omega
  rw [Nat.mod_eq_of_lt h2, Nat.shiftRight_eq_div_pow]
  rw [Nat.div_lt_iff_lt_mul (by norm_num)]
  omega

/-- A swap inside the first 256 entries permutes them. -/
theorem perm_swapAt (l : List Nat) (i j : Nat) (hi : i < 256) (hj : j < 256)
    (hlen : 256 ≤ l.length) :
    (List.ofFn fun k : Fin 256 => (swapAt l i j).getD k 0).Perm
      (List.ofFn fun k : Fin 256 => l.getD k 0) := by
  have e : (fun k : Fin 256 => (swapAt l i j).getD k 0)
      = (fun k : Fin 256 => l.getD k 0) ∘ (Equiv.swap (⟨j, hj⟩ : Fin 256) ⟨i, hi⟩) := by
    funext k
    rw [getD_swapAt l i j k (by omega) (by omega)]
    simp only [Function.comp_apply, Equiv.swap_apply_def, Fin.ext_iff]
    by_cases h1 : (k : Nat) = j
    · simp [h1]
    · by_cases h2 : (k : Nat) = i
      · have h3 : ¬ i = j := fun h => h1 (h2.trans h)
        simp [h1, h2, h3]
      · simp [h1, h2]
  rw [e]
  exact Equiv.Perm.ofFn_comp_perm _ _

/-- One shuffle step keeps the length and keeps the first 256 entries a permutation
of `0..255`. -/
theorem shuffleStep_inv (st : NoiseLUT × Nat) (i : Nat) (hi : i < 256)
    (hlen : st.1.length = 768)
    (hperm : (List.ofFn fun k : Fin 256 => st.1.getD k 0).Perm (List.range 256)) :
    (shuffleStep st i).1.length = 768 ∧
      (List.ofFn fun k : Fin 256 => (shuffleStep st i).1.getD k 0).Perm (List.range 256) := by
  obtain ⟨arr, seed⟩ := st
  have hj := shuffle_index_lt seed i hi
  simp only [shuffleStep]
  refine ⟨by rw [length_swapAt]; exact hlen, ?_⟩
  exact (perm_swapAt arr i _ hi (by omega) (by simp at hlen; omega)).trans hperm

/-- The whole shuffle loop keeps the invariant of `shuffleStep_inv`. -/
theorem shuffle_inv (is : List Nat) (his : ∀ i ∈ is, i < 256) (st : NoiseLUT × Nat)
    (hlen : st.1.length = 768)
    (hperm : (List.ofFn fun k : Fin 256 => st.1.getD k 0).Perm (List.range 256)) :
    (is.foldl shuffleStep st).1.length = 768 ∧
      (List.ofFn fun k : Fin 256 => (is.foldl shuffleStep st).1.getD k 0).Perm
        (List.range 256) := by
  induction is generalizing st with
  | nil => exact ⟨hlen, hperm⟩
  | cons i is ih =>
    have h := shuffleStep_inv st i (his i (List.mem_cons_self _ _)) hlen hperm
    exact ih (fun k hk => his k (List.mem_cons_of_mem _ hk)) _ h.1 h.2

/-- The first loop of `gen_table`, `arr[i] = i` for `i < n`. -/
theorem init_loop (n : Nat) (arr : NoiseLUT) :
    ((List.range n).foldl (fun arr i => arr.set i i) arr).length = arr.length ∧
    ∀ k, ((List.range n).foldl (fun arr i => arr.set i i) arr).getD k 0
      = if k < n ∧ k < arr.length then k else arr.getD k 0 := by
  induction n with
  | zero => simp
  | succ n ih =>
    rw [List.range_succ, List.foldl_append]
    simp only [List.foldl_cons, List.foldl_nil, List.length_set]
    refine ⟨ih.1, fun k => ?_⟩
    rw [getD_set_eq, ih.2, ih.1]
    by_cases h1 : n = k
    · subst h1
      by_cases h2 : n < arr.length
      · simp [h2]
      · simp [h2]
    · have e1 : (k < n + 1) = (k < n) := by
        apply propext; constructor <;> intro h <;> omega
      simp [h1, e1]

/-- The last loop of `gen_table`: after `n` rounds the entries `256..256+n-1` and
`512..512+n-1` are copies of the first `n` entries and nothing else has changed. -/
theorem copy_loop (n : Nat) (hn : n ≤ 256) (arr : NoiseLUT) (hlen : arr.length = 768) :
    ((List.range n).foldl
      (fun arr i => (arr.set (i + 256) (arr.getD i 0)).set (i + 512) (arr.getD i 0)) arr).length
        = 768 ∧
    ∀ k, ((List.range n).foldl
      (fun arr i => (arr.set (i + 256) (arr.getD i 0)).set (i + 512) (arr.getD i 0)) arr).getD k 0
      = if 256 ≤ k ∧ k < 256 + n then arr.getD (k - 256) 0
        else if 512 ≤ k ∧ k < 512 + n then arr.getD (k - 512) 0 else arr.getD k 0 := by
  induction n with
  | zero =>
    refine ⟨by simpa using hlen, fun k => ?_⟩
    have e1 : ¬ (256 ≤ k ∧ k < 256 + 0) := by omega
    have e2 : ¬ (512 ≤ k ∧ k < 512 + 0) := by omega
    simp [e1, e2]
  | succ n ih =>
    have ih' := ih (by omega)
    rw [List.range_succ, List.foldl_append]
    simp only [List.foldl_cons, List.foldl_nil, List.length_set]
    refine ⟨ih'.1, fun k => ?_⟩
    rw [getD_set_eq, getD_set_eq, List.length_set, ih'.1, ih'.2 n, ih'.2 k]
    have e0 : ¬ (256 ≤ n ∧ n < 256 + n) := by omega
    have e0' : ¬ (512 ≤ n ∧ n < 512 + n) := by omega
    simp only [e0, e0', if_false]
    split_ifs with c1 c2 c3 c4 c5 c6 <;>
      first
      | (exfalso; omega)
      | exact congrArg (fun t => arr.getD t 0) (by omega)

/-- The first 256 entries, read one by one, are `take 256`. -/
theorem ofFn_getD_eq_take (l : List Nat) (hlen : 256 ≤ l.length) :
    (List.ofFn fun k : Fin 256 => l.getD k 0) = l.take 256 := by
  apply List.ext_getElem
  · rw [List.length_ofFn, List.length_take]; omega
  · intro n h1 h2
    simp only [List.length_ofFn] at h1
    simp only [List.getElem_ofFn, List.getElem_take]
    exact List.getD_eq_getElem _ _ (by omega)

/-- The table of `gen_table`: 768 entries, the first 256 a permutation of `0..255`,
each entry equal to the entry at its index modulo 256. -/
theorem gen_table_facts :
    gen_table.length = 768 ∧
    (List.ofFn fun k : Fin 256 => gen_table.getD k 0).Perm (List.range 256) ∧
    ∀ i, i < 768 → gen_table.getD i 0 = gen_table.getD (i % 256) 0 := by
  have hinit := init_loop 256 (List.replicate 768 0)
  have hsh := shuffle_inv ((List.range 255).reverse.map (· + 1))
    (by
      intro i hi
      simp only [List.mem_map, List.mem_reverse, List.mem_range] at hi
      obtain ⟨a, ha, rfl⟩ := hi
      omega)
    ((List.range 256).foldl (fun arr i => arr.set i i) (List.replicate 768 0), 1)
    (by rw [hinit.1]; exact List.length_replicate _ _)
    (by
      have e : (fun k : Fin 256 =>
          ((List.range 256).foldl (fun arr i => arr.set i i) (List.replicate 768 0)).getD k 0)
          = fun k : Fin 256 => (k : Nat) := by
        funext k
        have := k.isLt
        rw [hinit.2]
        rw [if_pos ⟨this, by rw [List.length_replicate]; omega⟩]
      simp only [e]
      rw [List.ofFn_eq_map, List.map_coe_finRange])
  have hcopy := copy_loop 256 (le_refl _) _ hsh.1
  refine ⟨hcopy.1, ?_, ?_⟩
  · have e : (fun k : Fin 256 => gen_table.getD k 0) = fun k : Fin 256 =>
        (((List.range 255).reverse.map (· + 1)).foldl shuffleStep
          ((List.range 256).foldl (fun arr i => arr.set i i) (List.replicate 768 0), 1)).1.getD
            k 0 := by
      funext k
      have hk := k.isLt
      have e1 : ¬ (256 ≤ (k : Nat) ∧ (k : Nat) < 256 + 256) := by omega
      have e2 : ¬ (512 ≤ (k : Nat) ∧ (k : Nat) < 512 + 256) := by omega
      show List.getD _ _ _ = _
      rw [gen_table, hcopy.2, if_neg e1, if_neg e2]
    rw [e]
    exact hsh.2
  · intro i hi
    have hm : i % 256 < 256 := Nat.mod_lt _ (by norm_num)
    rw [gen_table, hcopy.2 i, hcopy.2 (i % 256)]
    have e1 : ¬ (256 ≤ i % 256 ∧ i % 256 < 256 + 256) := by omega
    have e2 : ¬ (512 ≤ i % 256 ∧ i % 256 < 512 + 256) := by omega
    rw [if_neg e1, if_neg e2]
    by_cases h1 : 256 ≤ i ∧ i < 256 + 256
    · have e : i % 256 = i - 256 := by omega
      rw [if_pos h1, e]
    · rw [if_neg h1]
      by_cases h2 : 512 ≤ i ∧ i < 512 + 256
      · have e : i % 256 = i - 512 := by omega
        rw [if_pos h2, e]
      · have e : i % 256 = i := by omega
        rw [if_neg h2, e]

/-- Every entry of the table is below 256. -/
theorem gen_table_lt (i : Nat) (hi : i < 768) : gen_table.getD i 0 < 256 := by
  have hm : i % 256 < 256 := Nat.mod_lt _ (by norm_num)
  rw [gen_table_facts.2.2 i hi]
  have hmem : gen_table.getD (i % 256) 0 ∈ List.ofFn fun k : Fin 256 => gen_table.getD k 0 :=
    (List.mem_ofFn _ _).mpr ⟨⟨i % 256, hm⟩, rfl⟩
  exact List.mem_range.mp ((gen_table_facts.2.1.mem_iff).mp hmem)

/-- Claim C8: the table returned by `gen_table()` is well-formed.  It has 768
entries; its first 256 entries are a permutation of `0..255`, that is, every
value `0..255` occurs among them exactly once; and for every index `i < 768`
the entry at `i` equals the entry at `i mod 256`, so every entry is `< 256`. -/
theorem gen_table_wellformed :
    gen_table.length = 768 ∧
    (gen_table.take 256).Perm (List.range 256) ∧
    (∀ v : Fin 256, (gen_table.take 256).count v.val = 1) ∧
    (∀ i : Fin 768, gen_table.getD i.val 0 = gen_table.getD (i.val % 256) 0) ∧
    (∀ i : Fin 768, gen_table.getD i.val 0 < 256) := by
  have hperm : (gen_table.take 256).Perm (List.range 256) := by
    rw [← ofFn_getD_eq_take gen_table (by rw [gen_table_facts.1]; norm_num)]
    exact gen_table_facts.2.1
  refine ⟨gen_table_facts.1, hperm, fun v => ?_, fun i => gen_table_facts.2.2 i.val i.isLt,
    fun i => gen_table_lt i.val i.isLt⟩
  rw [hperm.count_eq]
  exact List.count_eq_one_of_mem (List.nodup_range 256) (List.mem_range.mpr v.isLt)

/-! ## Periodicity of the noise (C7) -/

/-- The conversion `toUint32` on an integer-valued argument. -/
theorem toUint32_intCast {T : Type} [LinearOrderedField T] [FloorRing T] (n : ℤ) :
    toUint32 (n : T) = n.toNat % 2 ^ 32 := by
  simp [toUint32]

/-- The mask `& 255` is the remainder modulo 256. -/
theorem land_255 (a : Nat) : a &&& 255 = a % 256 := by
  have h := Nat.and_pow_two_sub_one_eq_mod a 8
  have e : (2 : Nat) ^ 8 - 1 = 255 := by norm_num
  have e' : (2 : Nat) ^ 8 = 256 := by norm_num
  rw [e, e'] at h
  exact h

/-- On an integer-valued argument `floormod256` is the floor modulus by 256. -/
theorem floormod256_intCast {T : Type} [LinearOrderedField T] [FloorRing T] (n : ℤ) :
    floormod256 (n : T) = (n % 256).toNat := by
  unfold floormod256
  by_cases h : (n : T) < 0
  · have hn : n < 0 := by exact_mod_cast h
    have e : (-(n : T) - 1) = ((-n - 1 : ℤ) : T) := by push_cast; ring
    rw [if_pos h, e, toUint32_intCast, land_255]
    omega
  · have hn : 0 ≤ n := by
      have := not_lt.mp h
      exact_mod_cast this
    rw [if_neg h, toUint32_intCast, land_255]
    omega

/-- The function `floormod256` has period 256 on integer-valued arguments. -/
theorem floormod256_add_256 {T : Type} [LinearOrderedField T] [FloorRing T] (n : ℤ) :
    floormod256 (((n + 256 : ℤ)) : T) = floormod256 (n : T) := by
  rw [floormod256_intCast, floormod256_intCast]
  congr 1
  omega

/-- The floor commutes with adding 256. -/
theorem floor_add_256 {T : Type} [LinearOrderedField T] [FloorRing T] (x : T) :
    ⌊x + 256⌋ = ⌊x⌋ + 256 := by
  simp

/-- Claim C7: in exact arithmetic (any ordered field with a floor) the noise field
has period 256 along every axis: `noise1d(x + 256) = noise1d(x)` for every `x`,
and `noise2d`, `noise3d` are unchanged when any single one of their coordinates
is increased by 256. -/
theorem noise_period_256 {T : Type} [LinearOrderedField T] [FloorRing T] :
    (∀ x : T, noise1d (x + 256) = noise1d x) ∧
    (∀ x y : T, noise2d (x + 256) y = noise2d x y ∧ noise2d x (y + 256) = noise2d x y) ∧
    (∀ x y z : T, noise3d (x + 256) y z = noise3d x y z ∧
      noise3d x (y + 256) z = noise3d x y z ∧ noise3d x y (z + 256) = noise3d x y z) := by
  have hfrac : ∀ x : T, x + 256 - ((⌊x⌋ + 256 : ℤ) : T) = x - (⌊x⌋ : T) := by
    intro x; push_cast; ring
  refine ⟨fun x => ?_, fun x y => ⟨?_, ?_⟩, fun x y z => ⟨?_, ?_, ?_⟩⟩ <;>
    simp only [noise1d, noise2d, noise3d, floor_add_256, floormod256_add_256, hfrac]

/-! ## Normalisation over the reals (C9, C10) -/

/-- The squared length `dot(v, v)` of a real vector is non-negative. -/
theorem tvec2_dot_self_nonneg (v : tvec2 ℝ) : 0 ≤ tvec2.dot v v := by
  simp only [tvec2.dot]
  nlinarith [mul_self_nonneg v.x, mul_self_nonneg v.y]

/-- Over `ℝ`, `length(v) = 0` exactly when `v` is the zero vector `T(0)`. -/
theorem tvec2_length_eq_zero_iff (v : tvec2 ℝ) :
    tvec2.length Real.sqrt v = 0 ↔ v = tvec2.splat 0 := by
  rw [tvec2.length, Real.sqrt_eq_zero (tvec2_dot_self_nonneg v)]
  obtain ⟨x, y⟩ := v
  simp only [tvec2.dot, tvec2.splat, tvec2.mk.injEq]
  constructor
  · intro h
    refine ⟨?_, ?_⟩ <;> nlinarith [mul_self_nonneg x, mul_self_nonneg y]
  · rintro ⟨rfl, rfl⟩
    norm_num

/-- The guard of `normalize`: the zero vector is returned unchanged. -/
theorem tvec2_normalize_zero :
    tvec2.normalize Real.sqrt (tvec2.splat (0 : ℝ)) = tvec2.splat 0 := by
  have h : tvec2.length Real.sqrt (tvec2.splat (0 : ℝ)) = 0 :=
    (tvec2_length_eq_zero_iff _).mpr rfl
  simp only [tvec2.normalize, h, if_true]

/-- Away from the zero vector `normalize` takes the dividing branch. -/
theorem tvec2_normalize_of_ne (v : tvec2 ℝ) (hv : v ≠ tvec2.splat 0) :
    tvec2.normalize Real.sqrt v = tvec2.mulScalar v (1 / tvec2.length Real.sqrt v) := by
  have h : tvec2.length Real.sqrt v ≠ 0 := fun h => hv ((tvec2_length_eq_zero_iff v).mp h)
  simp only [tvec2.normalize, h, if_false]

/-- The result of `normalize` on a non-zero vector has length one. -/
theorem tvec2_length_normalize (v : tvec2 ℝ) (hv : v ≠ tvec2.splat 0) :
    tvec2.length Real.sqrt (tvec2.normalize Real.sqrt v) = 1 := by
  have h : tvec2.length Real.sqrt v ≠ 0 := fun h => hv ((tvec2_length_eq_zero_iff v).mp h)
  have hsq : tvec2.length Real.sqrt v * tvec2.length Real.sqrt v = tvec2.dot v v :=
    Real.mul_self_sqrt (tvec2_dot_self_nonneg v)
  rw [tvec2_normalize_of_ne v hv]
  generalize tvec2.length Real.sqrt v = d at h hsq
  have e : tvec2.dot (tvec2.mulScalar v (1 / d)) (tvec2.mulScalar v (1 / d)) = 1 := by
    simp only [tvec2.dot, tvec2.mulScalar] at hsq ⊢
    field_simp
    linarith
  rw [tvec2.length, e, Real.sqrt_one]

/-- Idempotence of `normalize` on `tvec2`. -/
theorem tvec2_normalize_idem (v : tvec2 ℝ) :
    tvec2.normalize Real.sqrt (tvec2.normalize Real.sqrt v) = tvec2.normalize Real.sqrt v := by
  by_cases hv : v = tvec2.splat 0
  · rw [hv, tvec2_normalize_zero, tvec2_normalize_zero]
  · have h1 := tvec2_length_normalize v hv
    generalize tvec2.normalize Real.sqrt v = n at h1
    simp only [tvec2.normalize, h1, one_ne_zero, if_false, tvec2.mulScalar, div_one, mul_one]

/-- On a non-zero vector: the divisor is positive, the result has length one and
is a positive multiple of the argument. -/
theorem tvec2_normalize_spec (v : tvec2 ℝ) (hv : v ≠ tvec2.splat 0) :
    tvec2.length Real.sqrt v ≠ 0 ∧
    tvec2.normalize Real.sqrt v = tvec2.mulScalar v (1 / tvec2.length Real.sqrt v) ∧
    tvec2.length Real.sqrt (tvec2.normalize Real.sqrt v) = 1 ∧
    ∃ k : ℝ, 0 < k ∧ tvec2.normalize Real.sqrt v = tvec2.mulScalar v k := by
  have h : tvec2.length Real.sqrt v ≠ 0 := fun h => hv ((tvec2_length_eq_zero_iff v).mp h)
  have hpos : 0 < tvec2.length Real.sqrt v :=
    lt_of_le_of_ne (Real.sqrt_nonneg _) (Ne.symm h)
  exact ⟨h, tvec2_normalize_of_ne v hv, tvec2_length_normalize v hv,
    1 / tvec2.length Real.sqrt v, one_div_pos.mpr hpos, tvec2_normalize_of_ne v hv⟩

/-- The squared length `dot(v, v)` of a real vector is non-negative. -/
theorem tvec3_dot_self_nonneg (v : tvec3 ℝ) : 0 ≤ tvec3.dot v v := by
  simp only [tvec3.dot]
  nlinarith [mul_self_nonneg v.x, mul_self_nonneg v.y, mul_self_nonneg v.z]

/-- Over `ℝ`, `length(v) = 0` exactly when `v` is the zero vector `T(0)`. -/
theorem tvec3_length_eq_zero_iff (v : tvec3 ℝ) :
    tvec3.length Real.sqrt v = 0 ↔ v = tvec3.splat 0 := by
  rw [tvec3.length, Real.sqrt_eq_zero (tvec3_dot_self_nonneg v)]
  obtain ⟨x, y, z⟩ := v
  simp only [tvec3.dot, tvec3.splat, tvec3.mk.injEq]
  constructor
  · intro h
    refine ⟨?_, ?_, ?_⟩ <;> nlinarith [mul_self_nonneg x, mul_self_nonneg y, mul_self_nonneg z]
  · rintro ⟨rfl, rfl, rfl⟩
    norm_num

/-- The guard of `normalize`: the zero vector is returned unchanged. -/
theorem tvec3_normalize_zero :
    tvec3.normalize Real.sqrt (tvec3.splat (0 : ℝ)) = tvec3.splat 0 := by
  have h : tvec3.length Real.sqrt (tvec3.splat (0 : ℝ)) = 0 :=
    (tvec3_length_eq_zero_iff _).mpr rfl
  simp only [tvec3.normalize, h, if_true]

/-- Away from the zero vector `normalize` takes the dividing branch. -/
theorem tvec3_normalize_of_ne (v : tvec3 ℝ) (hv : v ≠ tvec3.splat 0) :
    tvec3.normalize Real.sqrt v = tvec3.mulScalar v (1 / tvec3.length Real.sqrt v) := by
  have h : tvec3.length Real.sqrt v ≠ 0 := fun h => hv ((tvec3_length_eq_zero_iff v).mp h)
  simp only [tvec3.normalize, h, if_false]

/-- The result of `normalize` on a non-zero vector has length one. -/
theorem tvec3_length_normalize (v : tvec3 ℝ) (hv : v ≠ tvec3.splat 0) :
    tvec3.length Real.sqrt (tvec3.normalize Real.sqrt v) = 1 := by
  have h : tvec3.length Real.sqrt v ≠ 0 := fun h => hv ((tvec3_length_eq_zero_iff v).mp h)
  have hsq : tvec3.length Real.sqrt v * tvec3.length Real.sqrt v = tvec3.dot v v :=
    Real.mul_self_sqrt (tvec3_dot_self_nonneg v)
  rw [tvec3_normalize_of_ne v hv]
  generalize tvec3.length Real.sqrt v = d at h hsq
  have e : tvec3.dot (tvec3.mulScalar v (1 / d)) (tvec3.mulScalar v (1 / d)) = 1 := by
    simp only [tvec3.dot, tvec3.mulScalar] at hsq ⊢
    field_simp
    linarith
  rw [tvec3.length, e, Real.sqrt_one]

/-- Idempotence of `normalize` on `tvec3`. -/
theorem tvec3_normalize_idem (v : tvec3 ℝ) :
    tvec3.normalize Real.sqrt (tvec3.normalize Real.sqrt v) = tvec3.normalize Real.sqrt v := by
  by_cases hv : v = tvec3.splat 0
  · rw [hv, tvec3_normalize_zero, tvec3_normalize_zero]
  · have h1 := tvec3_length_normalize v hv
    generalize tvec3.normalize Real.sqrt v = n at h1
    simp only [tvec3.normalize, h1, one_ne_zero, if_false, tvec3.mulScalar, div_one, mul_one]

/-- On a non-zero vector: the divisor is positive, the result has length one and
is a positive multiple of the argument. -/
theorem tvec3_normalize_spec (v : tvec3 ℝ) (hv : v ≠ tvec3.splat 0) :
    tvec3.length Real.sqrt v ≠ 0 ∧
    tvec3.normalize Real.sqrt v = tvec3.mulScalar v (1 / tvec3.length Real.sqrt v) ∧
    tvec3.length Real.sqrt (tvec3.normalize Real.sqrt v) = 1 ∧
    ∃ k : ℝ, 0 < k ∧ tvec3.normalize Real.sqrt v = tvec3.mulScalar v k := by
  have h : tvec3.length Real.sqrt v ≠ 0 := fun h => hv ((tvec3_length_eq_zero_iff v).mp h)
  have hpos : 0 < tvec3.length Real.sqrt v :=
    lt_of_le_of_ne (Real.sqrt_nonneg _) (Ne.symm h)
  exact ⟨h, tvec3_normalize_of_ne v hv, tvec3_length_normalize v hv,
    1 / tvec3.length Real.sqrt v, one_div_pos.mpr hpos, tvec3_normalize_of_ne v hv⟩

/-- The squared length `dot(v, v)` of a real vector is non-negative. -/
theorem tvec4_dot_self_nonneg (v : tvec4 ℝ) : 0 ≤ tvec4.dot v v := by
  simp only [tvec4.dot]
  nlinarith [mul_self_nonneg v.x, mul_self_nonneg v.y, mul_self_nonneg v.z, mul_self_nonneg v.w]

/-- Over `ℝ`, `length(v) = 0` exactly when `v` is the zero vector `T(0)`. -/
theorem tvec4_length_eq_zero_iff (v : tvec4 ℝ) :
    tvec4.length Real.sqrt v = 0 ↔ v = tvec4.splat 0 := by
  rw [tvec4.length, Real.sqrt_eq_zero (tvec4_dot_self_nonneg v)]
  obtain ⟨x, y, z, w⟩ := v
  simp only [tvec4.dot, tvec4.splat, tvec4.mk.injEq]
  constructor
  · intro h
    refine ⟨?_, ?_, ?_, ?_⟩ <;> nlinarith [mul_self_nonneg x, mul_self_nonneg y, mul_self_nonneg z, mul_self_nonneg w]
  · rintro ⟨rfl, rfl, rfl, rfl⟩
    norm_num

/-- The guard of `normalize`: the zero vector is returned unchanged. -/
theorem tvec4_normalize_zero :
    tvec4.normalize Real.sqrt (tvec4.splat (0 : ℝ)) = tvec4.splat 0 := by
  have h : tvec4.length Real.sqrt (tvec4.splat (0 : ℝ)) = 0 :=
    (tvec4_length_eq_zero_iff _).mpr rfl
  simp only [tvec4.normalize, h, if_true]

/-- Away from the zero vector `normalize` takes the dividing branch. -/
theorem tvec4_normalize_of_ne (v : tvec4 ℝ) (hv : v ≠ tvec4.splat 0) :
    tvec4.normalize Real.sqrt v = tvec4.mulScalar v (1 / tvec4.length Real.sqrt v) := by
  have h : tvec4.length Real.sqrt v ≠ 0 := fun h => hv ((tvec4_length_eq_zero_iff v).mp h)
  simp only [tvec4.normalize, h, if_false]

/-- The result of `normalize` on a non-zero vector has length one. -/
theorem tvec4_length_normalize (v : tvec4 ℝ) (hv : v ≠ tvec4.splat 0) :
    tvec4.length Real.sqrt (tvec4.normalize Real.sqrt v) = 1 := by
  have h : tvec4.length Real.sqrt v ≠ 0 := fun h => hv ((tvec4_length_eq_zero_iff v).mp h)
  have hsq : tvec4.length Real.sqrt v * tvec4.length Real.sqrt v = tvec4.dot v v :=
    Real.mul_self_sqrt (tvec4_dot_self_nonneg v)
  rw [tvec4_normalize_of_ne v hv]
  generalize tvec4.length Real.sqrt v = d at h hsq
  have e : tvec4.dot (tvec4.mulScalar v (1 / d)) (tvec4.mulScalar v (1 / d)) = 1 := by
    simp only [tvec4.dot, tvec4.mulScalar] at hsq ⊢
    field_simp
    linarith
  rw [tvec4.length, e, Real.sqrt_one]

/-- Idempotence of `normalize` on `tvec4`. -/
theorem tvec4_normalize_idem (v : tvec4 ℝ) :
    tvec4.normalize Real.sqrt (tvec4.normalize Real.sqrt v) = tvec4.normalize Real.sqrt v := by
  by_cases hv : v = tvec4.splat 0
  · rw [hv, tvec4_normalize_zero, tvec4_normalize_zero]
  · have h1 := tvec4_length_normalize v hv
    generalize tvec4.normalize Real.sqrt v = n at h1
    simp only [tvec4.normalize, h1, one_ne_zero, if_false, tvec4.mulScalar, div_one, mul_one]

/-- On a non-zero vector: the divisor is positive, the result has length one and
is a positive multiple of the argument. -/
theorem tvec4_normalize_spec (v : tvec4 ℝ) (hv : v ≠ tvec4.splat 0) :
    tvec4.length Real.sqrt v ≠ 0 ∧
    tvec4.normalize Real.sqrt v = tvec4.mulScalar v (1 / tvec4.length Real.sqrt v) ∧
    tvec4.length Real.sqrt (tvec4.normalize Real.sqrt v) = 1 ∧
    ∃ k : ℝ, 0 < k ∧ tvec4.normalize Real.sqrt v = tvec4.mulScalar v k := by
  have h : tvec4.length Real.sqrt v ≠ 0 := fun h => hv ((tvec4_length_eq_zero_iff v).mp h)
  have hpos : 0 < tvec4.length Real.sqrt v :=
    lt_of_le_of_ne (Real.sqrt_nonneg _) (Ne.symm h)
  exact ⟨h, tvec4_normalize_of_ne v hv, tvec4_length_normalize v hv,
    1 / tvec4.length Real.sqrt v, one_div_pos.mpr hpos, tvec4_normalize_of_ne v hv⟩

/-- Claim C9: in real arithmetic, for every vector `v` of length 2, 3 or 4 (zero
or not), `normalize(normalize(v)) = normalize(v)`. -/
theorem normalize_idempotent :
    (∀ v : tvec2 ℝ,
      tvec2.normalize Real.sqrt (tvec2.normalize Real.sqrt v) = tvec2.normalize Real.sqrt v) ∧
    (∀ v : tvec3 ℝ,
      tvec3.normalize Real.sqrt (tvec3.normalize Real.sqrt v) = tvec3.normalize Real.sqrt v) ∧
    (∀ v : tvec4 ℝ,
      tvec4.normalize Real.sqrt (tvec4.normalize Real.sqrt v) = tvec4.normalize Real.sqrt v) :=
  ⟨tvec2_normalize_idem, tvec3_normalize_idem, tvec4_normalize_idem⟩

/-- Claim C10: in real arithmetic `normalize` never divides by zero.  For each of
the lengths 2, 3, 4: `normalize` of the zero vector is the zero vector (the
guarded branch, no division), and for every non-zero `v` the divisor
`length(v)` is non-zero, the result is `v * (1 / length(v))`, it has length
exactly 1, and it is a positive multiple of `v`. -/
theorem normalize_guard_and_unit :
    (tvec2.normalize Real.sqrt (tvec2.splat (0 : ℝ)) = tvec2.splat 0 ∧
      ∀ v : tvec2 ℝ, v ≠ tvec2.splat 0 →
        tvec2.length Real.sqrt v ≠ 0 ∧
        tvec2.normalize Real.sqrt v = tvec2.mulScalar v (1 / tvec2.length Real.sqrt v) ∧
        tvec2.length Real.sqrt (tvec2.normalize Real.sqrt v) = 1 ∧
        ∃ k : ℝ, 0 < k ∧ tvec2.normalize Real.sqrt v = tvec2.mulScalar v k) ∧
    (tvec3.normalize Real.sqrt (tvec3.splat (0 : ℝ)) = tvec3.splat 0 ∧
      ∀ v : tvec3 ℝ, v ≠ tvec3.splat 0 →
        tvec3.length Real.sqrt v ≠ 0 ∧
        tvec3.normalize Real.sqrt v = tvec3.mulScalar v (1 / tvec3.length Real.sqrt v) ∧
        tvec3.length Real.sqrt (tvec3.normalize Real.sqrt v) = 1 ∧
        ∃ k : ℝ, 0 < k ∧ tvec3.normalize Real.sqrt v = tvec3.mulScalar v k) ∧
    (tvec4.normalize Real.sqrt (tvec4.splat (0 : ℝ)) = tvec4.splat 0 ∧
      ∀ v : tvec4 ℝ, v ≠ tvec4.splat 0 →
        tvec4.length Real.sqrt v ≠ 0 ∧
        tvec4.normalize Real.sqrt v = tvec4.mulScalar v (1 / tvec4.length Real.sqrt v) ∧
        tvec4.length Real.sqrt (tvec4.normalize Real.sqrt v) = 1 ∧
        ∃ k : ℝ, 0 < k ∧ tvec4.normalize Real.sqrt v = tvec4.mulScalar v k) :=
  ⟨⟨tvec2_normalize_zero, tvec2_normalize_spec⟩, ⟨tvec3_normalize_zero, tvec3_normalize_spec⟩,
    ⟨tvec4_normalize_zero, tvec4_normalize_spec⟩⟩

/-- Witness of C10 on the vectors `(3, 4)`, `(1, 2, 3)` and `(1, 2, 3, 4)`: each is
non-zero, so the second half of the claim applies to it. -/
theorem normalize_guard_and_unit_witness :
    ((⟨3, 4⟩ : tvec2 ℝ) ≠ tvec2.splat 0 ∧
      tvec2.length Real.sqrt (tvec2.normalize Real.sqrt ⟨3, 4⟩) = 1) ∧
    ((⟨1, 2, 3⟩ : tvec3 ℝ) ≠ tvec3.splat 0 ∧
      tvec3.length Real.sqrt (tvec3.normalize Real.sqrt ⟨1, 2, 3⟩) = 1) ∧
    ((⟨1, 2, 3, 4⟩ : tvec4 ℝ) ≠ tvec4.splat 0 ∧
      tvec4.length Real.sqrt (tvec4.normalize Real.sqrt ⟨1, 2, 3, 4⟩) = 1) :=
  ⟨⟨by simp [tvec2.splat],
    (normalize_guard_and_unit.1.2 ⟨3, 4⟩ (by simp [tvec2.splat])).2.2.1⟩,
   ⟨by simp [tvec3.splat],
    (normalize_guard_and_unit.2.1.2 ⟨1, 2, 3⟩ (by simp [tvec3.splat])).2.2.1⟩,
   ⟨by simp [tvec4.splat],
    (normalize_guard_and_unit.2.2.2 ⟨1, 2, 3, 4⟩ (by simp [tvec4.splat])).2.2.1⟩⟩

/-! ## Reflection (C11, C12) -/

/-- Claim C11: for every vector `n` with `dot(n, n) = 1` (length 2, 3 or 4, over any
commutative ring), `reflect(n, n)` equals `-n`. -/
theorem reflect_self {T : Type} [CommRing T] :
    (∀ n : tvec2 T, tvec2.dot n n = 1 → tvec2.reflect n n = tvec2.neg n) ∧
    (∀ n : tvec3 T, tvec3.dot n n = 1 → tvec3.reflect n n = tvec3.neg n) ∧
    (∀ n : tvec4 T, tvec4.dot n n = 1 → tvec4.reflect n n = tvec4.neg n) := by
  refine ⟨fun n h => ?_, fun n h => ?_, fun n h => ?_⟩
  · simp only [tvec2.reflect, tvec2.sub, tvec2.scalarMul, tvec2.neg, h, tvec2.mk.injEq]
    constructor <;> ring
  · simp only [tvec3.reflect, tvec3.sub, tvec3.scalarMul, tvec3.neg, h, tvec3.mk.injEq]
    refine ⟨?_, ?_, ?_⟩ <;> ring
  · simp only [tvec4.reflect, tvec4.sub, tvec4.scalarMul, tvec4.neg, h, tvec4.mk.injEq]
    refine ⟨?_, ?_, ?_, ?_⟩ <;> ring

/-- Witness of C11 on the unit vectors `(3/5, 4/5)`, `(1/3, 2/3, 2/3)` and
`(1/2, 1/2, 1/2, 1/2)` over `ℚ`. -/
theorem reflect_self_witness :
    (tvec2.dot (⟨3/5, 4/5⟩ : tvec2 ℚ) ⟨3/5, 4/5⟩ = 1 ∧
      tvec2.reflect (⟨3/5, 4/5⟩ : tvec2 ℚ) ⟨3/5, 4/5⟩ = tvec2.neg ⟨3/5, 4/5⟩) ∧
    (tvec3.dot (⟨1/3, 2/3, 2/3⟩ : tvec3 ℚ) ⟨1/3, 2/3, 2/3⟩ = 1 ∧
      tvec3.reflect (⟨1/3, 2/3, 2/3⟩ : tvec3 ℚ) ⟨1/3, 2/3, 2/3⟩ = tvec3.neg ⟨1/3, 2/3, 2/3⟩) ∧
    (tvec4.dot (⟨1/2, 1/2, 1/2, 1/2⟩ : tvec4 ℚ) ⟨1/2, 1/2, 1/2, 1/2⟩ = 1 ∧
      tvec4.reflect (⟨1/2, 1/2, 1/2, 1/2⟩ : tvec4 ℚ) ⟨1/2, 1/2, 1/2, 1/2⟩
        = tvec4.neg ⟨1/2, 1/2, 1/2, 1/2⟩) :=
  ⟨⟨by norm_num [tvec2.dot], reflect_self.1 _ (by norm_num [tvec2.dot])⟩,
   ⟨by norm_num [tvec3.dot], reflect_self.2.1 _ (by norm_num [tvec3.dot])⟩,
   ⟨by norm_num [tvec4.dot], reflect_self.2.2 _ (by norm_num [tvec4.dot])⟩⟩

/-- Claim C13: in real arithmetic `rotation(angle, ax, ay, az)` is the 3x3 identity
matrix `tmat3(1)` whenever `angle = 0` (for every axis, zero or not) and whenever
the axis is the zero vector (for every angle). -/
theorem rotation_identity_cases :
    (∀ ax ay az : ℝ, tmat3.rotation Real.sqrt Real.sin Real.cos Real.pi 0 ax ay az
      = tmat3.ofScalar 1) ∧
    (∀ angle : ℝ, tmat3.rotation Real.sqrt Real.sin Real.cos Real.pi angle 0 0 0
      = tmat3.ofScalar 1) := by
  constructor
  · intro ax ay az
    simp only [tmat3.rotation]
    split_ifs with h
    · simp [tmat3.ofElems, tmat3.ofScalar]
    · rfl
  · intro angle
    simp [tmat3.rotation]

/-! ## Translation (C14) -/

/-- Counterexample to C14 as stated (over `ℚ`): a 4x4 matrix with `m[0].w = 1` and
a 3x3 matrix with `m[0].z = 1`, translated by `dx = 1`.  The code leaves the last
component of the last column alone, the product `m * T` adds `1` to it. -/
theorem translate_ne_mul_counterexample :
    tmat4.translate (⟨⟨1, 0, 0, 1⟩, ⟨0, 1, 0, 0⟩, ⟨0, 0, 1, 0⟩, ⟨0, 0, 0, 1⟩⟩ : tmat4 ℚ) 1 0 0
      ≠ tmat4.mul ⟨⟨1, 0, 0, 1⟩, ⟨0, 1, 0, 0⟩, ⟨0, 0, 1, 0⟩, ⟨0, 0, 0, 1⟩⟩
          ⟨⟨1, 0, 0, 0⟩, ⟨0, 1, 0, 0⟩, ⟨0, 0, 1, 0⟩, ⟨1, 0, 0, 1⟩⟩ ∧
    tmat3.translate (⟨⟨1, 0, 1⟩, ⟨0, 1, 0⟩, ⟨0, 0, 1⟩⟩ : tmat3 ℚ) 1 0
      ≠ tmat3.mul ⟨⟨1, 0, 1⟩, ⟨0, 1, 0⟩, ⟨0, 0, 1⟩⟩ ⟨⟨1, 0, 0⟩, ⟨0, 1, 0⟩, ⟨1, 0, 1⟩⟩ := by
  constructor
  · intro h
    have hw := congrArg (fun m : tmat4 ℚ => m.m3.w) h
    norm_num [tmat4.translate, tmat4.mul, tmat4.ofElems] at hw
  · intro h
    have hz := congrArg (fun m : tmat3 ℚ => m.m2.z) h
    norm_num [tmat3.translate, tmat3.mul, tmat3.ofElems] at hz

/-- Claim C14, amended: over any commutative ring, for every 4x4 matrix `m` and
offsets `(dx, dy, dz)`, `translate(m, dx, dy, dz)` equals `old_m * T` (`T` the
identity with last column `(dx, dy, dz, 1)`) exactly when
`m[0].w*dx + m[1].w*dy + m[2].w*dz = 0`, in particular for every affine `m`
(`m[0].w = m[1].w = m[2].w = 0`); and for every 3x3 matrix `m`,
`translate(m, dx, dy)` equals `old_m * T2` (`T2` the identity with last column
`(dx, dy, 1)`) exactly when `m[0].z*dx + m[1].z*dy = 0`. -/
theorem translate_eq_mul_iff {T : Type} [CommRing T] :
    (∀ (m : tmat4 T) (dx dy dz : T),
      tmat4.translate m dx dy dz
          = tmat4.mul m ⟨⟨1, 0, 0, 0⟩, ⟨0, 1, 0, 0⟩, ⟨0, 0, 1, 0⟩, ⟨dx, dy, dz, 1⟩⟩
        ↔ m.m0.w * dx + m.m1.w * dy + m.m2.w * dz = 0) ∧
    (∀ (m : tmat3 T) (dx dy : T),
      tmat3.translate m dx dy = tmat3.mul m ⟨⟨1, 0, 0⟩, ⟨0, 1, 0⟩, ⟨dx, dy, 1⟩⟩
        ↔ m.m0.z * dx + m.m1.z * dy = 0) := by
  constructor
  · intro m dx dy dz
    obtain ⟨⟨a0, a1, a2, a3⟩, ⟨b0, b1, b2, b3⟩, ⟨c0, c1, c2, c3⟩, ⟨d0, d1, d2, d3⟩⟩ := m
    simp only [tmat4.translate, tmat4.mul, tmat4.ofElems, tmat4.mk.injEq, tvec4.mk.injEq,
      mul_one, mul_zero, add_zero, zero_add, true_and, and_self]
    constructor
    · rintro ⟨-, -, -, h⟩
      linear_combination -h
    · intro h
      refine ⟨by ring, by ring, by ring, by linear_combination -h⟩
  · intro m dx dy
    obtain ⟨⟨a0, a1, a2⟩, ⟨b0, b1, b2⟩, ⟨c0, c1, c2⟩⟩ := m
    simp only [tmat3.translate, tmat3.mul, tmat3.ofElems, tmat3.mk.injEq, tvec3.mk.injEq,
      mul_one, mul_zero, add_zero, zero_add, true_and, and_self]
    constructor
    · rintro ⟨-, -, h⟩
      linear_combination -h
    · intro h
      refine ⟨by ring, by ring, by linear_combination -h⟩

/-! ## The view matrix of `lookAt` (C15) -/

/-- A non-zero real vector has positive length. -/
theorem tvec3_length_pos (v : tvec3 ℝ) (hv : v ≠ tvec3.splat 0) :
    0 < tvec3.length Real.sqrt v :=
  lt_of_le_of_ne (Real.sqrt_nonneg _)
    (Ne.symm (fun h => hv ((tvec3_length_eq_zero_iff v).mp h)))

/-- The difference of two distinct points is not the zero vector. -/
theorem tvec3_sub_ne_zero (p t : tvec3 ℝ) (h : p ≠ t) : tvec3.sub p t ≠ tvec3.splat 0 := by
  intro h0
  apply h
  obtain ⟨px, py, pz⟩ := p
  obtain ⟨tx, ty, tz⟩ := t
  simp only [tvec3.sub, tvec3.splat, tvec3.mk.injEq] at h0 ⊢
  exact ⟨by linarith [h0.1], by linarith [h0.2.1], by linarith [h0.2.2]⟩

/-- Claim C15: in real arithmetic, for `pos ≠ target` and `up` not parallel to
`pos - target` (`cross(up, pos - target) ≠ 0`), the matrix `V` built by
`lookAt(pos, target, up)` satisfies `V * (pos, 1) = (0, 0, 0, 1)` and
`V * (target, 1) = (0, 0, -|pos - target|, 1)`: the eye maps to the origin and the
target lies on the negative z axis.  Under these hypotheses neither of the two
normalisations divides by zero: `|pos - target| ≠ 0`, and the cross product of
`up` with the normalised `pos - target` (the vector `r` before its normalisation)
has non-zero length. -/
theorem lookAt_view_matrix (p t u : tvec3 ℝ) (hpt : p ≠ t)
    (hup : tvec3.cross u (tvec3.sub p t) ≠ tvec3.splat 0) :
    tmat4.mulVec (lookAtVec Real.sqrt p t u) (tvec4.ofVec3 p 1) = ⟨0, 0, 0, 1⟩ ∧
    tmat4.mulVec (lookAtVec Real.sqrt p t u) (tvec4.ofVec3 t 1)
      = ⟨0, 0, -(tvec3.length Real.sqrt (tvec3.sub p t)), 1⟩ ∧
    tvec3.length Real.sqrt (tvec3.sub p t) ≠ 0 ∧
    tvec3.length Real.sqrt (tvec3.cross u
      (tvec3.mulScalar (tvec3.sub p t) (1 / tvec3.length Real.sqrt (tvec3.sub p t)))) ≠ 0 := by
  have hs := tvec3_length_pos _ (tvec3_sub_ne_zero p t hpt)
  have hsq : tvec3.length Real.sqrt (tvec3.sub p t) * tvec3.length Real.sqrt (tvec3.sub p t)
      = tvec3.dot (tvec3.sub p t) (tvec3.sub p t) :=
    Real.mul_self_sqrt (tvec3_dot_self_nonneg _)
  refine ⟨?_, ?_, ne_of_gt hs, ?_⟩
  · simp only [lookAtVec, lookAt, tmat4.mulVec, tvec4.ofVec3, tvec4.mk.injEq]
    refine ⟨?_, ?_, ?_, ?_⟩ <;> ring
  · simp only [tvec3.length, tvec3.dot, tvec3.sub] at hs hsq ⊢
    simp only [lookAtVec, lookAt, tmat4.mulVec, tvec4.ofVec3, tvec4.mk.injEq]
    generalize Real.sqrt ((p.x - t.x) * (p.x - t.x) + (p.y - t.y) * (p.y - t.y)
      + (p.z - t.z) * (p.z - t.z)) = s at hs hsq
    refine ⟨by ring, by ring, ?_, by ring⟩
    have hs0 : s ≠ 0 := ne_of_gt hs
    field_simp
    linear_combination hsq
  · intro h0
    rw [tvec3_length_eq_zero_iff] at h0
    apply hup
    generalize tvec3.length Real.sqrt (tvec3.sub p t) = s at hs h0
    have hs0 : s ≠ 0 := ne_of_gt hs
    simp only [tvec3.cross, tvec3.mulScalar, tvec3.sub, tvec3.splat, tvec3.mk.injEq] at h0 ⊢
    obtain ⟨h1, h2, h3⟩ := h0
    field_simp at h1 h2 h3
    exact ⟨by linear_combination h1, by linear_combination h2, by linear_combination h3⟩

/-- Witness of C15: eye `(0, 0, 5)`, target `(0, 0, 0)`, up `(0, 1, 0)`. -/
theorem lookAt_view_matrix_witness :
    ((⟨0, 0, 5⟩ : tvec3 ℝ) ≠ ⟨0, 0, 0⟩ ∧
      tvec3.cross (⟨0, 1, 0⟩ : tvec3 ℝ) (tvec3.sub ⟨0, 0, 5⟩ ⟨0, 0, 0⟩) ≠ tvec3.splat 0) ∧
    tmat4.mulVec (lookAtVec Real.sqrt ⟨0, 0, 5⟩ ⟨0, 0, 0⟩ ⟨0, 1, 0⟩) (tvec4.ofVec3 ⟨0, 0, 5⟩ 1)
      = ⟨0, 0, 0, 1⟩ :=
  ⟨⟨by simp, by norm_num [tvec3.cross, tvec3.sub, tvec3.splat]⟩,
   (lookAt_view_matrix ⟨0, 0, 5⟩ ⟨0, 0, 0⟩ ⟨0, 1, 0⟩ (by simp)
     (by norm_num [tvec3.cross, tvec3.sub, tvec3.splat])).1⟩

/-! ## Camera position of an orthonormal view matrix (C16) -/

/-- Two rank-3 matrices with the same Mathlib matrix are equal. -/
theorem tmat3_toMatrix_injective {T : Type} (a b : tmat3 T) (h : a.toMatrix = b.toMatrix) :
    a = b := by
  obtain ⟨⟨a0, a1, a2⟩, ⟨b0, b1, b2⟩, ⟨c0, c1, c2⟩⟩ := a
  obtain ⟨⟨a0', a1', a2'⟩, ⟨b0', b1', b2'⟩, ⟨c0', c1', c2'⟩⟩ := b
  have e := fun i j => congrFun (congrFun h i) j
  have e00 := e 0 0; have e01 := e 0 1; have e02 := e 0 2
  have e10 := e 1 0; have e11 := e 1 1; have e12 := e 1 2
  have e20 := e 2 0; have e21 := e 2 1; have e22 := e 2 2
  simp [tmat3.toMatrix] at e00 e01 e02 e10 e11 e12 e20 e21 e22
  simp [*]

/-- Claim C17: over any field (in particular in real arithmetic, whatever `tan` and
`M_PI` are), with `near ≠ far`, `near ≠ 0`, `far ≠ 0`: for
`P = perspectiveProjection(fovY, aspect, near, far)` and every view-space point
`(x, y, z, 1)` the clip-space `w` of `P * (x, y, z, 1)` is `-z`; points with
`z = -near` have clip `z/w = -1` and points with `z = -far` have clip `z/w = 1`. -/
theorem perspectiveProjection_clip {T : Type} [Field T] (tan : T → T) (pi : T)
    (fovy aspect near_z far_z : T) (hnf : near_z ≠ far_z) (hn : near_z ≠ 0) (hf : far_z ≠ 0) :
    (∀ x y z : T,
      (tmat4.mulVec (perspectiveProjection tan pi fovy aspect near_z far_z) ⟨x, y, z, 1⟩).w
        = -z) ∧
    (∀ x y : T,
      (tmat4.mulVec (perspectiveProjection tan pi fovy aspect near_z far_z)
          ⟨x, y, -near_z, 1⟩).z /
        (tmat4.mulVec (perspectiveProjection tan pi fovy aspect near_z far_z)
          ⟨x, y, -near_z, 1⟩).w = -1) ∧
    (∀ x y : T,
      (tmat4.mulVec (perspectiveProjection tan pi fovy aspect near_z far_z)
          ⟨x, y, -far_z, 1⟩).z /
        (tmat4.mulVec (perspectiveProjection tan pi fovy aspect near_z far_z)
          ⟨x, y, -far_z, 1⟩).w = 1) := by
  have hd : near_z - far_z ≠ 0 := sub_ne_zero.mpr hnf
  refine ⟨fun x y z => ?_, fun x y => ?_, fun x y => ?_⟩
  · simp only [perspectiveProjection, tmat4.mulVec, tmat4.ofElems]
    ring
  · simp only [perspectiveProjection, tmat4.mulVec, tmat4.ofElems]
    field_simp
    ring
  · simp only [perspectiveProjection, tmat4.mulVec, tmat4.ofElems]
    field_simp
    ring

/-- Witness of C17 in real arithmetic: `fovY = 90`, `aspect = 4/3`, `near = 1`,
`far = 100`. -/
theorem perspectiveProjection_clip_witness :
    ((1 : ℝ) ≠ 100 ∧ (1 : ℝ) ≠ 0 ∧ (100 : ℝ) ≠ 0) ∧
    (tmat4.mulVec (perspectiveProjection Real.tan Real.pi 90 (4 / 3) 1 100) ⟨2, 3, -5, 1⟩).w
      = -(-5) :=
  ⟨⟨by norm_num, by norm_num, by norm_num⟩,
   (perspectiveProjection_clip Real.tan Real.pi 90 (4 / 3) 1 100 (by norm_num) (by norm_num)
     (by norm_num)).1 2 3 (-5)⟩

/-- Claim C18: over any field, with `right ≠ left`, `top ≠ bottom`, `far ≠ near`:
`O = orthographicProjection(left, right, bottom, top, near, far)` maps the box
corners to the unit cube, `O * (left, bottom, -near, 1) = (-1, -1, -1, 1)` and
`O * (right, top, -far, 1) = (1, 1, 1, 1)`. -/
theorem orthographicProjection_corners {T : Type} [Field T]
    (left right bottom top near far : T)
    (hw : right ≠ left) (hh : top ≠ bottom) (hd : far ≠ near) :
    tmat4.mulVec (orthographicProjection left right bottom top near far)
        ⟨left, bottom, -near, 1⟩ = ⟨-1, -1, -1, 1⟩ ∧
    tmat4.mulVec (orthographicProjection left right bottom top near far)
        ⟨right, top, -far, 1⟩ = ⟨1, 1, 1, 1⟩ := by
  have h1 : right - left ≠ 0 := sub_ne_zero.mpr hw
  have h2 : top - bottom ≠ 0 := sub_ne_zero.mpr hh
  have h3 : far - near ≠ 0 := sub_ne_zero.mpr hd
  constructor
  · simp only [orthographicProjection, tmat4.mulVec, tmat4.ofElems, tvec4.mk.injEq]
    refine ⟨?_, ?_, ?_, ?_⟩
    · field_simp; ring
    · field_simp; ring
    · field_simp; ring
    · ring
  · simp only [orthographicProjection, tmat4.mulVec, tmat4.ofElems, tvec4.mk.injEq]
    refine ⟨?_, ?_, ?_, ?_⟩
    · field_simp; ring
    · field_simp; ring
    · field_simp; ring
    · ring

/-- Witness of C18: the box `[-4, 4] x [-3, 3]`, `near = 1`, `far = 100`, over `ℚ`. -/
theorem orthographicProjection_corners_witness :
    ((4 : ℚ) ≠ -4 ∧ (3 : ℚ) ≠ -3 ∧ (100 : ℚ) ≠ 1) ∧
    tmat4.mulVec (orthographicProjection (-4 : ℚ) 4 (-3) 3 1 100) ⟨-4, -3, -1, 1⟩
      = ⟨-1, -1, -1, 1⟩ :=
  ⟨⟨by norm_num, by norm_num, by norm_num⟩,
   (orthographicProjection_corners (-4 : ℚ) 4 (-3) 3 1 100 (by norm_num) (by norm_num)
     (by norm_num)).1⟩

/-! ## Ray unprojection (C19, C20) -/

/-- The real square root of four. -/
theorem sqrt_four : Real.sqrt 4 = 2 := by
  rw [show (4 : ℝ) = 2 ^ 2 by norm_num]
  exact Real.sqrt_sq (by norm_num)

/-- Claim C19 at a concrete input (real arithmetic).  View matrix: the identity
translated by `(-1, -1, 0)` (camera at `(1, 1, 0)`, affine, rotation block the
identity); projection: `orthographicProjection(-1, 1, -1, 1, -1, 1)`; viewport
`(0, 0, 2, 2)`, screen point `(1, 1)` (the centre).  The code returns
`ret_pos = (1, 1, 0)` and `ret_dir = (1/2, 1/2, -1/2)`; the unprojected point is
`W = (1, 1, -1, 1)`, so `W.xyz / W.w - ret_pos = (0, 0, -1)`, and `ret_dir` is no
positive multiple of it. -/
theorem calculate_ray_direction_off_origin :
    calculate_ray Real.sqrt (1 : ℝ) 1
        (tmat4.translate (tmat4.ofScalar 1) (-1) (-1) 0)
        (orthographicProjection (-1) 1 (-1) 1 (-1) 1) 0 0 2 2
      = (⟨1, 1, 0⟩, ⟨1 / 2, 1 / 2, -1 / 2⟩) ∧
    tmat4.mulVec (tmat4.inverse (tmat4.translate (tmat4.ofScalar (1 : ℝ)) (-1) (-1) 0))
        (tmat4.mulVec (tmat4.inverse (orthographicProjection (-1) 1 (-1) 1 (-1) 1))
          ⟨0, 0, 1, 1⟩)
      = ⟨1, 1, -1, 1⟩ ∧
    ¬ ∃ k : ℝ, 0 < k ∧
      (⟨1 / 2, 1 / 2, -1 / 2⟩ : tvec3 ℝ)
        = tvec3.mulScalar (tvec3.sub (tvec3.mulScalar ⟨1, 1, -1⟩ (1 / 1)) ⟨1, 1, 0⟩) k := by
  have hW : tmat4.mulVec (tmat4.inverse (tmat4.translate (tmat4.ofScalar (1 : ℝ)) (-1) (-1) 0))
        (tmat4.mulVec (tmat4.inverse (orthographicProjection (-1) 1 (-1) 1 (-1) 1))
          ⟨0, 0, 1, 1⟩)
      = ⟨1, 1, -1, 1⟩ := by
    norm_num [tmat4.mulVec, tmat4.inverse, tmat4.translate, tmat4.ofScalar, tmat4.ofElems,
      orthographicProjection]
  refine ⟨?_, hW, ?_⟩
  · have hclip : (⟨((1 : ℝ) - ((0 : ℤ) : ℝ)) * 2 / ((2 : ℤ) : ℝ) - 1,
        ((((0 : ℤ) + 2 : ℤ) : ℝ) - 1) * 2 / ((2 : ℤ) : ℝ) - 1, 1, 1⟩ : tvec4 ℝ)
        = ⟨0, 0, 1, 1⟩ := by norm_num
    have hlen : tvec4.length Real.sqrt (⟨1, 1, -1, 1⟩ : tvec4 ℝ) = 2 := by
      rw [tvec4.length, ← sqrt_four]
      norm_num [tvec4.dot]
    simp only [calculate_ray, hclip, hW, tvec4.normalize, hlen]
    norm_num [getCameraPosition, tmat3.mulVec, tmat3.inverse, tmat3.ofMat4, tmat3.ofElems,
      tmat4.translate, tmat4.ofScalar, tvec3.neg, tvec3.ofVec4, tvec4.mulScalar]
  · rintro ⟨k, hk, h⟩
    simp only [tvec3.mulScalar, tvec3.sub, tvec3.mk.injEq] at h
    norm_num at h

/-- Claim C20 at a concrete input (real arithmetic).  View matrix: the identity;
projection: `orthographicProjection(-1, 1, -1, 1, -1, 1)`; viewport `(0, 0, 2, 2)`,
screen point `(2, 0)` (the top right corner).  The unprojected vector is
`W = (1, 1, -1, 1)`, of 4-length `2`; the code returns
`ret_dir = (1/2, 1/2, -1/2)`, whose squared length is `3/4`, not `1`. -/
theorem calculate_ray_direction_not_unit :
    (calculate_ray Real.sqrt (2 : ℝ) 0 (tmat4.ofScalar 1)
        (orthographicProjection (-1) 1 (-1) 1 (-1) 1) 0 0 2 2).2
      = ⟨1 / 2, 1 / 2, -1 / 2⟩ ∧
    tmat4.mulVec (tmat4.inverse (tmat4.ofScalar (1 : ℝ)))
        (tmat4.mulVec (tmat4.inverse (orthographicProjection (-1) 1 (-1) 1 (-1) 1))
          ⟨1, 1, 1, 1⟩)
      = ⟨1, 1, -1, 1⟩ ∧
    tvec3.dot (⟨1 / 2, 1 / 2, -1 / 2⟩ : tvec3 ℝ) ⟨1 / 2, 1 / 2, -1 / 2⟩ = 3 / 4 ∧
    tvec3.length Real.sqrt (calculate_ray Real.sqrt (2 : ℝ) 0 (tmat4.ofScalar 1)
        (orthographicProjection (-1) 1 (-1) 1 (-1) 1) 0 0 2 2).2 ≠ 1 := by
  have hW : tmat4.mulVec (tmat4.inverse (tmat4.ofScalar (1 : ℝ)))
        (tmat4.mulVec (tmat4.inverse (orthographicProjection (-1) 1 (-1) 1 (-1) 1))
          ⟨1, 1, 1, 1⟩)
      = ⟨1, 1, -1, 1⟩ := by
    norm_num [tmat4.mulVec, tmat4.inverse, tmat4.ofScalar, tmat4.ofElems,
      orthographicProjection]
  have hclip : (⟨((2 : ℝ) - ((0 : ℤ) : ℝ)) * 2 / ((2 : ℤ) : ℝ) - 1,
      ((((0 : ℤ) + 2 : ℤ) : ℝ) - 0) * 2 / ((2 : ℤ) : ℝ) - 1, 1, 1⟩ : tvec4 ℝ)
      = ⟨1, 1, 1, 1⟩ := by norm_num
  have hlen : tvec4.length Real.sqrt (⟨1, 1, -1, 1⟩ : tvec4 ℝ) = 2 := by
    rw [tvec4.length, ← sqrt_four]
    norm_num [tvec4.dot]
  have hdir : (calculate_ray Real.sqrt (2 : ℝ) 0 (tmat4.ofScalar 1)
        (orthographicProjection (-1) 1 (-1) 1 (-1) 1) 0 0 2 2).2
      = ⟨1 / 2, 1 / 2, -1 / 2⟩ := by
    simp only [calculate_ray, hclip, hW, tvec4.normalize, hlen]
    norm_num [tvec3.ofVec4, tvec4.mulScalar]
  have hdot : tvec3.dot (⟨1 / 2, 1 / 2, -1 / 2⟩ : tvec3 ℝ) ⟨1 / 2, 1 / 2, -1 / 2⟩ = 3 / 4 := by
    norm_num [tvec3.dot]
  refine ⟨hdir, hW, hdot, ?_⟩
  rw [hdir, tvec3.length, hdot]
  intro h
  have h2 := Real.sqrt_eq_one.mp h
  norm_num at h2

/-! ## Gram-Schmidt re-orthogonalization (C21) -/

/-- The reciprocal square root of a positive real squares to the reciprocal. -/
theorem inv_sqrt_mul_self (N : ℝ) (hN : 0 < N) : (1 / Real.sqrt N) * (1 / Real.sqrt N) * N = 1 := by
  have hs : 0 < Real.sqrt N := Real.sqrt_pos.mpr hN
  have h2 : Real.sqrt N * Real.sqrt N = N := Real.mul_self_sqrt hN.le
  field_simp

/-- The cross product of two orthogonal unit vectors is a unit vector orthogonal to
both. -/
theorem tvec3_cross_unit {T : Type} [CommRing T] (a b : tvec3 T) (haa : tvec3.dot a a = 1)
    (hbb : tvec3.dot b b = 1) (hab : tvec3.dot a b = 0) :
    tvec3.dot (tvec3.cross a b) (tvec3.cross a b) = 1 ∧
    tvec3.dot a (tvec3.cross a b) = 0 ∧ tvec3.dot b (tvec3.cross a b) = 0 := by
  simp only [tvec3.dot, tvec3.cross] at *
  refine ⟨?_, by ring, by ring⟩
  linear_combination (b.x * b.x + b.y * b.y + b.z * b.z) * haa + hbb
    - (a.x * b.x + a.y * b.y + a.z * b.z) * hab

/-- A non-zero real vector has a positive squared length. -/
theorem tvec3_dot_self_pos (v : tvec3 ℝ) (hv : v ≠ tvec3.splat 0) : 0 < tvec3.dot v v :=
  lt_of_le_of_ne (tvec3_dot_self_nonneg v) (fun h => hv (by
    rw [← tvec3_length_eq_zero_iff, tvec3.length, ← h, Real.sqrt_zero]))

/-- Claim C21: in real arithmetic, for linearly independent `v0`, `v1` (their cross
product is not the zero vector) and every `v2`, the three vectors returned by
`orthonormalize(v0, v1, v2)` are each of unit length and pairwise orthogonal, the
new `v0` is the old `v0` times `1 / length(v0)` (with `length(v0) ≠ 0`), the new
`v2` is `cross(new v0, new v1)`, and the result does not depend on the input `v2`. -/
theorem orthonormalize_spec (v0 v1 v2 : tvec3 ℝ)
    (h : tvec3.cross v0 v1 ≠ tvec3.splat 0) :
    (tvec3.dot (orthonormalize Real.sqrt v0 v1 v2).1 (orthonormalize Real.sqrt v0 v1 v2).1 = 1 ∧
      tvec3.dot (orthonormalize Real.sqrt v0 v1 v2).2.1
        (orthonormalize Real.sqrt v0 v1 v2).2.1 = 1 ∧
      tvec3.dot (orthonormalize Real.sqrt v0 v1 v2).2.2
        (orthonormalize Real.sqrt v0 v1 v2).2.2 = 1) ∧
    (tvec3.dot (orthonormalize Real.sqrt v0 v1 v2).1 (orthonormalize Real.sqrt v0 v1 v2).2.1 = 0 ∧
      tvec3.dot (orthonormalize Real.sqrt v0 v1 v2).1
        (orthonormalize Real.sqrt v0 v1 v2).2.2 = 0 ∧
      tvec3.dot (orthonormalize Real.sqrt v0 v1 v2).2.1
        (orthonormalize Real.sqrt v0 v1 v2).2.2 = 0) ∧
    (tvec3.length Real.sqrt v0 ≠ 0 ∧
      (orthonormalize Real.sqrt v0 v1 v2).1
        = tvec3.mulScalar v0 (1 / tvec3.length Real.sqrt v0)) ∧
    (orthonormalize Real.sqrt v0 v1 v2).2.2
      = tvec3.cross (orthonormalize Real.sqrt v0 v1 v2).1 (orthonormalize Real.sqrt v0 v1 v2).2.1 ∧
    (∀ v2' : tvec3 ℝ, orthonormalize Real.sqrt v0 v1 v2' = orthonormalize Real.sqrt v0 v1 v2) := by
  have hv0 : v0 ≠ tvec3.splat 0 := by
    intro h0
    apply h
    rw [h0]
    simp [tvec3.cross, tvec3.splat]
  have hN := tvec3_dot_self_pos v0 hv0
  have hq := inv_sqrt_mul_self _ hN
  have hc := tvec3_dot_self_pos _ h
  have hlen : tvec3.length Real.sqrt v0 ≠ 0 := ne_of_gt (tvec3_length_pos v0 hv0)
  refine ⟨?_, ?_, ⟨hlen, rfl⟩, ?_, fun _ => rfl⟩
  case refine_3 =>
    simp only [orthonormalize, tvec3.cross, tvec3.mk.injEq]
    refine ⟨?_, ?_, ?_⟩ <;> ring
  all_goals
    obtain ⟨x0, y0, z0⟩ := v0
    obtain ⟨x1, y1, z1⟩ := v1
    simp only [tvec3.dot, tvec3.cross] at hN hq hc
    simp only [orthonormalize, tvec3.dot]
    generalize 1 / Real.sqrt (x0 * x0 + y0 * y0 + z0 * z0) = q at hq ⊢
    have hDN : ((x1 - (x1 * (x0 * q) + y1 * (y0 * q) + z1 * (z0 * q)) * (x0 * q)) * (x1 - (x1 * (x0 * q) + y1 * (y0 * q) + z1 * (z0 * q)) * (x0 * q)) +
        (y1 - (x1 * (x0 * q) + y1 * (y0 * q) + z1 * (z0 * q)) * (y0 * q)) * (y1 - (x1 * (x0 * q) + y1 * (y0 * q) + z1 * (z0 * q)) * (y0 * q)) +
        (z1 - (x1 * (x0 * q) + y1 * (y0 * q) + z1 * (z0 * q)) * (z0 * q)) * (z1 - (x1 * (x0 * q) + y1 * (y0 * q) + z1 * (z0 * q)) * (z0 * q))) * (x0 * x0 + y0 * y0 + z0 * z0) =
        (y0 * z1 - y1 * z0) * (y0 * z1 - y1 * z0) + (z0 * x1 - z1 * x0) * (z0 * x1 - z1 * x0) +
          (x0 * y1 - x1 * y0) * (x0 * y1 - x1 * y0) := by
      linear_combination ((x0 * x1 + y0 * y1 + z0 * z1) ^ 2 *
        (q * q * (x0 * x0 + y0 * y0 + z0 * z0) - 1)) * hq
    have hD : 0 < (x1 - (x1 * (x0 * q) + y1 * (y0 * q) + z1 * (z0 * q)) * (x0 * q)) * (x1 - (x1 * (x0 * q) + y1 * (y0 * q) + z1 * (z0 * q)) * (x0 * q)) +
        (y1 - (x1 * (x0 * q) + y1 * (y0 * q) + z1 * (z0 * q)) * (y0 * q)) * (y1 - (x1 * (x0 * q) + y1 * (y0 * q) + z1 * (z0 * q)) * (y0 * q)) +
        (z1 - (x1 * (x0 * q) + y1 * (y0 * q) + z1 * (z0 * q)) * (z0 * q)) * (z1 - (x1 * (x0 * q) + y1 * (y0 * q) + z1 * (z0 * q)) * (z0 * q)) := by
      by_contra hneg
      have := mul_nonpos_of_nonpos_of_nonneg (not_lt.mp hneg) hN.le
      linarith
    have hp := inv_sqrt_mul_self _ hD
    generalize 1 / Real.sqrt ((x1 - (x1 * (x0 * q) + y1 * (y0 * q) + z1 * (z0 * q)) * (x0 * q)) * (x1 - (x1 * (x0 * q) + y1 * (y0 * q) + z1 * (z0 * q)) * (x0 * q)) +
        (y1 - (x1 * (x0 * q) + y1 * (y0 * q) + z1 * (z0 * q)) * (y0 * q)) * (y1 - (x1 * (x0 * q) + y1 * (y0 * q) + z1 * (z0 * q)) * (y0 * q)) +
        (z1 - (x1 * (x0 * q) + y1 * (y0 * q) + z1 * (z0 * q)) * (z0 * q)) * (z1 - (x1 * (x0 * q) + y1 * (y0 * q) + z1 * (z0 * q)) * (z0 * q))) = p at hp ⊢
    have h00 : x0 * q * (x0 * q) + y0 * q * (y0 * q) + z0 * q * (z0 * q) = 1 := by
      linear_combination hq
    have h11 : (x1 - (x1 * (x0 * q) + y1 * (y0 * q) + z1 * (z0 * q)) * (x0 * q)) * p * ((x1 - (x1 * (x0 * q) + y1 * (y0 * q) + z1 * (z0 * q)) * (x0 * q)) * p) + (y1 - (x1 * (x0 * q) + y1 * (y0 * q) + z1 * (z0 * q)) * (y0 * q)) * p * ((y1 - (x1 * (x0 * q) + y1 * (y0 * q) + z1 * (z0 * q)) * (y0 * q)) * p) +
        (z1 - (x1 * (x0 * q) + y1 * (y0 * q) + z1 * (z0 * q)) * (z0 * q)) * p * ((z1 - (x1 * (x0 * q) + y1 * (y0 * q) + z1 * (z0 * q)) * (z0 * q)) * p) = 1 := by
      linear_combination hp
    have h01 : x0 * q * ((x1 - (x1 * (x0 * q) + y1 * (y0 * q) + z1 * (z0 * q)) * (x0 * q)) * p) + y0 * q * ((y1 - (x1 * (x0 * q) + y1 * (y0 * q) + z1 * (z0 * q)) * (y0 * q)) * p) +
        z0 * q * ((z1 - (x1 * (x0 * q) + y1 * (y0 * q) + z1 * (z0 * q)) * (z0 * q)) * p) = 0 := by
      linear_combination (-(q * p * (x0 * x1 + y0 * y1 + z0 * z1))) * hq
    have hx := tvec3_cross_unit (⟨x0 * q, y0 * q, z0 * q⟩ : tvec3 ℝ)
      ⟨(x1 - (x1 * (x0 * q) + y1 * (y0 * q) + z1 * (z0 * q)) * (x0 * q)) * p, (y1 - (x1 * (x0 * q) + y1 * (y0 * q) + z1 * (z0 * q)) * (y0 * q)) * p, (z1 - (x1 * (x0 * q) + y1 * (y0 * q) + z1 * (z0 * q)) * (z0 * q)) * p⟩ h00 h11 h01
    simp only [tvec3.dot, tvec3.cross] at hx
    first
    | exact ⟨h00, h11, by linear_combination hx.1⟩
    | exact ⟨h01, by linear_combination hx.2.1, by linear_combination hx.2.2⟩

/-- Claim C21 at a concrete input: `v0 = (2, 0, 0)`, `v1 = (1, 3, 0)`, `v2 = (7, 7, 7)`;
the returned third axis is the cross product of the returned first two. -/
theorem orthonormalize_spec_witness :
    tvec3.cross (⟨2, 0, 0⟩ : tvec3 ℝ) ⟨1, 3, 0⟩ ≠ tvec3.splat 0 ∧
    (orthonormalize Real.sqrt (⟨2, 0, 0⟩ : tvec3 ℝ) ⟨1, 3, 0⟩ ⟨7, 7, 7⟩).2.2
      = tvec3.cross (orthonormalize Real.sqrt (⟨2, 0, 0⟩ : tvec3 ℝ) ⟨1, 3, 0⟩ ⟨7, 7, 7⟩).1
          (orthonormalize Real.sqrt (⟨2, 0, 0⟩ : tvec3 ℝ) ⟨1, 3, 0⟩ ⟨7, 7, 7⟩).2.1 :=
  ⟨by norm_num [tvec3.cross, tvec3.splat],
   (orthonormalize_spec _ _ _ (by norm_num [tvec3.cross, tvec3.splat])).2.2.2.1⟩

/-! ## Rank-3 slerp: the degenerate exits (C23) -/

/-- The combined axis of rank-3 `slerp` is the sum of the cross products of
corresponding columns. -/
theorem slerpAxis_eq_cross_sum {T : Type} [CommRing T] (a b : tmat3 T) :
    tmat3.slerpAxis a b
      = tvec3.add (tvec3.add (tvec3.cross a.m0 b.m0) (tvec3.cross a.m1 b.m1))
          (tvec3.cross a.m2 b.m2) := by
  simp only [tmat3.slerpAxis, tvec3.add, tvec3.cross, tvec3.mk.injEq]
  refine ⟨?_, ?_, ?_⟩ <;> ring

/-- The combined axis of a matrix with itself vanishes. -/
theorem slerpAxis_self {T : Type} [CommRing T] (a : tmat3 T) :
    tmat3.slerpAxis a a = tvec3.splat 0 := by
  simp only [tmat3.slerpAxis, tvec3.splat, tvec3.mk.injEq]
  refine ⟨?_, ?_, ?_⟩ <;> ring

/-- Rank-3 `slerp` returns `a` when the combined axis is the zero vector. -/
theorem slerp_of_axis_zero {T : Type} [LinearOrderedField T] (sqrt sin cos acos : T → T)
    (a b : tmat3 T) (t : T) (h : tmat3.slerpAxis a b = tvec3.splat 0) :
    tmat3.slerp sqrt sin cos acos a b t = a := by
  simp [tmat3.slerp, h, tvec3.splat]

/-- Claim C23: for all 3x3 matrices `a`, `b` and every fraction `t` (whatever `sqrt`,
`sin`, `cos`, `acos` are): if the combined axis, the sum over `i` of
`cross(a[i], b[i])`, is the zero vector then `slerp(ret, a, b, t)` leaves `ret = a`;
if the squared magnitude of the combined axis equals the selected scalar term `s`
(`ox*ox` when `fabs(ox) < fabs(oy)`, else `oy*oy`) then `ret = a`; and
`slerp(ret, a, a, t)` yields `ret = a`. -/
theorem slerp_short_circuit {T : Type} [LinearOrderedField T] (sqrt sin cos acos : T → T)
    (a b : tmat3 T) (t : T) :
    (tvec3.add (tvec3.add (tvec3.cross a.m0 b.m0) (tvec3.cross a.m1 b.m1))
        (tvec3.cross a.m2 b.m2) = tvec3.splat 0 →
      tmat3.slerp sqrt sin cos acos a b t = a) ∧
    (tvec3.dot (tmat3.slerpAxis a b) (tmat3.slerpAxis a b)
        = (if abs (tvec3.dot a.m0 (tmat3.slerpAxis a b))
              < abs (tvec3.dot a.m1 (tmat3.slerpAxis a b))
            then tvec3.dot a.m0 (tmat3.slerpAxis a b) * tvec3.dot a.m0 (tmat3.slerpAxis a b)
            else tvec3.dot a.m1 (tmat3.slerpAxis a b) * tvec3.dot a.m1 (tmat3.slerpAxis a b)) →
      tmat3.slerp sqrt sin cos acos a b t = a) ∧
    tmat3.slerp sqrt sin cos acos a a t = a := by
  refine ⟨fun h => ?_, fun h => ?_, ?_⟩
  · exact slerp_of_axis_zero sqrt sin cos acos a b t ((slerpAxis_eq_cross_sum a b).trans h)
  · have hs : (tmat3.slerpSelect a b (tmat3.slerpAxis a b)).2
        = tvec3.dot (tmat3.slerpAxis a b) (tmat3.slerpAxis a b) := by
      rw [h]
      simp only [tmat3.slerpSelect, tvec3.dot]
      split_ifs <;> rfl
    have hs' : (tmat3.slerpAxis a b).x * (tmat3.slerpAxis a b).x
        + (tmat3.slerpAxis a b).y * (tmat3.slerpAxis a b).y
        + (tmat3.slerpAxis a b).z * (tmat3.slerpAxis a b).z
        = (tmat3.slerpSelect a b (tmat3.slerpAxis a b)).2 := hs.symm
    simp only [tmat3.slerp]
    by_cases h1 : (tmat3.slerpAxis a b).x * (tmat3.slerpAxis a b).x
        + (tmat3.slerpAxis a b).y * (tmat3.slerpAxis a b).y
        + (tmat3.slerpAxis a b).z * (tmat3.slerpAxis a b).z = 0
    · rw [if_pos h1]
    · rw [if_neg h1, if_pos hs']
  · exact slerp_of_axis_zero sqrt sin cos acos a a t (slerpAxis_self a)

/-- Claim C23 at concrete inputs.  First exit: `a` the identity and `b` the half turn
about the x axis, `diag(1, -1, -1)`; the combined axis is zero.  Second exit:
`a = ((0,1,0), (0,2,0), (0,0,1))`, `b = ((0,0,0), (0,0,0), (1,0,0))`; the combined
axis is `(0, 1, 0)`, `ox = 1`, `oy = 2`, so `s = ox*ox = 1 = t`. -/
theorem slerp_short_circuit_witness :
    (tvec3.add (tvec3.add (tvec3.cross (⟨⟨1, 0, 0⟩, ⟨0, 1, 0⟩, ⟨0, 0, 1⟩⟩ : tmat3 ℝ).m0 (⟨⟨1, 0, 0⟩, ⟨0, -1, 0⟩, ⟨0, 0, -1⟩⟩ : tmat3 ℝ).m0) (tvec3.cross (⟨⟨1, 0, 0⟩, ⟨0, 1, 0⟩, ⟨0, 0, 1⟩⟩ : tmat3 ℝ).m1 (⟨⟨1, 0, 0⟩, ⟨0, -1, 0⟩, ⟨0, 0, -1⟩⟩ : tmat3 ℝ).m1))
        (tvec3.cross (⟨⟨1, 0, 0⟩, ⟨0, 1, 0⟩, ⟨0, 0, 1⟩⟩ : tmat3 ℝ).m2 (⟨⟨1, 0, 0⟩, ⟨0, -1, 0⟩, ⟨0, 0, -1⟩⟩ : tmat3 ℝ).m2) = tvec3.splat 0 ∧
      tmat3.slerp Real.sqrt Real.sin Real.cos Real.arccos (⟨⟨1, 0, 0⟩, ⟨0, 1, 0⟩, ⟨0, 0, 1⟩⟩ : tmat3 ℝ) (⟨⟨1, 0, 0⟩, ⟨0, -1, 0⟩, ⟨0, 0, -1⟩⟩ : tmat3 ℝ) (1 / 2) = (⟨⟨1, 0, 0⟩, ⟨0, 1, 0⟩, ⟨0, 0, 1⟩⟩ : tmat3 ℝ)) ∧
    (tmat3.slerpAxis (⟨⟨0, 1, 0⟩, ⟨0, 2, 0⟩, ⟨0, 0, 1⟩⟩ : tmat3 ℝ) (⟨⟨0, 0, 0⟩, ⟨0, 0, 0⟩, ⟨1, 0, 0⟩⟩ : tmat3 ℝ) = ⟨0, 1, 0⟩ ∧
      tmat3.slerp Real.sqrt Real.sin Real.cos Real.arccos (⟨⟨0, 1, 0⟩, ⟨0, 2, 0⟩, ⟨0, 0, 1⟩⟩ : tmat3 ℝ) (⟨⟨0, 0, 0⟩, ⟨0, 0, 0⟩, ⟨1, 0, 0⟩⟩ : tmat3 ℝ) (1 / 2) = (⟨⟨0, 1, 0⟩, ⟨0, 2, 0⟩, ⟨0, 0, 1⟩⟩ : tmat3 ℝ)) :=
  ⟨⟨by norm_num [tvec3.add, tvec3.cross, tvec3.splat],
    (slerp_short_circuit Real.sqrt Real.sin Real.cos Real.arccos (⟨⟨1, 0, 0⟩, ⟨0, 1, 0⟩, ⟨0, 0, 1⟩⟩ : tmat3 ℝ) (⟨⟨1, 0, 0⟩, ⟨0, -1, 0⟩, ⟨0, 0, -1⟩⟩ : tmat3 ℝ) (1 / 2)).1
      (by norm_num [tvec3.add, tvec3.cross, tvec3.splat])⟩,
   ⟨by norm_num [tmat3.slerpAxis],
    (slerp_short_circuit Real.sqrt Real.sin Real.cos Real.arccos (⟨⟨0, 1, 0⟩, ⟨0, 2, 0⟩, ⟨0, 0, 1⟩⟩ : tmat3 ℝ) (⟨⟨0, 0, 0⟩, ⟨0, 0, 0⟩, ⟨1, 0, 0⟩⟩ : tmat3 ℝ) (1 / 2)).2.1
      (by norm_num [tmat3.slerpAxis, tvec3.dot])⟩⟩

/-! ## Element-list constructors (C25) -/

/-- Claim C25, counterexample: the element lists of the unit test.  Read in row-major
order, list position `0*N + 1` (the value `2`) would be the entry in row 0, column 1;
the constructors put `4` (rank 2), `6` (rank 3) and `6` (rank 4) there, the argument
at list position `1*N + 0`, and the value `2` lands in row 1, column 0. -/
theorem ofElems_row_major_counterexample :
    ((tmat2.ofElems (1 : ℚ) 2 4 3).toMatrix 0 1 = 4 ∧
      (tmat2.ofElems (1 : ℚ) 2 4 3).toMatrix 0 1 ≠ 2 ∧
      (tmat2.ofElems (1 : ℚ) 2 4 3).toMatrix 1 0 = 2) ∧
    ((tmat3.ofElems (1 : ℚ) 2 3 6 5 4 7 9 8).toMatrix 0 1 = 6 ∧
      (tmat3.ofElems (1 : ℚ) 2 3 6 5 4 7 9 8).toMatrix 0 1 ≠ 2 ∧
      (tmat3.ofElems (1 : ℚ) 2 3 6 5 4 7 9 8).toMatrix 1 0 = 2) ∧
    ((tmat4.ofElems (1 : ℚ) 2 3 4 6 5 4 3 7 9 8 6 9 6 3 2).toMatrix 0 1 = 6 ∧
      (tmat4.ofElems (1 : ℚ) 2 3 4 6 5 4 3 7 9 8 6 9 6 3 2).toMatrix 0 1 ≠ 2 ∧
      (tmat4.ofElems (1 : ℚ) 2 3 4 6 5 4 3 7 9 8 6 9 6 3 2).toMatrix 1 0 = 2) := by
  refine ⟨⟨?_, ?_, ?_⟩, ⟨?_, ?_, ?_⟩, ⟨?_, ?_, ?_⟩⟩ <;>
    norm_num [tmat2.ofElems, tmat2.toMatrix, tmat3.ofElems, tmat3.toMatrix,
      tmat4.ofElems, tmat4.toMatrix]

/-- Claim C25, amended: the element-list constructors read their argument list in
column-major order.  For rank `N` in {2, 3, 4} the argument at 0-based list position
`i*N + j` becomes component `j` of stored column `i`, the matrix entry in row `j`,
column `i`. -/
theorem ofElems_column_major {T : Type} (x : ℕ → T) :
    (∀ i j : Fin 2,
      (tmat2.ofElems (x 0) (x 1) (x 2) (x 3)).toMatrix j i = x (i.val * 2 + j.val)) ∧
    (∀ i j : Fin 3,
      (tmat3.ofElems (x 0) (x 1) (x 2) (x 3) (x 4) (x 5) (x 6) (x 7) (x 8)).toMatrix j i
        = x (i.val * 3 + j.val)) ∧
    (∀ i j : Fin 4,
      (tmat4.ofElems (x 0) (x 1) (x 2) (x 3) (x 4) (x 5) (x 6) (x 7) (x 8) (x 9) (x 10) (x 11)
        (x 12) (x 13) (x 14) (x 15)).toMatrix j i = x (i.val * 4 + j.val)) := by
  refine ⟨fun i j => ?_, fun i j => ?_, fun i j => ?_⟩ <;>
    fin_cases i <;> fin_cases j <;> rfl

/-! ## Swizzle accessors (C26, C27) -/

/-- Claim C26, the code at the failing input: a 4-vector has no getter `xxyy` and no
getter `yyyx`, although it has `xxxy`.  `VEC4_GET44(x, y, z, w)` generates 196
different four-component getters, not 256; a tuple has no getter exactly when it is a
two-pair pattern (`AABB`, `ABAB`, `ABBA`) or a three-plus-one pattern whose tripled
axis comes after the single one in the order `x, y, z, w` (`VEC4_GET333` invokes
`VEC4_GET33` for one order of each pair of axes only).  The three-component sibling
`VEC3_GET222` generates both orders: `xxy` and `yyx` exist. -/
theorem getters4_incomplete :
    ((0, 0, 1, 1) : Fin 4 × Fin 4 × Fin 4 × Fin 4) ∉ tvec4.getters4 ∧
    ((1, 1, 1, 0) : Fin 4 × Fin 4 × Fin 4 × Fin 4) ∉ tvec4.getters4 ∧
    ((0, 0, 0, 1) : Fin 4 × Fin 4 × Fin 4 × Fin 4) ∈ tvec4.getters4 ∧
    tvec4.getters4.length = 196 ∧
    tvec4.getters4.Nodup ∧
    (∀ a b c d : Fin 4, (a, b, c, d) ∉ tvec4.getters4 ↔
      ((a = b ∧ c = d ∧ a ≠ c) ∨ (a = c ∧ b = d ∧ a ≠ b) ∨ (a = d ∧ b = c ∧ a ≠ b) ∨
        (a = b ∧ b = c ∧ d < a) ∨ (a = b ∧ b = d ∧ c < a) ∨ (a = c ∧ c = d ∧ b < a) ∨
        (b = c ∧ c = d ∧ a < b))) ∧
    ((0, 0, 1) : Fin 4 × Fin 4 × Fin 4) ∈ tvec4.getters3 ∧
    ((1, 1, 0) : Fin 4 × Fin 4 × Fin 4) ∈ tvec4.getters3 := by
  refine ⟨by decide!, by decide!, by decide!, by decide!, by decide!, by decide!, by decide!,
    by decide!⟩

/-- The getters of two and three components are complete.  For every vector length `n`
in {2, 3, 4} and every output length `k` in {2, 3} with `k ≤ n`, every ordered
`k`-tuple of the vector's axes (duplicates permitted) has a getter, generated once (4
for `tvec2`; 9 and 27 for `tvec3`; 16 and 64 for `tvec4`); and every generated getter,
of two, three or four components, returns the vector whose `i`-th component is the
selected `i`-th axis. -/
theorem swizzle_getters_complete {T : Type} :
    ((∀ t, t ∈ tvec2.getters2) ∧ tvec2.getters2.Nodup) ∧
    ((∀ t, t ∈ tvec3.getters2) ∧ tvec3.getters2.Nodup) ∧
    ((∀ t, t ∈ tvec3.getters3) ∧ tvec3.getters3.Nodup) ∧
    ((∀ t, t ∈ tvec4.getters2) ∧ tvec4.getters2.Nodup) ∧
    ((∀ t, t ∈ tvec4.getters3) ∧ tvec4.getters3.Nodup) ∧
    (∀ (axis : Fin 4 → T) (A B : Fin 4),
      Swizzle.VEC2_GET_body axis (A, B) = ⟨axis A, axis B⟩) ∧
    (∀ (axis : Fin 4 → T) (A B C : Fin 4),
      Swizzle.VEC3_GET_body axis (A, B, C) = ⟨axis A, axis B, axis C⟩) ∧
    (∀ (axis : Fin 4 → T) (A B C D : Fin 4),
      Swizzle.VEC4_GET_body axis (A, B, C, D) = ⟨axis A, axis B, axis C, axis D⟩) := by
  refine ⟨⟨by decide!, by decide!⟩, ⟨by decide!, by decide!⟩, ⟨by decide!, by decide!⟩,
    ⟨by decide!, by decide!⟩, ⟨by decide!, by decide!⟩, ?_, ?_, ?_⟩
  · intro axis A B; rfl
  · intro axis A B C; rfl
  · intro axis A B C D; rfl

/-- Claim C28: for every 3x3 `m`, `tmat4(m)` has `m` as its upper-left 3x3 block, zeros
elsewhere in row 3 and column 3 and `1` at `(3,3)`; likewise `tmat3(m2)` and
`tmat4(m2)` of a 2x2 `m2` have `m2` as the upper-left block, ones on every new
diagonal entry and zeros in every other new entry; and narrowing undoes widening:
`tmat3(tmat4(m)) = m`, `tmat2(tmat3(m2)) = m2`, `tmat2(tmat4(m2)) = m2`. -/
theorem rank_conversion {T : Type} [Zero T] [One T] :
    (∀ (m : tmat3 T),
      (∀ i j : Fin 3, (tmat4.ofMat3 m).toMatrix i.castSucc j.castSucc = m.toMatrix i j) ∧
      (∀ j : Fin 3, (tmat4.ofMat3 m).toMatrix 3 j.castSucc = 0) ∧
      (∀ i : Fin 3, (tmat4.ofMat3 m).toMatrix i.castSucc 3 = 0) ∧
      (tmat4.ofMat3 m).toMatrix 3 3 = 1 ∧
      tmat3.ofMat4 (tmat4.ofMat3 m) = m) ∧
    (∀ (m : tmat2 T),
      (∀ i j : Fin 2, (tmat3.ofMat2 m).toMatrix i.castSucc j.castSucc = m.toMatrix i j) ∧
      (∀ j : Fin 2, (tmat3.ofMat2 m).toMatrix 2 j.castSucc = 0) ∧
      (∀ i : Fin 2, (tmat3.ofMat2 m).toMatrix i.castSucc 2 = 0) ∧
      (tmat3.ofMat2 m).toMatrix 2 2 = 1 ∧
      tmat2.ofMat3 (tmat3.ofMat2 m) = m) ∧
    (∀ (m : tmat2 T),
      (∀ i j : Fin 2,
        (tmat4.ofMat2 m).toMatrix i.castSucc.castSucc j.castSucc.castSucc = m.toMatrix i j) ∧
      (∀ j : Fin 2, (tmat4.ofMat2 m).toMatrix 2 j.castSucc.castSucc = 0 ∧
        (tmat4.ofMat2 m).toMatrix 3 j.castSucc.castSucc = 0) ∧
      (∀ i : Fin 2, (tmat4.ofMat2 m).toMatrix i.castSucc.castSucc 2 = 0 ∧
        (tmat4.ofMat2 m).toMatrix i.castSucc.castSucc 3 = 0) ∧
      (tmat4.ofMat2 m).toMatrix 2 2 = 1 ∧ (tmat4.ofMat2 m).toMatrix 3 3 = 1 ∧
      (tmat4.ofMat2 m).toMatrix 2 3 = 0 ∧ (tmat4.ofMat2 m).toMatrix 3 2 = 0 ∧
      tmat2.ofMat4 (tmat4.ofMat2 m) = m) := by
  refine ⟨fun m => ⟨?_, ?_, ?_, rfl, rfl⟩, fun m => ⟨?_, ?_, ?_, rfl, rfl⟩,
    fun m => ⟨?_, ?_, ?_, rfl, rfl, rfl, rfl, rfl⟩⟩
  · intro i j; fin_cases i <;> fin_cases j <;> rfl
  · intro j; fin_cases j <;> rfl
  · intro i; fin_cases i <;> rfl
  · intro i j; fin_cases i <;> fin_cases j <;> rfl
  · intro j; fin_cases j <;> rfl
  · intro i; fin_cases i <;> rfl
  · intro i j; fin_cases i <;> fin_cases j <;> rfl
  · intro j; fin_cases j <;> exact ⟨rfl, rfl⟩
  · intro i; fin_cases i <;> exact ⟨rfl, rfl⟩

/-! ## Continuity of the noise across zero (C29) -/

/-- With `y = z = 0` the gradient function returns `x`, `-x` or `0`. -/
theorem fgrad_abs_le {T : Type} [LinearOrderedField T] (h : Nat) (x : T) :
    |fgrad h x 0 0| ≤ |x| := by
  unfold fgrad
  split <;> simp [abs_neg]

/-- The interpolation of `noise1d` just right of a lattice point: the fractional part
is `d`. -/
theorem noise1d_bound_pos {T : Type} [LinearOrderedField T] (d f0 f1 : T) (h0 : 0 < d)
    (h1 : d < 1) (hf0 : |f0| ≤ |d|) (hf1 : |f1| ≤ |d - 1|) :
    |(f1 - f0) * ((3 - 2 * d) * d * d) + f0| ≤ d + 3 * d ^ 2 := by
  rw [abs_of_pos h0] at hf0
  rw [abs_of_neg (by linarith : d - 1 < 0)] at hf1
  have hd2 : 0 < d * d := mul_pos h0 h0
  have ht0 : 0 ≤ (3 - 2 * d) * d * d := by
    have h3 : 0 < 3 - 2 * d := by linarith
    have := mul_pos h3 hd2
    linarith [this, mul_assoc (3 - 2 * d) d d]
  have ht1 : (3 - 2 * d) * d * d ≤ 3 * d ^ 2 := by nlinarith
  generalize (3 - 2 * d) * d * d = t at ht0 ht1
  calc |(f1 - f0) * t + f0| ≤ |(f1 - f0) * t| + |f0| := abs_add _ _
    _ = |f1 - f0| * t + |f0| := by rw [abs_mul, abs_of_nonneg ht0]
    _ ≤ (|f1| + |f0|) * t + |f0| := by
        have := abs_sub f1 f0
        nlinarith [mul_le_mul_of_nonneg_right this ht0]
    _ ≤ (-(d - 1) + d) * t + d := by
        nlinarith [mul_le_mul_of_nonneg_right (add_le_add hf1 hf0) ht0]
    _ ≤ d + 3 * d ^ 2 := by linarith

/-- The interpolation of `noise1d` just left of a lattice point: the fractional part
is `1 - d`. -/
theorem noise1d_bound_neg {T : Type} [LinearOrderedField T] (d f0 f1 : T) (h0 : 0 < d)
    (h1 : d < 1) (hf0 : |f0| ≤ |1 - d|) (hf1 : |f1| ≤ |1 - d - 1|) :
    |(f1 - f0) * ((3 - 2 * (1 - d)) * (1 - d) * (1 - d)) + f0| ≤ d + 3 * d ^ 2 := by
  rw [abs_of_pos (by linarith : 0 < 1 - d)] at hf0
  rw [abs_of_neg (by linarith : 1 - d - 1 < 0)] at hf1
  have he : 0 < 1 - d := by linarith
  have ht0 : 0 ≤ (3 - 2 * (1 - d)) * (1 - d) * (1 - d) := by
    have h3 : 0 < 3 - 2 * (1 - d) := by linarith
    have := mul_pos h3 (mul_pos he he)
    linarith [this, mul_assoc (3 - 2 * (1 - d)) (1 - d) (1 - d)]
  have ht1 : 1 - (3 - 2 * (1 - d)) * (1 - d) * (1 - d) = 3 * d ^ 2 - 2 * d ^ 3 := by ring
  have hd3 : 0 < d ^ 3 := by positivity
  have hd2 : 0 < d ^ 2 := by positivity
  have ht2 : 0 ≤ 3 * d ^ 2 - 2 * d ^ 3 := by nlinarith [mul_pos hd2 he]
  generalize (3 - 2 * (1 - d)) * (1 - d) * (1 - d) = t at ht0 ht1
  have ht3 : 0 ≤ 1 - t := by linarith
  have e : (f1 - f0) * t + f0 = f1 * t + f0 * (1 - t) := by ring
  rw [e]
  calc |f1 * t + f0 * (1 - t)| ≤ |f1 * t| + |f0 * (1 - t)| := abs_add _ _
    _ = |f1| * t + |f0| * (1 - t) := by
        rw [abs_mul, abs_mul, abs_of_nonneg ht0, abs_of_nonneg ht3]
    _ ≤ (-(1 - d - 1)) * t + (1 - d) * (1 - t) := by
        nlinarith [mul_le_mul_of_nonneg_right hf1 ht0, mul_le_mul_of_nonneg_right hf0 ht3]
    _ ≤ d + 3 * d ^ 2 := by nlinarith [mul_nonneg h0.le ht3, mul_nonneg h0.le ht3]

/-- The floor of `-d` for `0 < d < 1` is `-1`. -/
theorem floor_neg_of_mem {T : Type} [LinearOrderedField T] [FloorRing T] (d : T) (h0 : 0 < d)
    (h1 : d < 1) : ⌊-d⌋ = -1 := by
  rw [Int.floor_eq_iff]
  constructor
  · push_cast; linarith
  · push_cast; linarith

/-- Claim C29: in exact arithmetic (any ordered field with a floor), for every `d`
with `0 < d < 1`, `|noise1d(d)| ≤ d + 3 d^2` and `|noise1d(-d)| ≤ d + 3 d^2`, hence
`|noise1d(d) - noise1d(-d)| ≤ 2 d + 6 d^2`; and `noise1d(-0.0001)`, `noise1d(0.0001)`
differ by less than `0.00021`. -/
theorem noise1d_no_jump_at_zero {T : Type} [LinearOrderedField T] [FloorRing T] :
    (∀ d : T, 0 < d → d < 1 →
      |noise1d d| ≤ d + 3 * d ^ 2 ∧ |noise1d (-d)| ≤ d + 3 * d ^ 2 ∧
      |noise1d d - noise1d (-d)| ≤ 2 * d + 6 * d ^ 2) ∧
    |noise1d (-(1 / 10000) : T) - noise1d (1 / 10000 : T)| < 21 / 100000 := by
  have key : ∀ d : T, 0 < d → d < 1 →
      |noise1d d| ≤ d + 3 * d ^ 2 ∧ |noise1d (-d)| ≤ d + 3 * d ^ 2 := by
    intro d h0 h1
    constructor
    · have hfl : ⌊d⌋ = 0 := Int.floor_eq_zero_iff.mpr ⟨h0.le, h1⟩
      simp only [noise1d, hfl, Int.cast_zero, sub_zero]
      exact noise1d_bound_pos d _ _ h0 h1 (fgrad_abs_le _ _) (fgrad_abs_le _ _)
    · have hfl : ⌊-d⌋ = -1 := floor_neg_of_mem d h0 h1
      have e : -d - ((-1 : ℤ) : T) = 1 - d := by push_cast; ring
      simp only [noise1d, hfl, e]
      exact noise1d_bound_neg d _ _ h0 h1 (fgrad_abs_le _ _) (fgrad_abs_le _ _)
  have key2 : ∀ d : T, 0 < d → d < 1 → |noise1d d - noise1d (-d)| ≤ 2 * d + 6 * d ^ 2 := by
    intro d h0 h1
    obtain ⟨k1, k2⟩ := key d h0 h1
    calc |noise1d d - noise1d (-d)| ≤ |noise1d d| + |noise1d (-d)| := abs_sub _ _
      _ ≤ 2 * d + 6 * d ^ 2 := by linarith
  refine ⟨fun d h0 h1 => ⟨(key d h0 h1).1, (key d h0 h1).2, key2 d h0 h1⟩, ?_⟩
  have h := key2 (1 / 10000 : T) (by norm_num) (by norm_num)
  rw [abs_sub_comm]
  calc |noise1d (1 / 10000 : T) - noise1d (-(1 / 10000))| ≤ 2 * (1 / 10000) + 6 * (1 / 10000) ^ 2 := h
    _ < 21 / 100000 := by norm_num

/-- Claim C29 at `d = 1/2` over the rationals. -/
theorem noise1d_no_jump_at_zero_witness :
    (0 : ℚ) < 1 / 2 ∧ (1 / 2 : ℚ) < 1 ∧ |noise1d (1 / 2 : ℚ)| ≤ 1 / 2 + 3 * (1 / 2) ^ 2 :=
  ⟨by norm_num, by norm_num,
   ((noise1d_no_jump_at_zero (T := ℚ)).1 (1 / 2) (by norm_num) (by norm_num)).1⟩

/-! ## The floor-based modulus of the noise lattice (C30) -/

/-- The nearest-integer rounding leaves an integer unchanged. -/
theorem roundHalfEven_intCast (z : ℤ) : roundHalfEven (z : ℚ) = z := by
  simp [roundHalfEven]

/-- The spacing of the `float` values is positive. -/
theorem floatUlp_pos (q : ℚ) : 0 < floatUlp q := by
  unfold floatUlp
  positivity

/-- An integer multiple of the spacing around it is a `float` value. -/
theorem roundToFloat_of_multiple (q : ℚ) (z : ℤ) (h : q = z * floatUlp q) :
    roundToFloat q = q := by
  have hu := (floatUlp_pos q).ne'
  have hk : q / floatUlp q = (z : ℚ) := by
    rw [div_eq_iff hu]; exact h
  unfold roundToFloat
  rw [hk, roundHalfEven_intCast]
  exact h.symm

/-- The spacing of the `float` values around `q`, from the binary exponent of `q`. -/
theorem floatUlp_of_log (q : ℚ) (e : ℤ) (h : Int.log 2 |q| = e) (he : -126 ≤ e) :
    floatUlp q = 2 ^ (e - 23) := by
  unfold floatUlp
  rw [h, max_eq_left he]

/-- The binary exponent of an integer. -/
theorem log_abs_intCast (m : ℤ) : Int.log 2 |(m : ℚ)| = (Nat.log 2 m.natAbs : ℤ) := by
  have : |(m : ℚ)| = ((m.natAbs : ℕ) : ℚ) := by
    rw [Nat.cast_natAbs, Int.cast_abs]
  rw [this, Int.log_natCast]

/-- The binary exponent of an integer between two powers of two. -/
theorem log_abs_intCast_eq (m : ℤ) (e : ℕ) (h1 : 2 ^ e ≤ m.natAbs)
    (h2 : m.natAbs < 2 ^ (e + 1)) : Int.log 2 |(m : ℚ)| = (e : ℤ) := by
  rw [log_abs_intCast, Nat.log_eq_of_pow_le_of_lt_pow h1 h2]

/-- Every integer of magnitude at most `2 ^ 24` is a `float` value. -/
theorem roundToFloat_intCast (m : ℤ) (h : |m| ≤ 2 ^ 24) : roundToFloat (m : ℚ) = m := by
  by_cases h0 : m = 0
  · subst h0
    apply roundToFloat_of_multiple _ 0
    simp
  have ha : m.natAbs ≤ 2 ^ 24 := by
    have := Int.natCast_natAbs m
    omega
  have ha0 : m.natAbs ≠ 0 := by simpa using h0
  have he : Nat.log 2 m.natAbs < 25 :=
    Nat.log_lt_of_lt_pow ha0 (lt_of_le_of_lt ha (by norm_num))
  have hu := floatUlp_of_log (m : ℚ) _ (log_abs_intCast m) (by omega)
  by_cases h24 : Nat.log 2 m.natAbs = 24
  · have hge : 2 ^ 24 ≤ m.natAbs := by
      have := Nat.pow_log_le_self 2 ha0
      rwa [h24] at this
    have hm : m = 2 ^ 24 ∨ m = -2 ^ 24 := by omega
    rw [h24] at hu
    rcases hm with rfl | rfl
    · apply roundToFloat_of_multiple _ (2 ^ 23)
      rw [hu]; norm_num
    · apply roundToFloat_of_multiple _ (-2 ^ 23)
      rw [hu]; norm_num
  · obtain ⟨d, hd⟩ : ∃ d : ℕ, (Nat.log 2 m.natAbs : ℤ) - 23 = -(d : ℤ) :=
      ⟨23 - Nat.log 2 m.natAbs, by omega⟩
    rw [hd, zpow_neg, zpow_natCast] at hu
    apply roundToFloat_of_multiple _ (m * 2 ^ d)
    rw [hu]
    push_cast
    field_simp

/-- Where the subtraction `-x - 1` is exact in `float`, the `float` function agrees with
the function in exact arithmetic. -/
theorem floormod256_float_eq (x : ℚ) (h : x < 0 → roundToFloat (-x - 1) = -x - 1) :
    floormod256_float x = floormod256 x := by
  unfold floormod256_float floormod256
  split_ifs with hx
  · rw [h hx]
  · rfl

/-- The `float` subtraction `33554432 - 1`: the exact result `2^25 - 1` lies halfway
between the `float` values `2^25 - 2` and `2^25` and is rounded to `2^25`. -/
theorem roundToFloat_33554431 : roundToFloat 33554431 = 33554432 := by
  have hl := log_abs_intCast_eq 33554431 24 (by decide) (by decide)
  have hu := floatUlp_of_log _ _ hl (by norm_num)
  have hf : ⌊(33554431 / 2 : ℚ)⌋ = 16777215 := by
    rw [Int.floor_eq_iff]; norm_num
  unfold roundToFloat
  norm_num at hu
  rw [hu]
  norm_num [roundHalfEven, hf]

/-- The `float` subtraction `16777218 - 1`: the exact result `2^24 + 1` lies halfway
between the `float` values `2^24` and `2^24 + 2` and is rounded to `2^24`. -/
theorem roundToFloat_16777217 : roundToFloat 16777217 = 16777216 := by
  have hl := log_abs_intCast_eq 16777217 24 (by decide) (by decide)
  have hu := floatUlp_of_log _ _ hl (by norm_num)
  have hf : ⌊(16777217 / 2 : ℚ)⌋ = 8388608 := by
    rw [Int.floor_eq_iff]; norm_num
  unfold roundToFloat
  norm_num at hu
  rw [hu]
  norm_num [roundHalfEven, hf]

/-- The number `-2^25` is a `float` value. -/
theorem roundToFloat_neg_33554432 : roundToFloat (-33554432) = -33554432 := by
  have hl := log_abs_intCast_eq (-33554432) 25 (by decide) (by decide)
  have hu := floatUlp_of_log _ _ hl (by norm_num)
  norm_num at hu
  apply roundToFloat_of_multiple _ (-8388608)
  rw [hu]; norm_num

/-- The number `-(2^24 + 2)`, the largest `float` value below `-2^24`, is a `float`
value. -/
theorem roundToFloat_neg_16777218 : roundToFloat (-16777218) = -16777218 := by
  have hl := log_abs_intCast_eq (-16777218) 24 (by decide) (by decide)
  have hu := floatUlp_of_log _ _ hl (by norm_num)
  norm_num at hu
  apply roundToFloat_of_multiple _ (-8388609)
  rw [hu]; norm_num

/-- The conversion `toUint32` on a natural number. -/
theorem toUint32_natCast (a : ℕ) : toUint32 (a : ℚ) = a % 2 ^ 32 := by
  simp [toUint32]

/-- Claim C30, counterexample: `n = -33554432 = -2^25` is a `float` value with
`|n| < 2^31`, and `n mod 256 = 0`, but `floormod256(n)` is `255`: the subtraction
`-n - 1` is rounded to `2^25`, whose low eight bits are `0`.  The same happens directly
below the bound of the amended claim: `n = -16777218 = -(2^24 + 2)` is a `float`
value, `n mod 256 = 254`, and `floormod256(n)` is `255`.  And an integer that is not a
`float` value does not reach the function: `n = 16777217 = 2^24 + 1` is converted to
the `float` value `2^24`, for which `floormod256` is `0`, while `n mod 256 = 1`. -/
theorem floormod256_float_counterexample :
    (roundToFloat (-33554432) = -33554432 ∧ |(-33554432 : ℤ)| < 2 ^ 31 ∧
      floormod256_float (-33554432) = 255 ∧ ((-33554432 : ℤ) % 256).toNat = 0) ∧
    (roundToFloat (-16777218) = -16777218 ∧ |(-16777218 : ℤ)| < 2 ^ 31 ∧
      floormod256_float (-16777218) = 255 ∧ ((-16777218 : ℤ) % 256).toNat = 254) ∧
    (roundToFloat 16777217 = 16777216 ∧ |(16777217 : ℤ)| < 2 ^ 31 ∧
      floormod256_float (roundToFloat 16777217) = 0 ∧
      ((16777217 : ℤ) % 256).toNat = 1) := by
  have h16 : toUint32 (16777216 : ℚ) = 16777216 := by
    have := toUint32_natCast 16777216
    norm_num at this
    exact this
  refine ⟨⟨roundToFloat_neg_33554432, by norm_num, ?_, by simp⟩,
    ⟨roundToFloat_neg_16777218, by norm_num, ?_, by simp⟩,
    ⟨roundToFloat_16777217, by norm_num, ?_, by simp⟩⟩
  rotate_left
  rotate_left
  · unfold floormod256_float
    rw [roundToFloat_16777217, if_neg (by norm_num), h16]
    decide
  · have h : (-(-33554432 : ℚ) - 1) = 33554431 := by norm_num
    have h3 : toUint32 (33554432 : ℚ) = 33554432 := by
      have := toUint32_natCast 33554432
      norm_num at this
      exact this
    unfold floormod256_float
    rw [if_pos (by norm_num), h, roundToFloat_33554431, h3]
    decide
  · have h : (-(-16777218 : ℚ) - 1) = 16777217 := by norm_num
    have h3 : toUint32 (16777216 : ℚ) = 16777216 := by
      have := toUint32_natCast 16777216
      norm_num at this
      exact this
    unfold floormod256_float
    rw [if_pos (by norm_num), h, roundToFloat_16777217, h3]
    decide

/-- Claim C30, amended: on the integer-valued `float` inputs from `-2^24` upwards
`floormod256` is the floor-based modulus.  For every integer `n` with
`-2^24 ≤ n < 2^31` that is a `float` value, the subtraction and the cast to `uint32_t`
inside are exact (the cast of `n` when `n ≥ 0`, of `-n - 1` when `n < 0`),
`floormod256(n)` equals the non-negative `n mod 256`, lies in `0..255`, and
`floormod256(n + 256) = floormod256(n)` when `n + 256` is such an input too; every
integer of magnitude at most `2^24` is a `float` value; and `-1 ↦ 255`, `-255 ↦ 1`,
`-256 ↦ 0`. -/
theorem floormod256_float_floor_modulus :
    (∀ n : ℤ, -2 ^ 24 ≤ n → n < 2 ^ 31 → roundToFloat (n : ℚ) = n →
      ((0 ≤ n → toUint32 (n : ℚ) = n.toNat) ∧
        (n < 0 → toUint32 (roundToFloat (-(n : ℚ) - 1)) = (-n - 1).toNat)) ∧
      floormod256_float (n : ℚ) = (n % 256).toNat ∧
      floormod256_float (n : ℚ) < 256 ∧
      (n + 256 < 2 ^ 31 → roundToFloat ((n + 256 : ℤ) : ℚ) = ((n + 256 : ℤ) : ℚ) →
        floormod256_float ((n + 256 : ℤ) : ℚ) = floormod256_float (n : ℚ))) ∧
    (∀ n : ℤ, |n| ≤ 2 ^ 24 → roundToFloat (n : ℚ) = n) ∧
    floormod256_float (-1) = 255 ∧ floormod256_float (-255) = 1 ∧
    floormod256_float (-256) = 0 := by
  have hr : ∀ n : ℤ, -2 ^ 24 ≤ n → n < 0 →
      roundToFloat (-(n : ℚ) - 1) = ((-n - 1 : ℤ) : ℚ) := by
    intro n hn hneg
    have h := roundToFloat_intCast (-n - 1) (by rw [abs_le]; constructor <;> omega)
    push_cast at h ⊢
    exact h
  have key : ∀ n : ℤ, -2 ^ 24 ≤ n → floormod256_float (n : ℚ) = (n % 256).toNat := by
    intro n hn
    rw [floormod256_float_eq, floormod256_intCast]
    intro hneg
    have hneg' : n < 0 := by exact_mod_cast hneg
    rw [hr n hn hneg']
    push_cast
    ring
  refine ⟨fun n h1 h2 _ => ⟨⟨fun h0 => ?_, fun h0 => ?_⟩, key n h1, ?_, fun _ _ => ?_⟩,
    roundToFloat_intCast, ?_, ?_, ?_⟩
  · rw [toUint32_intCast]
    omega
  · rw [hr n h1 h0, toUint32_intCast]
    omega
  · rw [key n h1]
    omega
  · rw [key n h1, key (n + 256) (by omega)]
    congr 1
    omega
  · have h := key (-1) (by norm_num)
    norm_num at h
    exact h
  · have h := key (-255) (by norm_num)
    norm_num at h
    exact h
  · have h := key (-256) (by norm_num)
    norm_num at h
    exact h

/-- Claim C30, amended, at `n = -1`. -/
theorem floormod256_float_floor_modulus_witness :
    (-2 ^ 24 ≤ (-1 : ℤ) ∧ (-1 : ℤ) < 2 ^ 31 ∧
      roundToFloat ((-1 : ℤ) : ℚ) = ((-1 : ℤ) : ℚ)) ∧
    floormod256_float ((-1 : ℤ) : ℚ) = ((-1 : ℤ) % 256).toNat :=
  ⟨⟨by norm_num, by norm_num, roundToFloat_intCast (-1) (by norm_num)⟩,
   (floormod256_float_floor_modulus.1 (-1) (by norm_num) (by norm_num)
      (roundToFloat_intCast (-1) (by norm_num))).2.1⟩

/-! ## Rank-3 slerp at fraction one (C22) -/

/-- Identities of a rotation matrix `R` (orthonormal columns, determinant one) in
scalar form: with `w` the axial vector `(R21 - R12, R02 - R20, R10 - R01)` and `τ` the
trace, `|w|^2 = (τ + 1)(3 - τ)` and `w_i w_j = (τ + 1)(R_ij + R_ji + (1 - τ) δ_ij)`. -/
theorem so3_axial_identities {T : Type} [CommRing T] (r00 r10 r20 r01 r11 r21 r02 r12 r22 : T)
    (hc00 : r00 * r00 + r10 * r10 + r20 * r20 = 1)
    (hc10 : r01 * r00 + r11 * r10 + r21 * r20 = 0)
    (hc20 : r02 * r00 + r12 * r10 + r22 * r20 = 0)
    (hc11 : r01 * r01 + r11 * r11 + r21 * r21 = 1)
    (hc21 : r02 * r01 + r12 * r11 + r22 * r21 = 0)
    (hc22 : r02 * r02 + r12 * r12 + r22 * r22 = 1)
    (hd : r00 * (r11 * r22 - r21 * r12) + r01 * (r12 * r20 - r22 * r10)
      + r02 * (r10 * r21 - r20 * r11) = 1) :
    (r21 - r12) * (r21 - r12) + (r02 - r20) * (r02 - r20) + (r10 - r01) * (r10 - r01) = ((r00 + r11
        + r22) + 1) * (3 - (r00 + r11 + r22)) ∧
    (r21 - r12) * (r21 - r12) = ((r00 + r11 + r22) + 1) * (r00 + r00 + (1 - (r00 + r11 + r22)) * 1)
        ∧
    (r21 - r12) * (r02 - r20) = ((r00 + r11 + r22) + 1) * (r01 + r10 + (1 - (r00 + r11 + r22)) * 0)
        ∧
    (r21 - r12) * (r10 - r01) = ((r00 + r11 + r22) + 1) * (r02 + r20 + (1 - (r00 + r11 + r22)) * 0)
        ∧
    (r02 - r20) * (r02 - r20) = ((r00 + r11 + r22) + 1) * (r11 + r11 + (1 - (r00 + r11 + r22)) * 1)
        ∧
    (r02 - r20) * (r10 - r01) = ((r00 + r11 + r22) + 1) * (r12 + r21 + (1 - (r00 + r11 + r22)) * 0)
        ∧
    (r10 - r01) * (r10 - r01) = ((r00 + r11 + r22) + 1) * (r22 + r22 + (1 - (r00 + r11 + r22)) * 1)
        := by
  have hC00 : (r11 * r22 - r12 * r21) = r00 := by
    linear_combination r00 * hd - (r11 * r22 - r12 * r21) * hc00 - (r12 * r20 - r10 * r22) * hc10 -
        (r10 * r21 - r11 * r20) * hc20
  have hC01 : (r12 * r20 - r10 * r22) = r01 := by
    linear_combination r01 * hd - (r11 * r22 - r12 * r21) * hc10 - (r12 * r20 - r10 * r22) * hc11 -
        (r10 * r21 - r11 * r20) * hc21
  have hC02 : (r10 * r21 - r11 * r20) = r02 := by
    linear_combination r02 * hd - (r11 * r22 - r12 * r21) * hc20 - (r12 * r20 - r10 * r22) * hc21 -
        (r10 * r21 - r11 * r20) * hc22
  have hC10 : (r21 * r02 - r22 * r01) = r10 := by
    linear_combination r10 * hd - (r21 * r02 - r22 * r01) * hc00 - (r22 * r00 - r20 * r02) * hc10 -
        (r20 * r01 - r21 * r00) * hc20
  have hC11 : (r22 * r00 - r20 * r02) = r11 := by
    linear_combination r11 * hd - (r21 * r02 - r22 * r01) * hc10 - (r22 * r00 - r20 * r02) * hc11 -
        (r20 * r01 - r21 * r00) * hc21
  have hC12 : (r20 * r01 - r21 * r00) = r12 := by
    linear_combination r12 * hd - (r21 * r02 - r22 * r01) * hc20 - (r22 * r00 - r20 * r02) * hc21 -
        (r20 * r01 - r21 * r00) * hc22
  have hC20 : (r01 * r12 - r02 * r11) = r20 := by
    linear_combination r20 * hd - (r01 * r12 - r02 * r11) * hc00 - (r02 * r10 - r00 * r12) * hc10 -
        (r00 * r11 - r01 * r10) * hc20
  have hC21 : (r02 * r10 - r00 * r12) = r21 := by
    linear_combination r21 * hd - (r01 * r12 - r02 * r11) * hc10 - (r02 * r10 - r00 * r12) * hc11 -
        (r00 * r11 - r01 * r10) * hc21
  have hC22 : (r00 * r11 - r01 * r10) = r22 := by
    linear_combination r22 * hd - (r01 * r12 - r02 * r11) * hc20 - (r02 * r10 - r00 * r12) * hc21 -
        (r00 * r11 - r01 * r10) * hc22
  have hS00 : r00 * r00 + r01 * r10 + r02 * r20 = (r00 + r11 + r22) * r00 - (r00 + r11 + r22) * 1 +
      r00 := by
    linear_combination hC00 - 1 * (hC00 + hC11 + hC22)
  have hS01 : r00 * r01 + r01 * r11 + r02 * r21 = (r00 + r11 + r22) * r01 - (r00 + r11 + r22) * 0 +
      r10 := by
    linear_combination hC10 - 0 * (hC00 + hC11 + hC22)
  have hS02 : r00 * r02 + r01 * r12 + r02 * r22 = (r00 + r11 + r22) * r02 - (r00 + r11 + r22) * 0 +
      r20 := by
    linear_combination hC20 - 0 * (hC00 + hC11 + hC22)
  have hS10 : r10 * r00 + r11 * r10 + r12 * r20 = (r00 + r11 + r22) * r10 - (r00 + r11 + r22) * 0 +
      r01 := by
    linear_combination hC01 - 0 * (hC00 + hC11 + hC22)
  have hS11 : r10 * r01 + r11 * r11 + r12 * r21 = (r00 + r11 + r22) * r11 - (r00 + r11 + r22) * 1 +
      r11 := by
    linear_combination hC11 - 1 * (hC00 + hC11 + hC22)
  have hS12 : r10 * r02 + r11 * r12 + r12 * r22 = (r00 + r11 + r22) * r12 - (r00 + r11 + r22) * 0 +
      r21 := by
    linear_combination hC21 - 0 * (hC00 + hC11 + hC22)
  have hS20 : r20 * r00 + r21 * r10 + r22 * r20 = (r00 + r11 + r22) * r20 - (r00 + r11 + r22) * 0 +
      r02 := by
    linear_combination hC02 - 0 * (hC00 + hC11 + hC22)
  have hS21 : r20 * r01 + r21 * r11 + r22 * r21 = (r00 + r11 + r22) * r21 - (r00 + r11 + r22) * 0 +
      r12 := by
    linear_combination hC12 - 0 * (hC00 + hC11 + hC22)
  have hS22 : r20 * r02 + r21 * r12 + r22 * r22 = (r00 + r11 + r22) * r22 - (r00 + r11 + r22) * 1 +
      r22 := by
    linear_combination hC22 - 1 * (hC00 + hC11 + hC22)
  have hr00 : r00 * r00 + r01 * r01 + r02 * r02 = 1 := by
    linear_combination 1 * hd - r00 * hC00 - r01 * hC01 - r02 * hC02
  have hr01 : r00 * r10 + r01 * r11 + r02 * r12 = 0 := by
    linear_combination 0 * hd - r00 * hC10 - r01 * hC11 - r02 * hC12
  have hr02 : r00 * r20 + r01 * r21 + r02 * r22 = 0 := by
    linear_combination 0 * hd - r00 * hC20 - r01 * hC21 - r02 * hC22
  have hr11 : r10 * r10 + r11 * r11 + r12 * r12 = 1 := by
    linear_combination 1 * hd - r10 * hC10 - r11 * hC11 - r12 * hC12
  have hr12 : r10 * r20 + r11 * r21 + r12 * r22 = 0 := by
    linear_combination 0 * hd - r10 * hC20 - r11 * hC21 - r12 * hC22
  have hr22 : r20 * r20 + r21 * r21 + r22 * r22 = 1 := by
    linear_combination 1 * hd - r20 * hC20 - r21 * hC21 - r22 * hC22
  have ht : (r21 - r12) * (r21 - r12) + (r02 - r20) * (r02 - r20) + (r10 - r01) * (r10 - r01) =
      ((r00 + r11 + r22) + 1) * (3 - (r00 + r11 + r22)) := by
    linear_combination (hc00 + hc11 + hc22) - (hS00 + hS11 + hS22)
  refine ⟨ht, ?_, ?_, ?_, ?_, ?_, ?_⟩
  · linear_combination hS00 + hS00 - hr00 - hc00 + 1 * ht
  · linear_combination hS01 + hS10 - hr01 - hc10 + 0 * ht
  · linear_combination hS02 + hS20 - hr02 - hc20 + 0 * ht
  · linear_combination hS11 + hS11 - hr11 - hc11 + 1 * ht
  · linear_combination hS12 + hS21 - hr12 - hc21 + 0 * ht
  · linear_combination hS22 + hS22 - hr22 - hc22 + 1 * ht

/-- Applying the coefficients of rank-3 `slerp` to the columns of `a` is a matrix
product with the coefficients applied to the identity. -/
theorem slerpRotate_eq_mul {T : Type} [CommRing T] (u : tvec3 T) (s c : T) (a : tmat3 T) :
    tmat3.slerpRotate u s c a = tmat3.mul (tmat3.slerpRotate u s c (tmat3.ofScalar 1)) a := by
  simp only [tmat3.slerpRotate, tmat3.mul, tmat3.ofElems, tmat3.ofScalar, tmat3.mk.injEq,
    tvec3.mk.injEq]
  refine ⟨⟨?_, ?_, ?_⟩, ⟨?_, ?_, ?_⟩, ?_, ?_, ?_⟩ <;> ring

/-- The coefficients of rank-3 `slerp` reproduce a rotation matrix `R` from its axial
vector `w`: with the axis `w * q`, `q * q * |w|^2 = 1`, the cosine `(τ - 1) / 2` and
a sine `σ` with `σ * q = 1 / 2`, the nine coefficients are the entries of `R`. -/
theorem slerpRotate_axial (r00 r10 r20 r01 r11 r21 r02 r12 r22 : ℝ)
    (hc00 : r00 * r00 + r10 * r10 + r20 * r20 = 1)
    (hc10 : r01 * r00 + r11 * r10 + r21 * r20 = 0)
    (hc20 : r02 * r00 + r12 * r10 + r22 * r20 = 0)
    (hc11 : r01 * r01 + r11 * r11 + r21 * r21 = 1)
    (hc21 : r02 * r01 + r12 * r11 + r22 * r21 = 0)
    (hc22 : r02 * r02 + r12 * r12 + r22 * r22 = 1)
    (hd : r00 * (r11 * r22 - r21 * r12) + r01 * (r12 * r20 - r22 * r10)
      + r02 * (r10 * r21 - r20 * r11) = 1)
    (q σ : ℝ) (hq : q * q * ((r21 - r12) * (r21 - r12) + (r02 - r20) * (r02 - r20) + (r10 - r01) *
        (r10 - r01)) = 1) (hσ : σ * q = 1 / 2) :
    tmat3.slerpRotate ⟨(r21 - r12) * q, (r02 - r20) * q, (r10 - r01) * q⟩ σ (((r00 + r11 + r22) -
        1) / 2)
        (tmat3.ofScalar 1)
      = ⟨⟨r00, r10, r20⟩, ⟨r01, r11, r21⟩, ⟨r02, r12, r22⟩⟩ := by
  obtain ⟨ht, hb00, hb01, hb02, hb11, hb12, hb22⟩ :=
    so3_axial_identities r00 r10 r20 r01 r11 r21 r02 r12 r22 hc00 hc10 hc20 hc11 hc21 hc22 hd
  have hqt : q * q * (((r00 + r11 + r22) + 1) * (3 - (r00 + r11 + r22))) = 1 := by rw [← ht]; exact
      hq
  simp only [tmat3.slerpRotate, tmat3.ofScalar, tmat3.mk.injEq, tvec3.mk.injEq]
  refine ⟨⟨?_, ?_, ?_⟩, ⟨?_, ?_, ?_⟩, ?_, ?_, ?_⟩
  · linear_combination ((1 - (((r00 + r11 + r22) - 1) / 2)) * q * q) * hb00 + ((2 * r00 + 1 - (r00
      + r11 + r22)) / 2) * hqt
  · linear_combination ((1 - (((r00 + r11 + r22) - 1) / 2)) * q * q) * hb01 + ((r10 + r01) / 2) *
      hqt + (r10 - r01) * hσ
  · linear_combination ((1 - (((r00 + r11 + r22) - 1) / 2)) * q * q) * hb02 + ((r20 + r02) / 2) *
      hqt - (r02 - r20) * hσ
  · linear_combination ((1 - (((r00 + r11 + r22) - 1) / 2)) * q * q) * hb01 + ((r01 + r10) / 2) *
      hqt - (r10 - r01) * hσ
  · linear_combination ((1 - (((r00 + r11 + r22) - 1) / 2)) * q * q) * hb11 + ((2 * r11 + 1 - (r00
      + r11 + r22)) / 2) * hqt
  · linear_combination ((1 - (((r00 + r11 + r22) - 1) / 2)) * q * q) * hb12 + ((r21 + r12) / 2) *
      hqt + (r21 - r12) * hσ
  · linear_combination ((1 - (((r00 + r11 + r22) - 1) / 2)) * q * q) * hb02 + ((r02 + r20) / 2) *
      hqt + (r02 - r20) * hσ
  · linear_combination ((1 - (((r00 + r11 + r22) - 1) / 2)) * q * q) * hb12 + ((r12 + r21) / 2) *
      hqt - (r21 - r12) * hσ
  · linear_combination ((1 - (((r00 + r11 + r22) - 1) / 2)) * q * q) * hb22 + ((2 * r22 + 1 - (r00
      + r11 + r22)) / 2) * hqt

/-- Rank-3 `slerp` at fraction one, with the second basis written as `R * a`: for
`a` orthonormal, `R` a rotation matrix and a non-zero combined axis, the result is
`R * a`. -/
theorem slerp_one_core (a R : tmat3 ℝ)
    (hac : tmat3.mul (tmat3.transpose a) a = tmat3.ofScalar 1)
    (har : tmat3.mul a (tmat3.transpose a) = tmat3.ofScalar 1)
    (hRc : tmat3.mul (tmat3.transpose R) R = tmat3.ofScalar 1)
    (hRd : R.toMatrix.det = 1)
    (hax : tmat3.slerpAxis a (tmat3.mul R a) ≠ tvec3.splat 0) :
    tmat3.slerp Real.sqrt Real.sin Real.cos Real.arccos a (tmat3.mul R a) 1
      = tmat3.mul R a := by
  rw [tmat3_det_toMatrix] at hRd
  simp only [tmat3.mul, tmat3.transpose, tmat3.ofElems, tmat3.ofScalar, tmat3.mk.injEq,
    tvec3.mk.injEq] at hac har hRc
  obtain ⟨⟨hac00, hac10, hac20⟩, ⟨hac01, hac11, hac21⟩, hac02, hac12, hac22⟩ := hac
  obtain ⟨⟨har00, har10, har20⟩, ⟨har01, har11, har21⟩, har02, har12, har22⟩ := har
  obtain ⟨⟨hc00, hc10, hc20⟩, ⟨hc01, hc11, hc21⟩, hc02, hc12, hc22⟩ := hRc
  have hso := so3_axial_identities (R.m0.x) (R.m0.y) (R.m0.z) (R.m1.x) (R.m1.y) (R.m1.z) (R.m2.x)
      (R.m2.y) (R.m2.z)
    (by linear_combination hc00) (by linear_combination hc10) (by linear_combination hc20)
    (by linear_combination hc11) (by linear_combination hc21) (by linear_combination hc22)
    (by linear_combination hRd)
  obtain ⟨ht, hb00, hb01, hb02, hb11, hb12, hb22⟩ := hso
  have hw : tmat3.slerpAxis a (tmat3.mul R a) = (⟨R.m1.z - R.m2.y, R.m2.x - R.m0.z, R.m0.y -
      R.m1.x⟩ : tvec3 ℝ) := by
    simp only [tmat3.slerpAxis, tmat3.mul, tmat3.ofElems, tvec3.mk.injEq]
    refine ⟨?_, ?_, ?_⟩
    · linear_combination R.m0.z * har10 + R.m1.z * har11 + R.m2.z * har12 - R.m0.y * har20 - R.m1.y
        * har21 - R.m2.y * har22
    · linear_combination R.m0.x * har20 + R.m1.x * har21 + R.m2.x * har22 - R.m0.z * har00 - R.m1.z
        * har01 - R.m2.z * har02
    · linear_combination R.m0.y * har00 + R.m1.y * har01 + R.m2.y * har02 - R.m0.x * har10 - R.m1.x
        * har11 - R.m2.x * har12
  rw [hw] at hax
  have htpos : 0 < (R.m1.z - R.m2.y) * (R.m1.z - R.m2.y) + (R.m2.x - R.m0.z) * (R.m2.x - R.m0.z) +
      (R.m0.y - R.m1.x) * (R.m0.y - R.m1.x) := tvec3_dot_self_pos _ hax
  have ht0 : (R.m1.z - R.m2.y) * (R.m1.z - R.m2.y) + (R.m2.x - R.m0.z) * (R.m2.x - R.m0.z) +
      (R.m0.y - R.m1.x) * (R.m0.y - R.m1.x) ≠ 0 := ne_of_gt htpos
  have hpars : (R.m1.z - R.m2.y) * (R.m1.z - R.m2.y) + (R.m2.x - R.m0.z) * (R.m2.x - R.m0.z) +
      (R.m0.y - R.m1.x) * (R.m0.y - R.m1.x) = (a.m0.x * (R.m1.z - R.m2.y) + a.m0.y * (R.m2.x -
      R.m0.z) + a.m0.z * (R.m0.y - R.m1.x)) * (a.m0.x * (R.m1.z - R.m2.y) + a.m0.y * (R.m2.x -
      R.m0.z) + a.m0.z * (R.m0.y - R.m1.x)) + (a.m1.x * (R.m1.z - R.m2.y) + a.m1.y * (R.m2.x -
      R.m0.z) + a.m1.z * (R.m0.y - R.m1.x)) * (a.m1.x * (R.m1.z - R.m2.y) + a.m1.y * (R.m2.x -
      R.m0.z) + a.m1.z * (R.m0.y - R.m1.x)) + (a.m2.x * (R.m1.z - R.m2.y) + a.m2.y * (R.m2.x -
      R.m0.z) + a.m2.z * (R.m0.y - R.m1.x)) * (a.m2.x * (R.m1.z - R.m2.y) + a.m2.y * (R.m2.x -
      R.m0.z) + a.m2.z * (R.m0.y - R.m1.x)) := by
    linear_combination - (R.m1.z - R.m2.y) * (R.m1.z - R.m2.y) * har00 - (R.m1.z - R.m2.y) *
        (R.m2.x - R.m0.z) * har01 - (R.m1.z - R.m2.y) * (R.m0.y - R.m1.x) * har02 - (R.m2.x -
        R.m0.z) * (R.m1.z - R.m2.y) * har10 - (R.m2.x - R.m0.z) * (R.m2.x - R.m0.z) * har11 -
        (R.m2.x - R.m0.z) * (R.m0.y - R.m1.x) * har12 - (R.m0.y - R.m1.x) * (R.m1.z - R.m2.y) *
        har20 - (R.m0.y - R.m1.x) * (R.m2.x - R.m0.z) * har21 - (R.m0.y - R.m1.x) * (R.m0.y -
        R.m1.x) * har22
  have hsq0 : (a.m0.x * (R.m1.z - R.m2.y) + a.m0.y * (R.m2.x - R.m0.z) + a.m0.z * (R.m0.y -
      R.m1.x)) * (a.m0.x * (R.m1.z - R.m2.y) + a.m0.y * (R.m2.x - R.m0.z) + a.m0.z * (R.m0.y -
      R.m1.x)) = ((R.m0.x + R.m1.y + R.m2.z) + 1) * (2 * (a.m0.x * (R.m0.x * a.m0.x + R.m1.x *
      a.m0.y + R.m2.x * a.m0.z) + a.m0.y * (R.m0.y * a.m0.x + R.m1.y * a.m0.y + R.m2.y * a.m0.z) +
      a.m0.z * (R.m0.z * a.m0.x + R.m1.z * a.m0.y + R.m2.z * a.m0.z)) + (1 - (R.m0.x + R.m1.y +
      R.m2.z))) := by
    linear_combination a.m0.x * a.m0.x * hb00 + a.m0.x * a.m0.y * hb01 + a.m0.x * a.m0.z * hb02 +
        a.m0.y * a.m0.x * hb01 + a.m0.y * a.m0.y * hb11 + a.m0.y * a.m0.z * hb12 + a.m0.z * a.m0.x
        * hb02 + a.m0.z * a.m0.y * hb12 + a.m0.z * a.m0.z * hb22 + ((R.m0.x + R.m1.y + R.m2.z) + 1)
        * (1 - (R.m0.x + R.m1.y + R.m2.z)) * hac00
  have hrat0 : (a.m0.x * (R.m0.x * a.m0.x + R.m1.x * a.m0.y + R.m2.x * a.m0.z) + a.m0.y * (R.m0.y *
      a.m0.x + R.m1.y * a.m0.y + R.m2.y * a.m0.z) + a.m0.z * (R.m0.z * a.m0.x + R.m1.z * a.m0.y +
      R.m2.z * a.m0.z)) * ((R.m1.z - R.m2.y) * (R.m1.z - R.m2.y) + (R.m2.x - R.m0.z) * (R.m2.x -
      R.m0.z) + (R.m0.y - R.m1.x) * (R.m0.y - R.m1.x)) - (a.m0.x * (R.m1.z - R.m2.y) + a.m0.y *
      (R.m2.x - R.m0.z) + a.m0.z * (R.m0.y - R.m1.x)) * (a.m0.x * (R.m1.z - R.m2.y) + a.m0.y *
      (R.m2.x - R.m0.z) + a.m0.z * (R.m0.y - R.m1.x)) = (((R.m0.x + R.m1.y + R.m2.z) - 1) / 2) *
      ((R.m1.z - R.m2.y) * (R.m1.z - R.m2.y) + (R.m2.x - R.m0.z) * (R.m2.x - R.m0.z) + (R.m0.y -
      R.m1.x) * (R.m0.y - R.m1.x) - (a.m0.x * (R.m1.z - R.m2.y) + a.m0.y * (R.m2.x - R.m0.z) +
      a.m0.z * (R.m0.y - R.m1.x)) * (a.m0.x * (R.m1.z - R.m2.y) + a.m0.y * (R.m2.x - R.m0.z) +
      a.m0.z * (R.m0.y - R.m1.x))) := by
    linear_combination ((a.m0.x * (R.m0.x * a.m0.x + R.m1.x * a.m0.y + R.m2.x * a.m0.z) + a.m0.y *
        (R.m0.y * a.m0.x + R.m1.y * a.m0.y + R.m2.y * a.m0.z) + a.m0.z * (R.m0.z * a.m0.x + R.m1.z
        * a.m0.y + R.m2.z * a.m0.z)) - (((R.m0.x + R.m1.y + R.m2.z) - 1) / 2)) * ht - (1 -
        (((R.m0.x + R.m1.y + R.m2.z) - 1) / 2)) * hsq0
  have hsq1 : (a.m1.x * (R.m1.z - R.m2.y) + a.m1.y * (R.m2.x - R.m0.z) + a.m1.z * (R.m0.y -
      R.m1.x)) * (a.m1.x * (R.m1.z - R.m2.y) + a.m1.y * (R.m2.x - R.m0.z) + a.m1.z * (R.m0.y -
      R.m1.x)) = ((R.m0.x + R.m1.y + R.m2.z) + 1) * (2 * (a.m1.x * (R.m0.x * a.m1.x + R.m1.x *
      a.m1.y + R.m2.x * a.m1.z) + a.m1.y * (R.m0.y * a.m1.x + R.m1.y * a.m1.y + R.m2.y * a.m1.z) +
      a.m1.z * (R.m0.z * a.m1.x + R.m1.z * a.m1.y + R.m2.z * a.m1.z)) + (1 - (R.m0.x + R.m1.y +
      R.m2.z))) := by
    linear_combination a.m1.x * a.m1.x * hb00 + a.m1.x * a.m1.y * hb01 + a.m1.x * a.m1.z * hb02 +
        a.m1.y * a.m1.x * hb01 + a.m1.y * a.m1.y * hb11 + a.m1.y * a.m1.z * hb12 + a.m1.z * a.m1.x
        * hb02 + a.m1.z * a.m1.y * hb12 + a.m1.z * a.m1.z * hb22 + ((R.m0.x + R.m1.y + R.m2.z) + 1)
        * (1 - (R.m0.x + R.m1.y + R.m2.z)) * hac11
  have hrat1 : (a.m1.x * (R.m0.x * a.m1.x + R.m1.x * a.m1.y + R.m2.x * a.m1.z) + a.m1.y * (R.m0.y *
      a.m1.x + R.m1.y * a.m1.y + R.m2.y * a.m1.z) + a.m1.z * (R.m0.z * a.m1.x + R.m1.z * a.m1.y +
      R.m2.z * a.m1.z)) * ((R.m1.z - R.m2.y) * (R.m1.z - R.m2.y) + (R.m2.x - R.m0.z) * (R.m2.x -
      R.m0.z) + (R.m0.y - R.m1.x) * (R.m0.y - R.m1.x)) - (a.m1.x * (R.m1.z - R.m2.y) + a.m1.y *
      (R.m2.x - R.m0.z) + a.m1.z * (R.m0.y - R.m1.x)) * (a.m1.x * (R.m1.z - R.m2.y) + a.m1.y *
      (R.m2.x - R.m0.z) + a.m1.z * (R.m0.y - R.m1.x)) = (((R.m0.x + R.m1.y + R.m2.z) - 1) / 2) *
      ((R.m1.z - R.m2.y) * (R.m1.z - R.m2.y) + (R.m2.x - R.m0.z) * (R.m2.x - R.m0.z) + (R.m0.y -
      R.m1.x) * (R.m0.y - R.m1.x) - (a.m1.x * (R.m1.z - R.m2.y) + a.m1.y * (R.m2.x - R.m0.z) +
      a.m1.z * (R.m0.y - R.m1.x)) * (a.m1.x * (R.m1.z - R.m2.y) + a.m1.y * (R.m2.x - R.m0.z) +
      a.m1.z * (R.m0.y - R.m1.x))) := by
    linear_combination ((a.m1.x * (R.m0.x * a.m1.x + R.m1.x * a.m1.y + R.m2.x * a.m1.z) + a.m1.y *
        (R.m0.y * a.m1.x + R.m1.y * a.m1.y + R.m2.y * a.m1.z) + a.m1.z * (R.m0.z * a.m1.x + R.m1.z
        * a.m1.y + R.m2.z * a.m1.z)) - (((R.m0.x + R.m1.y + R.m2.z) - 1) / 2)) * ht - (1 -
        (((R.m0.x + R.m1.y + R.m2.z) - 1) / 2)) * hsq1
  have hsel : (tmat3.slerpSelect a (tmat3.mul R a) (⟨R.m1.z - R.m2.y, R.m2.x - R.m0.z, R.m0.y -
      R.m1.x⟩ : tvec3 ℝ)).1 * ((R.m1.z - R.m2.y) * (R.m1.z - R.m2.y) + (R.m2.x - R.m0.z) * (R.m2.x
      - R.m0.z) + (R.m0.y - R.m1.x) * (R.m0.y - R.m1.x))
        - (tmat3.slerpSelect a (tmat3.mul R a) (⟨R.m1.z - R.m2.y, R.m2.x - R.m0.z, R.m0.y - R.m1.x⟩
            : tvec3 ℝ)).2
      = (((R.m0.x + R.m1.y + R.m2.z) - 1) / 2) * ((R.m1.z - R.m2.y) * (R.m1.z - R.m2.y) + (R.m2.x -
          R.m0.z) * (R.m2.x - R.m0.z) + (R.m0.y - R.m1.x) * (R.m0.y - R.m1.x) - (tmat3.slerpSelect
          a (tmat3.mul R a) (⟨R.m1.z - R.m2.y, R.m2.x - R.m0.z, R.m0.y - R.m1.x⟩ : tvec3 ℝ)).2) ∧
      (R.m1.z - R.m2.y) * (R.m1.z - R.m2.y) + (R.m2.x - R.m0.z) * (R.m2.x - R.m0.z) + (R.m0.y -
          R.m1.x) * (R.m0.y - R.m1.x) ≠ (tmat3.slerpSelect a (tmat3.mul R a) (⟨R.m1.z - R.m2.y,
          R.m2.x - R.m0.z, R.m0.y - R.m1.x⟩ : tvec3 ℝ)).2 := by
    simp only [tmat3.slerpSelect, tmat3.mul, tmat3.ofElems]
    split_ifs with hlt
    · refine ⟨by linear_combination hrat0, fun h => ?_⟩
      have hsum : (a.m1.x * (R.m1.z - R.m2.y) + a.m1.y * (R.m2.x - R.m0.z) + a.m1.z * (R.m0.y -
          R.m1.x)) * (a.m1.x * (R.m1.z - R.m2.y) + a.m1.y * (R.m2.x - R.m0.z) + a.m1.z * (R.m0.y -
          R.m1.x)) + (a.m2.x * (R.m1.z - R.m2.y) + a.m2.y * (R.m2.x - R.m0.z) + a.m2.z * (R.m0.y -
          R.m1.x)) * (a.m2.x * (R.m1.z - R.m2.y) + a.m2.y * (R.m2.x - R.m0.z) + a.m2.z * (R.m0.y -
          R.m1.x)) = 0 := by
        linear_combination h - hpars
      have h1 : (a.m1.x * (R.m1.z - R.m2.y) + a.m1.y * (R.m2.x - R.m0.z) + a.m1.z * (R.m0.y -
          R.m1.x)) = 0 := mul_self_eq_zero.mp (le_antisymm
        (by linarith only [hsum, mul_self_nonneg (a.m2.x * (R.m1.z - R.m2.y) + a.m2.y * (R.m2.x -
            R.m0.z) + a.m2.z * (R.m0.y - R.m1.x))]) (mul_self_nonneg _))
      rw [h1, abs_zero] at hlt
      exact absurd hlt (not_lt.mpr (abs_nonneg _))
    · refine ⟨by linear_combination hrat1, fun h => ?_⟩
      have hsum : (a.m0.x * (R.m1.z - R.m2.y) + a.m0.y * (R.m2.x - R.m0.z) + a.m0.z * (R.m0.y -
          R.m1.x)) * (a.m0.x * (R.m1.z - R.m2.y) + a.m0.y * (R.m2.x - R.m0.z) + a.m0.z * (R.m0.y -
          R.m1.x)) + (a.m2.x * (R.m1.z - R.m2.y) + a.m2.y * (R.m2.x - R.m0.z) + a.m2.z * (R.m0.y -
          R.m1.x)) * (a.m2.x * (R.m1.z - R.m2.y) + a.m2.y * (R.m2.x - R.m0.z) + a.m2.z * (R.m0.y -
          R.m1.x)) = 0 := by
        linear_combination h - hpars
      have h0 : (a.m0.x * (R.m1.z - R.m2.y) + a.m0.y * (R.m2.x - R.m0.z) + a.m0.z * (R.m0.y -
          R.m1.x)) = 0 := mul_self_eq_zero.mp (le_antisymm
        (by linarith only [hsum, mul_self_nonneg (a.m2.x * (R.m1.z - R.m2.y) + a.m2.y * (R.m2.x -
            R.m0.z) + a.m2.z * (R.m0.y - R.m1.x))]) (mul_self_nonneg _))
      rw [h0, abs_zero] at hlt
      have h1 : (a.m1.x * (R.m1.z - R.m2.y) + a.m1.y * (R.m2.x - R.m0.z) + a.m1.z * (R.m0.y -
          R.m1.x)) = 0 := abs_eq_zero.mp (le_antisymm (not_lt.mp hlt) (abs_nonneg _))
      rw [h1] at h
      exact ht0 (by linear_combination h)
  simp only [tmat3.slerp, hw]
  have hC : ((tmat3.slerpSelect a (tmat3.mul R a) (⟨R.m1.z - R.m2.y, R.m2.x - R.m0.z, R.m0.y -
      R.m1.x⟩ : tvec3 ℝ)).1 * ((R.m1.z - R.m2.y) * (R.m1.z - R.m2.y) + (R.m2.x - R.m0.z) * (R.m2.x
      - R.m0.z) + (R.m0.y - R.m1.x) * (R.m0.y - R.m1.x)) - (tmat3.slerpSelect a (tmat3.mul R a)
      (⟨R.m1.z - R.m2.y, R.m2.x - R.m0.z, R.m0.y - R.m1.x⟩ : tvec3 ℝ)).2)
      / ((R.m1.z - R.m2.y) * (R.m1.z - R.m2.y) + (R.m2.x - R.m0.z) * (R.m2.x - R.m0.z) + (R.m0.y -
          R.m1.x) * (R.m0.y - R.m1.x) - (tmat3.slerpSelect a (tmat3.mul R a) (⟨R.m1.z - R.m2.y,
          R.m2.x - R.m0.z, R.m0.y - R.m1.x⟩ : tvec3 ℝ)).2) = (((R.m0.x + R.m1.y + R.m2.z) - 1) / 2)
          := by
    rw [div_eq_iff (sub_ne_zero.mpr hsel.2)]
    exact hsel.1
  have h4 : (R.m1.z - R.m2.y) * (R.m1.z - R.m2.y) + (R.m2.x - R.m0.z) * (R.m2.x - R.m0.z) + (R.m0.y
      - R.m1.x) * (R.m0.y - R.m1.x) = 4 * (1 - (((R.m0.x + R.m1.y + R.m2.z) - 1) / 2) ^ 2) := by
    rw [ht]; ring
  have hpos : 0 < 1 - (((R.m0.x + R.m1.y + R.m2.z) - 1) / 2) ^ 2 := by
    rw [h4] at htpos; linarith only [htpos]
  have habs : |(((R.m0.x + R.m1.y + R.m2.z) - 1) / 2)| < 1 := by
    rw [← sq_lt_one_iff_abs_lt_one]; linarith only [hpos]
  have h1 : -1 ≤ (((R.m0.x + R.m1.y + R.m2.z) - 1) / 2) := (abs_lt.mp habs).1.le
  have h2 : (((R.m0.x + R.m1.y + R.m2.z) - 1) / 2) ≤ 1 := (abs_lt.mp habs).2.le
  have hq := inv_sqrt_mul_self _ htpos
  have hσ : Real.sqrt (1 - (((R.m0.x + R.m1.y + R.m2.z) - 1) / 2) ^ 2) * (1 / Real.sqrt ((R.m1.z -
      R.m2.y) * (R.m1.z - R.m2.y) + (R.m2.x - R.m0.z) * (R.m2.x - R.m0.z) + (R.m0.y - R.m1.x) *
      (R.m0.y - R.m1.x))) = 1 / 2 := by
    rw [h4, Real.sqrt_mul (by norm_num : (0 : ℝ) ≤ 4), sqrt_four]
    have hs := ne_of_gt (Real.sqrt_pos.mpr hpos)
    generalize Real.sqrt (1 - (((R.m0.x + R.m1.y + R.m2.z) - 1) / 2) ^ 2) = σ at hs ⊢
    field_simp
    ring
  have hK := slerpRotate_axial (R.m0.x) (R.m0.y) (R.m0.z) (R.m1.x) (R.m1.y) (R.m1.z) (R.m2.x)
      (R.m2.y) (R.m2.z)
    (by linear_combination hc00) (by linear_combination hc10) (by linear_combination hc20)
    (by linear_combination hc11) (by linear_combination hc21) (by linear_combination hc22)
    (by linear_combination hRd) _ _ hq hσ
  rw [if_neg ht0, if_neg hsel.2, hC, if_neg (not_lt.mpr h1), if_neg (not_lt.mpr h2), mul_one,
    Real.sin_arccos, Real.cos_arccos h1 h2, slerpRotate_eq_mul, hK]

/-- Claim C22, counterexample: `a` the identity and `b = diag(1, -1, -1)`, the half
turn about the x axis.  Both are orthonormal with determinant one, the combined axis
is the zero vector, and `slerp(ret, a, b, 1)` leaves `ret = a`, which is not `b`. -/
theorem slerp_one_half_turn_counterexample :
    tmat3.mul (tmat3.transpose (⟨⟨1, 0, 0⟩, ⟨0, -1, 0⟩, ⟨0, 0, -1⟩⟩ : tmat3 ℝ))
        ⟨⟨1, 0, 0⟩, ⟨0, -1, 0⟩, ⟨0, 0, -1⟩⟩ = tmat3.ofScalar 1 ∧
    (tmat3.ofScalar (1 : ℝ)).toMatrix.det = 1 ∧
    (⟨⟨1, 0, 0⟩, ⟨0, -1, 0⟩, ⟨0, 0, -1⟩⟩ : tmat3 ℝ).toMatrix.det = 1 ∧
    tmat3.slerpAxis (tmat3.ofScalar (1 : ℝ)) ⟨⟨1, 0, 0⟩, ⟨0, -1, 0⟩, ⟨0, 0, -1⟩⟩
      = tvec3.splat 0 ∧
    tmat3.slerp Real.sqrt Real.sin Real.cos Real.arccos (tmat3.ofScalar 1)
        ⟨⟨1, 0, 0⟩, ⟨0, -1, 0⟩, ⟨0, 0, -1⟩⟩ 1 = tmat3.ofScalar 1 ∧
    tmat3.slerp Real.sqrt Real.sin Real.cos Real.arccos (tmat3.ofScalar 1)
        ⟨⟨1, 0, 0⟩, ⟨0, -1, 0⟩, ⟨0, 0, -1⟩⟩ 1
      ≠ (⟨⟨1, 0, 0⟩, ⟨0, -1, 0⟩, ⟨0, 0, -1⟩⟩ : tmat3 ℝ) := by
  have hax : tmat3.slerpAxis (tmat3.ofScalar (1 : ℝ)) ⟨⟨1, 0, 0⟩, ⟨0, -1, 0⟩, ⟨0, 0, -1⟩⟩
      = tvec3.splat 0 := by
    norm_num [tmat3.slerpAxis, tmat3.ofScalar, tvec3.splat]
  have hs := slerp_of_axis_zero Real.sqrt Real.sin Real.cos Real.arccos _ _ 1 hax
  refine ⟨?_, ?_, ?_, hax, hs, ?_⟩
  · norm_num [tmat3.mul, tmat3.transpose, tmat3.ofElems, tmat3.ofScalar]
  · rw [tmat3_det_toMatrix]; norm_num [tmat3.ofScalar]
  · rw [tmat3_det_toMatrix]; norm_num
  · rw [hs]
    intro h
    have h1 := congrArg (fun m : tmat3 ℝ => m.m1.y) h
    norm_num [tmat3.ofScalar] at h1

/-- Claim C22, amended: in real arithmetic, for orthonormal bases `a` and `b` of the
same handedness (equal determinants) whose combined axis, the sum over `i` of
`cross(a[i], b[i])`, is not the zero vector, `slerp(ret, a, b, 1)` yields `ret = b`. -/
theorem slerp_one_eq_second (a b : tmat3 ℝ)
    (ha : tmat3.mul (tmat3.transpose a) a = tmat3.ofScalar 1)
    (hb : tmat3.mul (tmat3.transpose b) b = tmat3.ofScalar 1)
    (hdet : a.toMatrix.det = b.toMatrix.det)
    (hax : tmat3.slerpAxis a b ≠ tvec3.splat 0) :
    tmat3.slerp Real.sqrt Real.sin Real.cos Real.arccos a b 1 = b := by
  have hA : a.toMatrix.transpose * a.toMatrix = 1 := by
    have h := congrArg tmat3.toMatrix ha
    rwa [tmat3_toMatrix_mul, tmat3_toMatrix_transpose, tmat3_toMatrix_one] at h
  have hB : b.toMatrix.transpose * b.toMatrix = 1 := by
    have h := congrArg tmat3.toMatrix hb
    rwa [tmat3_toMatrix_mul, tmat3_toMatrix_transpose, tmat3_toMatrix_one] at h
  have hA2 : a.toMatrix * a.toMatrix.transpose = 1 := Matrix.mul_eq_one_comm.mp hA
  have hRa : tmat3.mul (tmat3.mul b (tmat3.transpose a)) a = b := by
    apply tmat3_toMatrix_injective
    rw [tmat3_toMatrix_mul, tmat3_toMatrix_mul, tmat3_toMatrix_transpose, Matrix.mul_assoc, hA,
      Matrix.mul_one]
  have har : tmat3.mul a (tmat3.transpose a) = tmat3.ofScalar 1 := by
    apply tmat3_toMatrix_injective
    rw [tmat3_toMatrix_mul, tmat3_toMatrix_transpose, tmat3_toMatrix_one, hA2]
  have hRc : tmat3.mul (tmat3.transpose (tmat3.mul b (tmat3.transpose a)))
      (tmat3.mul b (tmat3.transpose a)) = tmat3.ofScalar 1 := by
    apply tmat3_toMatrix_injective
    rw [tmat3_toMatrix_mul, tmat3_toMatrix_transpose, tmat3_toMatrix_mul,
      tmat3_toMatrix_transpose, tmat3_toMatrix_one, Matrix.transpose_mul,
      Matrix.transpose_transpose, Matrix.mul_assoc, ← Matrix.mul_assoc b.toMatrix.transpose,
      hB, Matrix.one_mul, hA2]
  have hRd : (tmat3.mul b (tmat3.transpose a)).toMatrix.det = 1 := by
    have h := congrArg Matrix.det hA
    rw [Matrix.det_mul, Matrix.det_transpose, Matrix.det_one] at h
    rw [tmat3_toMatrix_mul, tmat3_toMatrix_transpose, Matrix.det_mul, Matrix.det_transpose,
      ← hdet, h]
  have h := slerp_one_core a (tmat3.mul b (tmat3.transpose a)) ha har hRc hRd
    (by rw [hRa]; exact hax)
  rwa [hRa] at h

/-- Claim C22 (amended) at a concrete input: `a` the identity and `b` the quarter turn
about the z axis, columns `(0, 1, 0)`, `(-1, 0, 0)`, `(0, 0, 1)`; the combined axis is
`(0, 0, 2)`. -/
theorem slerp_one_eq_second_witness :
    tmat3.slerpAxis (tmat3.ofScalar (1 : ℝ)) ⟨⟨0, 1, 0⟩, ⟨-1, 0, 0⟩, ⟨0, 0, 1⟩⟩ = ⟨0, 0, 2⟩ ∧
    tmat3.slerp Real.sqrt Real.sin Real.cos Real.arccos (tmat3.ofScalar 1)
        ⟨⟨0, 1, 0⟩, ⟨-1, 0, 0⟩, ⟨0, 0, 1⟩⟩ 1
      = (⟨⟨0, 1, 0⟩, ⟨-1, 0, 0⟩, ⟨0, 0, 1⟩⟩ : tmat3 ℝ) :=
  ⟨by norm_num [tmat3.slerpAxis, tmat3.ofScalar],
   slerp_one_eq_second _ _
     (by norm_num [tmat3.mul, tmat3.transpose, tmat3.ofElems, tmat3.ofScalar])
     (by norm_num [tmat3.mul, tmat3.transpose, tmat3.ofElems, tmat3.ofScalar])
     (by rw [tmat3_det_toMatrix, tmat3_det_toMatrix]; norm_num [tmat3.ofScalar])
     (by norm_num [tmat3.slerpAxis, tmat3.ofScalar, tvec3.splat])⟩

/-! ## Rank-4 slerp: the translation column (C24) -/

/-- Reading the camera position back after `setCameraPosition`, for a rotation block
of non-zero determinant. -/
theorem camera_position_roundtrip {T : Type} [Field T] (M : tmat4 T) (p : tvec3 T)
    (h : (tmat3.ofMat4 M).toMatrix.det ≠ 0) :
    getCameraPosition (setCameraPosition M p) = p := by
  rw [tmat3_det_toMatrix] at h
  simp only [tmat3.ofMat4] at h
  have ex := fun q : T => (congrArg (HMul.hMul q) (mul_inv_cancel₀ h)).trans (mul_one q)
  simp only [getCameraPosition, setCameraPosition, tmat3.ofMat4, tmat3.inverse, tmat3.mulVec,
    tmat3.ofElems, tvec3.neg, tvec3.ofVec4, tvec4.ofVec3]
  obtain ⟨px, py, pz⟩ := p
  simp only [tvec3.mk.injEq]
  refine ⟨?_, ?_, ?_⟩
  · refine Eq.trans ?_ (ex px); ring1
  · refine Eq.trans ?_ (ex py); ring1
  · refine Eq.trans ?_ (ex pz); ring1

/-- Claim C31, evaluated on the code.  The converting constructors of `tmat2` and
`tmat3` read their own columns and return the matrix of the converted columns.  The
converting constructor of `tmat4` reads `v.m[4]`, one past the last column of the
four-element array, for the last column, whatever `v` is: it never returns a matrix
whose columns are the converted columns of `v`.  Concrete input: the 4x4 identity
with `int` elements, converted to rationals. -/
theorem tmat4_convert_out_of_bounds :
    (∀ (TT T : Type) (conv : TT → T) (v : tmat2 TT),
      tmat2.convert conv v = some ⟨v.m0.convert conv, v.m1.convert conv⟩) ∧
    (∀ (TT T : Type) (conv : TT → T) (v : tmat3 TT),
      tmat3.convert conv v
        = some ⟨v.m0.convert conv, v.m1.convert conv, v.m2.convert conv⟩) ∧
    (∀ (TT : Type) (v : tmat4 TT), v.mAt 3 = some v.m3 ∧ v.mAt 4 = none) ∧
    (∀ (TT T : Type) (conv : TT → T) (v : tmat4 TT), tmat4.convert conv v = none) ∧
    tmat4.convert (fun z : Int => (z : ℚ)) (tmat4.ofScalar 1) = none ∧
    tmat4.convert (fun z : Int => (z : ℚ)) (tmat4.ofScalar 1)
      ≠ some ⟨tvec4.convert (fun z : Int => (z : ℚ)) (tmat4.ofScalar 1).m0,
          tvec4.convert (fun z : Int => (z : ℚ)) (tmat4.ofScalar 1).m1,
          tvec4.convert (fun z : Int => (z : ℚ)) (tmat4.ofScalar 1).m2,
          tvec4.convert (fun z : Int => (z : ℚ)) (tmat4.ofScalar 1).m3⟩ := by
  have h4 : ∀ (TT T : Type) (conv : TT → T) (v : tmat4 TT), tmat4.convert conv v = none :=
    fun _ _ _ _ => rfl
  refine ⟨fun _ _ _ _ => rfl, fun _ _ _ _ => rfl, fun _ _ => ⟨rfl, rfl⟩, h4, h4 _ _ _ _, ?_⟩
  rw [h4]
  exact fun h => Option.noConfusion h

/-! ## Noise: table reads in bounds (C32) -/

/-- The result of `floormod256` is in `0..255`, for every argument. -/
theorem floormod256_lt {T : Type} [LinearOrderedField T] [FloorRing T] (x : T) :
    floormod256 x < 256 := by
  unfold floormod256
  split_ifs
  · omega
  · rw [land_255]; exact Nat.mod_lt _ (by norm_num)

/-- Every read of the noise table returns a value below 256. -/
theorem noisep_lt (i : Nat) : noisep.getD i 0 < 256 := by
  by_cases hi : i < 768
  · exact gen_table_lt i hi
  · have hl : noisep.length ≤ i := by
      have h768 : noisep.length = 768 := gen_table_facts.1
      omega
    rw [List.getD_eq_default _ _ hl]
    norm_num

/-- The bounds on `l` and `l + 1` for `l = floormod256(x)`. -/
theorem floormod256_bounds {T : Type} [LinearOrderedField T] [FloorRing T] (x : T) :
    floormod256 x ≤ 511 ∧ floormod256 x + 1 ≤ 511 := by
  have := floormod256_lt x
  omega

/-- A table entry used as an index. -/
theorem noisep_le (j : Nat) : noisep.getD j 0 ≤ 511 := by
  have := noisep_lt j
  omega

/-- A table entry plus a `floormod256` result, and that plus one, used as indices. -/
theorem noisep_add_bounds {T : Type} [LinearOrderedField T] [FloorRing T] (j : Nat) (x : T) :
    noisep.getD j 0 + floormod256 x ≤ 511 ∧ noisep.getD j 0 + floormod256 x + 1 ≤ 511 := by
  have := noisep_lt j
  have := floormod256_lt x
  omega

/-- Claim C32: every index used to read the 768-entry table in `noise1d`, `noise2d`
and `noise3d` is at most 511, for all input coordinates.  The traced functions return
the value of the plain ones, they read the table 6, 10 and 14 times, and every
recorded index is at most 511 (table entries are below 256 and `floormod256` results
are in `0..255`: see `noisep_lt`, `floormod256_lt`). -/
theorem noise_reads_in_bounds {T : Type} [LinearOrderedField T] [FloorRing T] :
    (∀ fx : T, (noise1d_traced fx).1 = noise1d fx ∧ (noise1d_traced fx).2.length = 6 ∧
      ∀ i ∈ (noise1d_traced fx).2, i ≤ 511) ∧
    (∀ fx fy : T, (noise2d_traced fx fy).1 = noise2d fx fy ∧
      (noise2d_traced fx fy).2.length = 10 ∧ ∀ i ∈ (noise2d_traced fx fy).2, i ≤ 511) ∧
    (∀ fx fy fz : T, (noise3d_traced fx fy fz).1 = noise3d fx fy fz ∧
      (noise3d_traced fx fy fz).2.length = 14 ∧
      ∀ i ∈ (noise3d_traced fx fy fz).2, i ≤ 511) := by
  refine ⟨fun fx => ⟨?_, ?_, ?_⟩, fun fx fy => ⟨?_, ?_, ?_⟩,
    fun fx fy fz => ⟨?_, ?_, ?_⟩⟩
  · simp only [noise1d_traced, noisepTraced, noise1d]
  · simp only [noise1d_traced, noisepTraced, List.nil_append, List.cons_append,
      List.length_cons, List.length_nil]
  rotate_left
  · simp only [noise2d_traced, noisepTraced, noise2d]
  · simp only [noise2d_traced, noisepTraced, List.nil_append, List.cons_append,
      List.length_cons, List.length_nil]
  rotate_left
  · simp only [noise3d_traced, noisepTraced, noise3d]
  · simp only [noise3d_traced, noisepTraced, List.nil_append, List.cons_append,
      List.length_cons, List.length_nil]
  rotate_left
  · intro i hi
    simp only [noise1d_traced, noisepTraced, List.nil_append, List.cons_append, List.mem_cons,
      List.mem_singleton, List.not_mem_nil, or_false] at hi
    rcases hi with h | h | h | h | h | h <;> rw [h] <;>
      with_reducible first
      | exact (floormod256_bounds _).1
      | exact (floormod256_bounds _).2
      | exact noisep_le _
  · intro i hi
    simp only [noise2d_traced, noisepTraced, List.nil_append, List.cons_append, List.mem_cons,
      List.mem_singleton, List.not_mem_nil, or_false] at hi
    rcases hi with h | h | h | h | h | h | h | h | h | h <;> rw [h] <;>
      with_reducible first
      | exact (floormod256_bounds _).1
      | exact (floormod256_bounds _).2
      | exact noisep_le _
      | exact (noisep_add_bounds _ _).1
      | exact (noisep_add_bounds _ _).2
  · intro i hi
    simp only [noise3d_traced, noisepTraced, List.nil_append, List.cons_append, List.mem_cons,
      List.mem_singleton, List.not_mem_nil, or_false] at hi
    rcases hi with h | h | h | h | h | h | h | h | h | h | h | h | h | h <;> rw [h] <;>
      with_reducible first
      | exact (floormod256_bounds _).1
      | exact (floormod256_bounds _).2
      | exact noisep_le _
      | exact (noisep_add_bounds _ _).1
      | exact (noisep_add_bounds _ _).2

/-- Claim C32 at a concrete input: the fourth read of `noise1d(1/2)` is at index
`l0 + 1` with `l0 = floormod256(floor(1/2))`. -/
theorem noise_reads_in_bounds_witness :
    floormod256 ((⌊(1 / 2 : ℚ)⌋ : ℤ) : ℚ) + 1 ∈ (noise1d_traced (1 / 2 : ℚ)).2 ∧
    floormod256 ((⌊(1 / 2 : ℚ)⌋ : ℤ) : ℚ) + 1 ≤ 511 :=
  ⟨by simp only [noise1d_traced, noisepTraced, List.nil_append, List.cons_append,
      List.mem_cons, true_or, or_true],
   ((noise_reads_in_bounds (T := ℚ)).1 (1 / 2)).2.2 _
     (by simp only [noise1d_traced, noisepTraced, List.nil_append, List.cons_append,
       List.mem_cons, true_or, or_true])⟩

/-! ## Noise: restrictions and lattice values (C33, C34) -/

/-- The function `floormod256` at zero. -/
theorem floormod256_zero {T : Type} [LinearOrderedField T] [FloorRing T] :
    floormod256 (0 : T) = 0 := by
  have h := floormod256_intCast (T := T) 0
  simpa using h

/-- Claim C33: in exact arithmetic (any ordered field with a floor), for all `x` and
`y`, `noise1d(x) = noise2d(x, 0) = noise3d(x, 0, 0)` and
`noise2d(x, y) = noise3d(x, y, 0)`. -/
theorem noise_restrictions {T : Type} [LinearOrderedField T] [FloorRing T] (x y : T) :
    noise1d x = noise2d x 0 ∧ noise2d x 0 = noise3d x 0 0 ∧
    noise2d x y = noise3d x y 0 := by
  have h3 : ∀ u v : T, noise2d u v = noise3d u v 0 := by
    intro u v
    simp only [noise2d, noise3d, Int.floor_zero, Int.cast_zero, sub_zero, floormod256_zero,
      Nat.add_zero]
    ring
  refine ⟨?_, h3 x 0, h3 x y⟩
  simp only [noise1d, noise2d, Int.floor_zero, Int.cast_zero, sub_zero, floormod256_zero,
    Nat.add_zero]
  ring

/-- Claim C34: the noise field vanishes on the integer lattice: for all integers
`i`, `j`, `k`, `noise1d(i) = 0`, `noise2d(i, j) = 0` and `noise3d(i, j, k) = 0`. -/
theorem noise_lattice_zero {T : Type} [LinearOrderedField T] [FloorRing T] (i j k : ℤ) :
    noise1d (i : T) = 0 ∧ noise2d (i : T) (j : T) = 0 ∧
    noise3d (i : T) (j : T) (k : T) = 0 := by
  have hg : ∀ h : Nat, fgrad h (0 : T) 0 0 = 0 := by
    intro h
    unfold fgrad
    split <;> simp
  refine ⟨?_, ?_, ?_⟩
  · simp only [noise1d, Int.floor_intCast, sub_self, hg]
    ring
  · simp only [noise2d, Int.floor_intCast, sub_self, hg]
    ring
  · simp only [noise3d, Int.floor_intCast, sub_self, hg]
    ring

/-! ## The rotation builders (C35, C36) -/

/-- Claim C35: in real arithmetic, for every angle and every non-zero axis
`(ax, ay, az)`, `R = rotation(angle, ax, ay, az)` satisfies
`R * transpose(R) = 1` and `R * (ax, ay, az) = (ax, ay, az)`. -/
theorem rotation_about_axis (angle ax ay az : ℝ)
    (h : (⟨ax, ay, az⟩ : tvec3 ℝ) ≠ tvec3.splat 0) :
    tmat3.mul (tmat3.rotation Real.sqrt Real.sin Real.cos Real.pi angle ax ay az)
        (tmat3.transpose (tmat3.rotation Real.sqrt Real.sin Real.cos Real.pi angle ax ay az))
      = tmat3.ofScalar 1 ∧
    tmat3.mulVec (tmat3.rotation Real.sqrt Real.sin Real.cos Real.pi angle ax ay az)
        ⟨ax, ay, az⟩ = ⟨ax, ay, az⟩ := by
  have hN := tvec3_dot_self_pos _ h
  simp only [tvec3.dot] at hN
  have had : Real.sqrt (ax * ax + ay * ay + az * az) > 0 := Real.sqrt_pos.mpr hN
  have hq := inv_sqrt_mul_self _ hN
  have hsc := Real.sin_sq_add_cos_sq (angle * (-Real.pi / 180))
  simp only [tmat3.rotation, if_pos had]
  generalize 1 / Real.sqrt (ax * ax + ay * ay + az * az) = q at hq
  generalize Real.sin (angle * (-Real.pi / 180)) = s at hsc
  generalize Real.cos (angle * (-Real.pi / 180)) = c at hsc
  have hu : ax * q * (ax * q) + ay * q * (ay * q) + az * q * (az * q) = 1 := by
    linear_combination hq
  constructor
  · simp only [tmat3.mul, tmat3.transpose, tmat3.ofElems, tmat3.ofScalar, tmat3.mk.injEq,
      tvec3.mk.injEq]
    refine ⟨⟨?_, ?_, ?_⟩, ⟨?_, ?_, ?_⟩, ?_, ?_, ?_⟩
    · linear_combination (s * s + (1 - c) ^ 2 * (ax * q) * (ax * q)) * hu
        + (1 - (ax * q) * (ax * q)) * hsc
    · linear_combination ((1 - c) ^ 2 * (ax * q) * (ay * q)) * hu - ((ax * q) * (ay * q)) * hsc
    · linear_combination ((1 - c) ^ 2 * (ax * q) * (az * q)) * hu - ((ax * q) * (az * q)) * hsc
    · linear_combination ((1 - c) ^ 2 * (ax * q) * (ay * q)) * hu - ((ax * q) * (ay * q)) * hsc
    · linear_combination (s * s + (1 - c) ^ 2 * (ay * q) * (ay * q)) * hu
        + (1 - (ay * q) * (ay * q)) * hsc
    · linear_combination ((1 - c) ^ 2 * (ay * q) * (az * q)) * hu - ((ay * q) * (az * q)) * hsc
    · linear_combination ((1 - c) ^ 2 * (ax * q) * (az * q)) * hu - ((ax * q) * (az * q)) * hsc
    · linear_combination ((1 - c) ^ 2 * (ay * q) * (az * q)) * hu - ((ay * q) * (az * q)) * hsc
    · linear_combination (s * s + (1 - c) ^ 2 * (az * q) * (az * q)) * hu
        + (1 - (az * q) * (az * q)) * hsc
  · simp only [tmat3.mulVec, tmat3.ofElems, tvec3.mk.injEq]
    refine ⟨?_, ?_, ?_⟩
    · linear_combination ((1 - c) * ax) * hq
    · linear_combination ((1 - c) * ay) * hq
    · linear_combination ((1 - c) * az) * hq

/-- Claim C35 at a concrete input: a quarter turn about the axis `(0, 0, 2)`. -/
theorem rotation_about_axis_witness :
    (⟨0, 0, 2⟩ : tvec3 ℝ) ≠ tvec3.splat 0 ∧
    tmat3.mulVec (tmat3.rotation Real.sqrt Real.sin Real.cos Real.pi 90 0 0 2) ⟨0, 0, 2⟩
      = ⟨0, 0, 2⟩ :=
  ⟨by norm_num [tvec3.splat],
   (rotation_about_axis 90 0 0 2 (by norm_num [tvec3.splat])).2⟩

/-- Claim C36: in real arithmetic, for every angle, `rotation(angle, 0, 0, 1)` equals
the rank-2 `rotation(angle)` widened to 3x3, that is, the matrix with columns
`(cos a, sin a, 0)`, `(-sin a, cos a, 0)`, `(0, 0, 1)` for `a = angle * pi / 180`; so
`rotate(m, angle)` on a 3x3 `m` is `m * rotation(angle, 0, 0, 1)`. -/
theorem rotation_rank2_rank3_agree (angle : ℝ) :
    tmat3.rotation Real.sqrt Real.sin Real.cos Real.pi angle 0 0 1
      = tmat3.ofMat2 (tmat2.rotation Real.sin Real.cos Real.pi angle) ∧
    tmat3.ofMat2 (tmat2.rotation Real.sin Real.cos Real.pi angle)
      = ⟨⟨Real.cos (angle * Real.pi / 180), Real.sin (angle * Real.pi / 180), 0⟩,
         ⟨-Real.sin (angle * Real.pi / 180), Real.cos (angle * Real.pi / 180), 0⟩,
         ⟨0, 0, 1⟩⟩ ∧
    (∀ m : tmat3 ℝ, tmat3.rotate Real.sin Real.cos Real.pi m angle
      = tmat3.mul m (tmat3.rotation Real.sqrt Real.sin Real.cos Real.pi angle 0 0 1)) := by
  have e1 : angle * (-Real.pi / 180) = -(angle * (Real.pi / 180)) := by ring
  have e2 : angle * Real.pi / 180 = angle * (Real.pi / 180) := by ring
  have h1 : tmat3.rotation Real.sqrt Real.sin Real.cos Real.pi angle 0 0 1
      = tmat3.ofMat2 (tmat2.rotation Real.sin Real.cos Real.pi angle) := by
    have had : Real.sqrt ((0 : ℝ) * 0 + 0 * 0 + 1 * 1) > 0 := by
      norm_num
    simp only [tmat3.rotation, if_pos had, tmat2.rotation, tmat3.ofMat2, tmat3.ofElems,
      tmat2.ofElems, tvec3.ofVec2, e1, Real.sin_neg, Real.cos_neg]
    norm_num
  refine ⟨h1, ?_, fun m => ?_⟩
  · simp only [tmat2.rotation, tmat3.ofMat2, tmat2.ofElems, tvec3.ofVec2, e2]
  · rw [h1]
    rfl

/-! ## The view matrix and the camera position (C37) -/

/-- The rows of the rotation block of `lookAt(pos, target, up)` are orthonormal, for
`pos ≠ target` and `up` not parallel to `pos - target` (real arithmetic). -/
theorem lookAt_rows_orthonormal (p t u : tvec3 ℝ) (hpt : p ≠ t)
    (hup : tvec3.cross u (tvec3.sub p t) ≠ tvec3.splat 0) :
    tmat3.mul (tmat3.ofMat4 (lookAtVec Real.sqrt p t u))
        (tmat3.transpose (tmat3.ofMat4 (lookAtVec Real.sqrt p t u))) = tmat3.ofScalar 1 := by
  have hN := tvec3_dot_self_pos _ (tvec3_sub_ne_zero p t hpt)
  have hc := tvec3_dot_self_pos _ hup
  obtain ⟨px, py, pz⟩ := p
  obtain ⟨tx, ty, tz⟩ := t
  obtain ⟨ux, uy, uz⟩ := u
  simp only [tvec3.dot, tvec3.sub, tvec3.cross] at hN hc
  simp only [lookAtVec, lookAt, tmat3.ofMat4, tmat3.mul, tmat3.transpose, tmat3.ofElems,
    tmat3.ofScalar]
  generalize px - tx = a at hN hc ⊢
  generalize py - ty = b at hN hc ⊢
  generalize pz - tz = c at hN hc ⊢
  have hq := inv_sqrt_mul_self _ hN
  generalize 1 / Real.sqrt (a * a + b * b + c * c) = q at hq ⊢
  have hq0 : q ≠ 0 := by
    intro h0
    rw [h0] at hq
    norm_num at hq
  have hD : 0 < (c * q * uy - b * q * uz) * (c * q * uy - b * q * uz) +
      (a * q * uz - c * q * ux) * (a * q * uz - c * q * ux) +
      (b * q * ux - a * q * uy) * (b * q * ux - a * q * uy) := by
    have e : (c * q * uy - b * q * uz) * (c * q * uy - b * q * uz) +
      (a * q * uz - c * q * ux) * (a * q * uz - c * q * ux) +
      (b * q * ux - a * q * uy) * (b * q * ux - a * q * uy)
        = q * q * ((uy * c - b * uz) * (uy * c - b * uz) + (uz * a - c * ux) * (uz * a - c * ux)
          + (ux * b - a * uy) * (ux * b - a * uy)) := by ring
    rw [e]
    exact mul_pos (mul_self_pos.mpr hq0) hc
  have hr := inv_sqrt_mul_self _ hD
  generalize 1 / Real.sqrt ((c * q * uy - b * q * uz) * (c * q * uy - b * q * uz) +
      (a * q * uz - c * q * ux) * (a * q * uz - c * q * ux) +
      (b * q * ux - a * q * uy) * (b * q * ux - a * q * uy)) = w at hr ⊢
  have hff : a * q * (a * q) + b * q * (b * q) + c * q * (c * q) = 1 := by
    linear_combination hq
  have hrr : (c * q * uy - b * q * uz) * w * ((c * q * uy - b * q * uz) * w) + (a * q * uz - c * q * ux) * w * ((a * q * uz - c * q * ux) * w)
      + (b * q * ux - a * q * uy) * w * ((b * q * ux - a * q * uy) * w) = 1 := by
    linear_combination hr
  simp only [tmat3.mk.injEq, tvec3.mk.injEq]
  refine ⟨⟨?_, ?_, ?_⟩, ⟨?_, ?_, ?_⟩, ?_, ?_, ?_⟩
  · linear_combination hrr
  · ring
  · ring
  · ring
  · linear_combination ((c * q * uy - b * q * uz) * w * ((c * q * uy - b * q * uz) * w) + (a * q * uz - c * q * ux) * w * ((a * q * uz - c * q * ux) * w)
      + (b * q * ux - a * q * uy) * w * ((b * q * ux - a * q * uy) * w)) * hff + hrr
  · ring
  · ring
  · ring
  · linear_combination hff

/-- Claim C37: in real arithmetic, for `pos ≠ target` and `up` not parallel to
`pos - target` (`cross(up, pos - target) ≠ 0`), the upper-left 3x3 block `B` of
`lookAt(pos, target, up)` is orthonormal (`transpose(B) * B = 1` and
`B * transpose(B) = 1`) and `getCameraPosition(lookAt(pos, target, up)) = pos`. -/
theorem lookAt_camera_position (p t u : tvec3 ℝ) (hpt : p ≠ t)
    (hup : tvec3.cross u (tvec3.sub p t) ≠ tvec3.splat 0) :
    tmat3.mul (tmat3.transpose (tmat3.ofMat4 (lookAtVec Real.sqrt p t u)))
        (tmat3.ofMat4 (lookAtVec Real.sqrt p t u)) = tmat3.ofScalar 1 ∧
    tmat3.mul (tmat3.ofMat4 (lookAtVec Real.sqrt p t u))
        (tmat3.transpose (tmat3.ofMat4 (lookAtVec Real.sqrt p t u))) = tmat3.ofScalar 1 ∧
    getCameraPosition (lookAtVec Real.sqrt p t u) = p := by
  have hrow := lookAt_rows_orthonormal p t u hpt hup
  have hcol : tmat3.mul (tmat3.transpose (tmat3.ofMat4 (lookAtVec Real.sqrt p t u)))
      (tmat3.ofMat4 (lookAtVec Real.sqrt p t u)) = tmat3.ofScalar 1 := by
    have h := congrArg tmat3.toMatrix hrow
    rw [tmat3_toMatrix_mul, tmat3_toMatrix_transpose, tmat3_toMatrix_one] at h
    apply tmat3_toMatrix_injective
    rw [tmat3_toMatrix_mul, tmat3_toMatrix_transpose, tmat3_toMatrix_one]
    exact Matrix.mul_eq_one_comm.mp h
  refine ⟨hcol, hrow, ?_⟩
  have hV : lookAtVec Real.sqrt p t u = setCameraPosition (lookAtVec Real.sqrt p t u) p := by
    simp only [lookAtVec, lookAt, setCameraPosition, tmat3.ofMat4, tmat3.mulVec, tvec3.neg,
      tvec4.ofVec3, tmat4.mk.injEq, tvec4.mk.injEq, true_and, and_true]
    refine ⟨?_, ?_, ?_⟩ <;> ring
  rw [hV]
  exact camera_position_roundtrip _ _ (tmat3_det_ne_zero_of_orthonormal _ hcol)

/-- Claim C37 at a concrete input: eye `(0, 0, 5)`, target `(0, 0, 0)`, up
`(0, 1, 0)`. -/
theorem lookAt_camera_position_witness :
    ((⟨0, 0, 5⟩ : tvec3 ℝ) ≠ ⟨0, 0, 0⟩ ∧
      tvec3.cross (⟨0, 1, 0⟩ : tvec3 ℝ) (tvec3.sub ⟨0, 0, 5⟩ ⟨0, 0, 0⟩) ≠ tvec3.splat 0) ∧
    getCameraPosition (lookAtVec Real.sqrt ⟨0, 0, 5⟩ ⟨0, 0, 0⟩ ⟨0, 1, 0⟩) = ⟨0, 0, 5⟩ :=
  ⟨⟨by simp, by norm_num [tvec3.cross, tvec3.sub, tvec3.splat]⟩,
   (lookAt_camera_position ⟨0, 0, 5⟩ ⟨0, 0, 0⟩ ⟨0, 1, 0⟩ (by simp)
     (by norm_num [tvec3.cross, tvec3.sub, tvec3.splat])).2.2⟩

/-! ## MeshBuilder: whole vertices (C38) -/

/-- The per-vertex float count `GLMeshStride[format] >> 2` of each format; it equals
`GLMeshStride[format] / 4` and is non-zero except for `None`. -/
theorem meshStride_values (format : GLMesh.Format) :
    GLMeshStride.getD format.toNat 0 >>> 2 = GLMeshStride.getD format.toNat 0 / 4 ∧
    GLMeshStride.getD format.toNat 0 / 4
      = (match format with
        | .None => 0 | .XYZ => 3 | .XYZUV => 5 | .XYZUVN => 8 | .XYZUVNC => 12 | .PTNC => 15) := by
  cases format <;> decide

/-- Each call of `vertex(v)` appends `GLMeshStride[format] / 4` floats, for every
format other than `None`, and changes nothing else. -/
theorem vertex_effect {D F : Type} (cast : D → F) (s : MeshBuilder D F) (v : tvec4 D)
    (hf : s.format ≠ GLMesh.Format.None) :
    (s.vertex cast v).vertexData.length
      = s.vertexData.length + GLMeshStride.getD s.format.toNat 0 / 4 ∧
    (s.vertex cast v).format = s.format ∧
    (s.vertex cast v).currBeginOffset = s.currBeginOffset := by
  refine ⟨?_, rfl, rfl⟩
  rw [(meshStride_values s.format).2]
  unfold MeshBuilder.vertex
  cases hfm : s.format <;>
    simp [hfm, GLMesh.Format.toNat] at hf ⊢

/-- Each call of `vertex(v, t, n, c)` appends `GLMeshStride[format] / 4` floats, for
every format other than `None`, and changes nothing else. -/
theorem vertexAttr_effect {D F : Type} (cast : D → F) (s : MeshBuilder D F) (v t : tvec4 D)
    (n : tvec3 D) (c : tvec4 D) (hf : s.format ≠ GLMesh.Format.None) :
    (s.vertexAttr cast v t n c).vertexData.length
      = s.vertexData.length + GLMeshStride.getD s.format.toNat 0 / 4 ∧
    (s.vertexAttr cast v t n c).format = s.format ∧
    (s.vertexAttr cast v t n c).currBeginOffset = s.currBeginOffset := by
  refine ⟨?_, rfl, rfl⟩
  rw [(meshStride_values s.format).2]
  unfold MeshBuilder.vertexAttr
  cases hfm : s.format <;>
    simp [hfm, GLMesh.Format.toNat] at hf ⊢

/-- Method `end()` returns, leaving everything but the index buffer unchanged, when
the format is not `None` and the offset of the block and the size of the vertex
buffer are multiples of the per-vertex float count below `2 ^ 32`. -/
theorem end_ok {D F : Type} (s : MeshBuilder D F) (hf : s.format ≠ GLMesh.Format.None)
    (h1 : GLMeshStride.getD s.format.toNat 0 / 4 ∣ s.currBeginOffset)
    (h2 : GLMeshStride.getD s.format.toNat 0 / 4 ∣ s.vertexData.length)
    (h3 : s.currBeginOffset < 2 ^ 32) (h4 : s.vertexData.length < 2 ^ 32) :
    ∃ s', s.end_ = Except.ok s' ∧ s'.format = s.format ∧
      s'.currBeginOffset = s.currBeginOffset ∧ s'.vertexData = s.vertexData := by
  have hk : GLMeshStride.getD s.format.toNat 0 / 4 ≠ 0 := by
    rw [(meshStride_values s.format).2]
    cases hfm : s.format <;> simp [hfm] at hf ⊢
  unfold MeshBuilder.end_
  simp only [(meshStride_values s.format).1]
  rw [if_neg hk]
  have e1 : s.currBeginOffset / (GLMeshStride.getD s.format.toNat 0 / 4)
      * (GLMeshStride.getD s.format.toNat 0 / 4) % 2 ^ 32 = s.currBeginOffset := by
    rw [Nat.div_mul_cancel h1, Nat.mod_eq_of_lt h3]
  have e2 : s.vertexData.length % 2 ^ 32 / (GLMeshStride.getD s.format.toNat 0 / 4)
      * (GLMeshStride.getD s.format.toNat 0 / 4) % 2 ^ 32 = s.vertexData.length := by
    rw [Nat.mod_eq_of_lt h4, Nat.div_mul_cancel h2, Nat.mod_eq_of_lt h4]
  rw [if_neg (not_not.mpr e1), if_neg (not_not.mpr e2)]
  exact ⟨_, rfl, rfl, rfl, rfl⟩

/-- The alignment invariant of `MeshBuilder` along a sequence of calls: from a state
with aligned offset and size, every `end()` returns and the final state is aligned,
as long as the vertex buffer stays below `2 ^ 32` floats. -/
theorem run_aligned {D F : Type} (cast : D → F) (format : GLMesh.Format)
    (hf : format ≠ GLMesh.Format.None) (calls : List (MeshBuilder.Call D)) :
    ∀ s : MeshBuilder D F, s.format = format →
      GLMeshStride.getD format.toNat 0 / 4 ∣ s.currBeginOffset →
      GLMeshStride.getD format.toNat 0 / 4 ∣ s.vertexData.length →
      s.currBeginOffset < 2 ^ 32 →
      s.vertexData.length
        + MeshBuilder.vertexCalls calls * (GLMeshStride.getD format.toNat 0 / 4) < 2 ^ 32 →
      ∃ s', MeshBuilder.run cast s calls = Except.ok s' ∧ s'.format = format ∧
        GLMeshStride.getD format.toNat 0 / 4 ∣ s'.currBeginOffset ∧
        GLMeshStride.getD format.toNat 0 / 4 ∣ s'.vertexData.length ∧
        s'.vertexData.length = s.vertexData.length
          + MeshBuilder.vertexCalls calls * (GLMeshStride.getD format.toNat 0 / 4) := by
  induction calls with
  | nil =>
    intro s hs h1 h2 _ _
    exact ⟨s, rfl, hs, h1, h2, by simp [MeshBuilder.vertexCalls]⟩
  | cons c cs ih =>
    intro s hs h1 h2 h3 h4
    have hfs : s.format ≠ GLMesh.Format.None := by rw [hs]; exact hf
    cases c with
    | begin mode =>
      simp only [MeshBuilder.vertexCalls] at h4 ⊢
      have hlt : s.vertexData.length < 2 ^ 32 := by omega
      have hoff : (s.begin mode).currBeginOffset = s.vertexData.length :=
        Nat.mod_eq_of_lt hlt
      obtain ⟨s', hr, hr1, hr2, hr3, hr4⟩ := ih (s.begin mode) hs (by rw [hoff]; exact h2) h2
        (by rw [hoff]; exact hlt) h4
      exact ⟨s', hr, hr1, hr2, hr3, hr4⟩
    | vertex v =>
      simp only [MeshBuilder.vertexCalls] at h4 ⊢
      obtain ⟨e1, e2, e3⟩ := vertex_effect cast s v hfs
      rw [hs] at e1
      obtain ⟨s', hr, hr1, hr2, hr3, hr4⟩ := ih (s.vertex cast v) (e2.trans hs)
        (by rw [e3]; exact h1) (by rw [e1]; exact Nat.dvd_add h2 (dvd_refl _))
        (by rw [e3]; exact h3) (by rw [e1]; linarith)
      refine ⟨s', hr, hr1, hr2, hr3, ?_⟩
      rw [hr4, e1]
      ring
    | vertexAttr v t n c =>
      simp only [MeshBuilder.vertexCalls] at h4 ⊢
      obtain ⟨e1, e2, e3⟩ := vertexAttr_effect cast s v t n c hfs
      rw [hs] at e1
      obtain ⟨s', hr, hr1, hr2, hr3, hr4⟩ := ih (s.vertexAttr cast v t n c) (e2.trans hs)
        (by rw [e3]; exact h1) (by rw [e1]; exact Nat.dvd_add h2 (dvd_refl _))
        (by rw [e3]; exact h3) (by rw [e1]; linarith)
      refine ⟨s', hr, hr1, hr2, hr3, ?_⟩
      rw [hr4, e1]
      ring
    | end_ =>
      simp only [MeshBuilder.vertexCalls] at h4 ⊢
      have hlt : s.vertexData.length < 2 ^ 32 := by omega
      obtain ⟨s1, he, e2, e3, e4⟩ := end_ok s hfs (by rw [hs]; exact h1) (by rw [hs]; exact h2)
        h3 hlt
      obtain ⟨s', hr, hr1, hr2, hr3, hr4⟩ := ih s1 (e2.trans hs) (by rw [e3]; exact h1)
        (by rw [e4]; exact h2) (by rw [e3]; exact h3) (by rw [e4]; exact h4)
      refine ⟨s', ?_, hr1, hr2, hr3, by rw [hr4, e4]⟩
      simp only [MeshBuilder.run, MeshBuilder.step, he]
      exact hr

/-- Claim C38, amended: for every format other than `None`, each call of either
`vertex()` overload appends exactly `GLMeshStride[format] / 4` floats (a non-zero
count); after the constructor's `clear()` and any sequence of `begin`/`vertex`/`end`
calls whose vertices fill fewer than `2 ^ 32` floats, every `end()` has returned (no
division by zero, both assertions hold), and `vertexData.size()` and
`currBeginOffset` are multiples of the per-vertex float count. -/
theorem meshBuilder_whole_vertices {D F : Type} [Zero D] [One D] (cast : D → F)
    (format : GLMesh.Format) (hf : format ≠ GLMesh.Format.None) :
    GLMeshStride.getD format.toNat 0 / 4 ≠ 0 ∧
    (∀ (s : MeshBuilder D F) (v : tvec4 D), s.format = format →
      (s.vertex cast v).vertexData.length
        = s.vertexData.length + GLMeshStride.getD format.toNat 0 / 4) ∧
    (∀ (s : MeshBuilder D F) (v t : tvec4 D) (n : tvec3 D) (c : tvec4 D), s.format = format →
      (s.vertexAttr cast v t n c).vertexData.length
        = s.vertexData.length + GLMeshStride.getD format.toNat 0 / 4) ∧
    (∀ calls : List (MeshBuilder.Call D),
      MeshBuilder.vertexCalls calls * (GLMeshStride.getD format.toNat 0 / 4) < 2 ^ 32 →
      ∃ s' : MeshBuilder D F,
        MeshBuilder.run cast (MeshBuilder.new format) calls = Except.ok s' ∧
        s'.vertexData.length
          = MeshBuilder.vertexCalls calls * (GLMeshStride.getD format.toNat 0 / 4) ∧
        GLMeshStride.getD format.toNat 0 / 4 ∣ s'.vertexData.length ∧
        GLMeshStride.getD format.toNat 0 / 4 ∣ s'.currBeginOffset) := by
  refine ⟨?_, fun s v hs => ?_, fun s v t n c hs => ?_, fun calls hb => ?_⟩
  · rw [(meshStride_values format).2]
    cases format <;> simp at hf ⊢
  · have h := (vertex_effect cast s v (by rw [hs]; exact hf)).1
    rwa [hs] at h
  · have h := (vertexAttr_effect cast s v t n c (by rw [hs]; exact hf)).1
    rwa [hs] at h
  · obtain ⟨s', hr, _, hr2, hr3, hr4⟩ := run_aligned cast format hf calls
      (MeshBuilder.new format : MeshBuilder D F) rfl (dvd_zero _) (dvd_zero _)
      (by simp [MeshBuilder.new, MeshBuilder.clear])
      (by simpa [MeshBuilder.new, MeshBuilder.clear] using hb)
    refine ⟨s', hr, ?_, hr3, hr2⟩
    simpa [MeshBuilder.new, MeshBuilder.clear] using hr4

/-- A run that starts with `n` calls `vertex(v)`: the calls append `n` vertices and
change nothing else. -/
theorem run_replicate_vertex {D F : Type} (cast : D → F) (v : tvec4 D)
    (rest : List (MeshBuilder.Call D)) (n : Nat) :
    ∀ s : MeshBuilder D F, s.format ≠ GLMesh.Format.None →
      ∃ s', MeshBuilder.run cast s (List.replicate n (MeshBuilder.Call.vertex v) ++ rest)
          = MeshBuilder.run cast s' rest ∧
        s'.format = s.format ∧ s'.currBeginOffset = s.currBeginOffset ∧
        s'.vertexData.length
          = s.vertexData.length + n * (GLMeshStride.getD s.format.toNat 0 / 4) := by
  induction n with
  | zero =>
    intro s _
    exact ⟨s, rfl, rfl, rfl, by simp⟩
  | succ n ih =>
    intro s hs
    obtain ⟨e1, e2, e3⟩ := vertex_effect cast s v hs
    obtain ⟨s', hr, hr1, hr2, hr3⟩ := ih (s.vertex cast v) (by rw [e2]; exact hs)
    refine ⟨s', ?_, hr1.trans e2, hr2.trans e3, ?_⟩
    · rw [List.replicate_succ, List.cons_append]
      simp only [MeshBuilder.run, MeshBuilder.step]
      exact hr
    · rw [hr3, e1, e2]
      ring

/-- Claim C38, counterexample: format `XYZ` (3 floats per vertex), `1431655766` calls
of `vertex` after the constructor, so that `vertexData.size() = 4294967298 = 2^32 + 2`.
A following `begin(LINES)` sets `currBeginOffset = static_cast<GLuint>(size) = 2`,
which is not a multiple of 3; a following `end()` fails its second assertion
(`itEnd * vertexSize == vertexData.size()` with `itEnd = 2 / 3 = 0`). -/
theorem meshBuilder_overflow_counterexample :
    (MeshBuilder.run id (MeshBuilder.new GLMesh.Format.XYZ : MeshBuilder ℤ ℤ)
        (List.replicate 1431655766 (MeshBuilder.Call.vertex ⟨0, 0, 0, 1⟩)
          ++ [MeshBuilder.Call.begin MeshBuilder.Mode.LINES])).map
        (fun s => (s.vertexData.length, s.currBeginOffset))
      = Except.ok (4294967298, 2) ∧
    GLMeshStride.getD GLMesh.Format.XYZ.toNat 0 / 4 = 3 ∧ ¬ (3 ∣ 2) ∧
    (MeshBuilder.run id (MeshBuilder.new GLMesh.Format.XYZ : MeshBuilder ℤ ℤ)
        (List.replicate 1431655766 (MeshBuilder.Call.vertex ⟨0, 0, 0, 1⟩)
          ++ [MeshBuilder.Call.end_])).map (fun s => s.vertexData.length)
      = Except.error MeshBuilder.Fault.assertSize := by
  have hk : GLMeshStride.getD GLMesh.Format.XYZ.toNat 0 / 4 = 3 := by decide
  have hk2 : GLMeshStride.getD GLMesh.Format.XYZ.toNat 0 >>> 2 = 3 := by decide
  refine ⟨?_, hk, by decide, ?_⟩
  · obtain ⟨s', hr, _, _, hr3⟩ := run_replicate_vertex id (⟨0, 0, 0, 1⟩ : tvec4 ℤ)
      [MeshBuilder.Call.begin MeshBuilder.Mode.LINES] 1431655766
      (MeshBuilder.new GLMesh.Format.XYZ : MeshBuilder ℤ ℤ) (by decide)
    have hlen : s'.vertexData.length = 4294967298 := by
      rw [hr3]
      simp only [MeshBuilder.new, MeshBuilder.clear, hk, List.length_nil]
    rw [hr]
    simp only [MeshBuilder.run, MeshBuilder.step, MeshBuilder.begin, Except.map, hlen]
    norm_num
  · obtain ⟨s', hr, hr1, hr2, hr3⟩ := run_replicate_vertex id (⟨0, 0, 0, 1⟩ : tvec4 ℤ)
      [MeshBuilder.Call.end_] 1431655766
      (MeshBuilder.new GLMesh.Format.XYZ : MeshBuilder ℤ ℤ) (by decide)
    have hlen : s'.vertexData.length = 4294967298 := by
      rw [hr3]
      simp only [MeshBuilder.new, MeshBuilder.clear, hk, List.length_nil]
    have hfmt : s'.format = GLMesh.Format.XYZ := hr1
    have hoff : s'.currBeginOffset = 0 := hr2
    rw [hr]
    simp only [MeshBuilder.run, MeshBuilder.step, MeshBuilder.end_, hfmt, hk2, hoff, hlen]
    norm_num [Except.map]

/-- Claim C38 (amended) at a concrete input: format `XYZ`, one triangle. -/
theorem meshBuilder_whole_vertices_witness :
    GLMesh.Format.XYZ ≠ GLMesh.Format.None ∧
    ∃ s' : MeshBuilder ℤ ℤ,
      MeshBuilder.run id (MeshBuilder.new GLMesh.Format.XYZ)
          [MeshBuilder.Call.begin MeshBuilder.Mode.TRIANGLES,
           MeshBuilder.Call.vertex ⟨0, 0, 0, 1⟩, MeshBuilder.Call.vertex ⟨1, 0, 0, 1⟩,
           MeshBuilder.Call.vertex ⟨0, 1, 0, 1⟩, MeshBuilder.Call.end_] = Except.ok s' ∧
      s'.vertexData.length
        = MeshBuilder.vertexCalls
            [MeshBuilder.Call.begin MeshBuilder.Mode.TRIANGLES,
             MeshBuilder.Call.vertex (⟨0, 0, 0, 1⟩ : tvec4 ℤ),
             MeshBuilder.Call.vertex ⟨1, 0, 0, 1⟩,
             MeshBuilder.Call.vertex ⟨0, 1, 0, 1⟩, MeshBuilder.Call.end_]
          * (GLMeshStride.getD GLMesh.Format.XYZ.toNat 0 / 4) ∧
      GLMeshStride.getD GLMesh.Format.XYZ.toNat 0 / 4 ∣ s'.vertexData.length ∧
      GLMeshStride.getD GLMesh.Format.XYZ.toNat 0 / 4 ∣ s'.currBeginOffset :=
  ⟨by decide,
   (meshBuilder_whole_vertices id GLMesh.Format.XYZ (by decide)).2.2.2 _ (by decide)⟩

/-! ## MeshBuilder: the indices emitted by `end` (C39) -/

/-- Claim C39, evaluated on the code: format `XYZ`, `begin(QUADS)`, one call of
`vertex`, `end()`.  The vertex buffer holds one vertex (index 0) and `end()` appends
the indices `0, 1, 3, 1, 2, 3`: the loop `for (; it < itEnd; it += 4)` runs for the
incomplete quad and pushes `it + 1`, `it + 2`, `it + 3`, which are not below the
vertex count 1.  With the same single vertex the other five modes append only the
index 0 or nothing. -/
theorem end_quads_incomplete_block :
    (MeshBuilder.run id (MeshBuilder.new GLMesh.Format.XYZ : MeshBuilder ℤ ℤ)
        [MeshBuilder.Call.begin MeshBuilder.Mode.QUADS, MeshBuilder.Call.vertex ⟨0, 0, 0, 1⟩,
         MeshBuilder.Call.end_]).map
        (fun s => (s.vertexData.length / 3, s.indexData))
      = Except.ok (1, [0, 1, 3, 1, 2, 3]) ∧
    ¬ (∀ i ∈ [0, 1, 3, 1, 2, 3], i < 1) ∧
    (MeshBuilder.run id (MeshBuilder.new GLMesh.Format.XYZ : MeshBuilder ℤ ℤ)
        [MeshBuilder.Call.begin MeshBuilder.Mode.LINES, MeshBuilder.Call.vertex ⟨0, 0, 0, 1⟩,
         MeshBuilder.Call.end_]).map
        (fun s => (s.vertexData.length / 3, s.indexData))
      = Except.ok (1, [0]) ∧
    (MeshBuilder.run id (MeshBuilder.new GLMesh.Format.XYZ : MeshBuilder ℤ ℤ)
        [MeshBuilder.Call.begin MeshBuilder.Mode.LINE_STRIP, MeshBuilder.Call.vertex ⟨0, 0, 0, 1⟩,
         MeshBuilder.Call.end_]).map
        (fun s => (s.vertexData.length / 3, s.indexData))
      = Except.ok (1, []) ∧
    (MeshBuilder.run id (MeshBuilder.new GLMesh.Format.XYZ : MeshBuilder ℤ ℤ)
        [MeshBuilder.Call.begin MeshBuilder.Mode.LINE_LOOP, MeshBuilder.Call.vertex ⟨0, 0, 0, 1⟩,
         MeshBuilder.Call.end_]).map
        (fun s => (s.vertexData.length / 3, s.indexData))
      = Except.ok (1, []) ∧
    (MeshBuilder.run id (MeshBuilder.new GLMesh.Format.XYZ : MeshBuilder ℤ ℤ)
        [MeshBuilder.Call.begin MeshBuilder.Mode.TRIANGLES, MeshBuilder.Call.vertex ⟨0, 0, 0, 1⟩,
         MeshBuilder.Call.end_]).map
        (fun s => (s.vertexData.length / 3, s.indexData))
      = Except.ok (1, [0]) ∧
    (MeshBuilder.run id (MeshBuilder.new GLMesh.Format.XYZ : MeshBuilder ℤ ℤ)
        [MeshBuilder.Call.begin MeshBuilder.Mode.TRIANGLE_FAN, MeshBuilder.Call.vertex ⟨0, 0, 0, 1⟩,
         MeshBuilder.Call.end_]).map
        (fun s => (s.vertexData.length / 3, s.indexData))
      = Except.ok (1, []) := by
  refine ⟨?_, by decide, ?_, ?_, ?_, ?_, ?_⟩ <;>
    simp [MeshBuilder.run, MeshBuilder.step, MeshBuilder.new, MeshBuilder.clear,
      MeshBuilder.begin, MeshBuilder.vertex, MeshBuilder.end_, GLMeshStride,
      GLMesh.Format.toNat, MeshBuilder.quadLoop, MeshBuilder.pointLoop,
      MeshBuilder.segmentLoop, MeshBuilder.fanLoop, Except.map]

/-- The loop of `LINES` and `TRIANGLES` appends indices in `it .. itEnd - 1`. -/
theorem pointLoop_range (itEnd : Nat) : ∀ (n it : Nat) (idx : List Nat), itEnd - it = n →
    ∃ new, MeshBuilder.pointLoop it itEnd idx = idx ++ new ∧
      ∀ i ∈ new, it ≤ i ∧ i < itEnd := by
  intro n
  induction n with
  | zero =>
    intro it idx h
    rw [MeshBuilder.pointLoop, if_neg (by omega)]
    exact ⟨[], by simp, by simp⟩
  | succ n ih =>
    intro it idx h
    rw [MeshBuilder.pointLoop, if_pos (by omega)]
    obtain ⟨new, h1, h2⟩ := ih (it + 1) (idx ++ [it]) (by omega)
    refine ⟨it :: new, by rw [h1]; simp, ?_⟩
    intro i hi
    rcases List.mem_cons.mp hi with h3 | h3
    · omega
    · have := h2 i h3
      omega

/-- The loop of `LINE_STRIP` and `LINE_LOOP` appends indices in `prev .. itEnd - 1`
and ends with `prev` in that range. -/
theorem segmentLoop_range (itEnd : Nat) : ∀ (n prev it : Nat) (idx : List Nat),
    itEnd - it = n → prev < it → prev < itEnd →
    ∃ new, (MeshBuilder.segmentLoop prev it itEnd idx).2 = idx ++ new ∧
      (∀ i ∈ new, prev ≤ i ∧ i < itEnd) ∧
      prev ≤ (MeshBuilder.segmentLoop prev it itEnd idx).1 ∧
      (MeshBuilder.segmentLoop prev it itEnd idx).1 < itEnd := by
  intro n
  induction n with
  | zero =>
    intro prev it idx h hp hq
    rw [MeshBuilder.segmentLoop, if_neg (by omega)]
    exact ⟨[], by simp, by simp, le_refl _, hq⟩
  | succ n ih =>
    intro prev it idx h hp hq
    rw [MeshBuilder.segmentLoop, if_pos (by omega)]
    obtain ⟨new, h1, h2, h3, h4⟩ := ih it (it + 1) (idx ++ [prev, it]) (by omega) (by omega)
      (by omega)
    refine ⟨prev :: it :: new, by rw [h1]; simp, ?_, by omega, h4⟩
    intro i hi
    rcases List.mem_cons.mp hi with h5 | h5
    · omega
    · rcases List.mem_cons.mp h5 with h6 | h6
      · omega
      · have := h2 i h6
        omega

/-- The loop of `TRIANGLE_FAN` appends indices in `it0 .. itEnd - 1`. -/
theorem fanLoop_range (it0 itEnd : Nat) : ∀ (n it : Nat) (idx : List Nat),
    itEnd - it = n → it0 < it →
    ∃ new, MeshBuilder.fanLoop it0 it itEnd idx = idx ++ new ∧
      ∀ i ∈ new, it0 ≤ i ∧ i < itEnd := by
  intro n
  induction n with
  | zero =>
    intro it idx h _
    rw [MeshBuilder.fanLoop, if_neg (by omega)]
    exact ⟨[], by simp, by simp⟩
  | succ n ih =>
    intro it idx h hp
    rw [MeshBuilder.fanLoop, if_pos (by omega)]
    obtain ⟨new, h1, h2⟩ := ih (it + 1) (idx ++ [it0, it - 1, it]) (by omega) (by omega)
    refine ⟨it0 :: (it - 1) :: it :: new, by rw [h1]; simp, ?_⟩
    intro i hi
    simp only [List.mem_cons] at hi
    rcases hi with h3 | h3 | h3 | h3
    · omega
    · omega
    · omega
    · have := h2 i h3
      omega

/-- The loop of `QUADS` appends indices in `it .. itEnd - 1` when the block holds
complete quads. -/
theorem quadLoop_range (itEnd : Nat) : ∀ (n it : Nat) (idx : List Nat),
    itEnd = it + 4 * n →
    ∃ new, MeshBuilder.quadLoop it itEnd idx = idx ++ new ∧
      ∀ i ∈ new, it ≤ i ∧ i < itEnd := by
  intro n
  induction n with
  | zero =>
    intro it idx h
    rw [MeshBuilder.quadLoop, if_neg (by omega)]
    exact ⟨[], by simp, by simp⟩
  | succ n ih =>
    intro it idx h
    rw [MeshBuilder.quadLoop, if_pos (by omega)]
    obtain ⟨new, h1, h2⟩ := ih (it + 4) (idx ++ [it, it + 1, it + 3, it + 1, it + 2, it + 3])
      (by omega)
    refine ⟨it :: (it + 1) :: (it + 3) :: (it + 1) :: (it + 2) :: (it + 3) :: new,
      by rw [h1]; simp, ?_⟩
    intro i hi
    simp only [List.mem_cons] at hi
    rcases hi with h3 | h3 | h3 | h3 | h3 | h3 | h3
    · omega
    · omega
    · omega
    · omega
    · omega
    · omega
    · have := h2 i h3
      omega

/-- Where `end()` keeps its promise: when `end()` returns, in every mode other than
`QUADS`, and in mode `QUADS` when the block holds a multiple of four vertices, each
appended index is at least the first vertex index of the block and below the number
of vertices in the buffer (counted as `end()` counts them, from the 32-bit size). -/
theorem end_indices_in_range {D F : Type} (s s' : MeshBuilder D F)
    (h : s.end_ = Except.ok s')
    (hq : s.currMode = MeshBuilder.Mode.QUADS →
      ∃ n, (s.vertexData.length % 2 ^ 32) / (GLMeshStride.getD s.format.toNat 0 >>> 2)
        = s.currBeginOffset / (GLMeshStride.getD s.format.toNat 0 >>> 2) + 4 * n) :
    ∃ new, s'.indexData = s.indexData ++ new ∧
      ∀ i ∈ new, s.currBeginOffset / (GLMeshStride.getD s.format.toNat 0 >>> 2) ≤ i ∧
        i < (s.vertexData.length % 2 ^ 32) / (GLMeshStride.getD s.format.toNat 0 >>> 2) := by
  unfold MeshBuilder.end_ at h
  simp only at h
  by_cases h1 : GLMeshStride.getD s.format.toNat 0 >>> 2 = 0
  · rw [if_pos h1] at h
    cases h
  rw [if_neg h1] at h
  by_cases h2 : s.currBeginOffset / (GLMeshStride.getD s.format.toNat 0 >>> 2)
      * (GLMeshStride.getD s.format.toNat 0 >>> 2) % 2 ^ 32 ≠ s.currBeginOffset
  · rw [if_pos h2] at h
    cases h
  rw [if_neg h2] at h
  by_cases h3 : s.vertexData.length % 2 ^ 32 / (GLMeshStride.getD s.format.toNat 0 >>> 2)
      * (GLMeshStride.getD s.format.toNat 0 >>> 2) % 2 ^ 32 ≠ s.vertexData.length
  · rw [if_pos h3] at h
    cases h
  rw [if_neg h3] at h
  injection h with h
  rw [← h]
  simp only
  generalize s.currBeginOffset / (GLMeshStride.getD s.format.toNat 0 >>> 2) = it at hq ⊢
  generalize (s.vertexData.length % 2 ^ 32) / (GLMeshStride.getD s.format.toNat 0 >>> 2)
    = itEnd at hq ⊢
  cases hm : s.currMode
  · exact pointLoop_range itEnd _ it s.indexData rfl
  · by_cases hlt : it < itEnd
    · obtain ⟨new, e1, e2, _, _⟩ := segmentLoop_range itEnd _ it (it + 1) s.indexData rfl
        (by omega) hlt
      exact ⟨new, e1, e2⟩
    · refine ⟨[], ?_, by simp⟩
      simp only [List.append_nil]
      rw [MeshBuilder.segmentLoop, if_neg (by omega)]
  · simp only
    by_cases hlt : it + 1 < itEnd
    · rw [if_pos hlt]
      obtain ⟨new, e1, e2, e3, e4⟩ := segmentLoop_range itEnd _ it (it + 1) s.indexData rfl
        (by omega) (by omega)
      refine ⟨new ++ [(MeshBuilder.segmentLoop it (it + 1) itEnd s.indexData).1, it], ?_, ?_⟩
      · rw [← List.append_assoc, ← e1]
      · intro i hi
        rcases List.mem_append.mp hi with h5 | h5
        · exact e2 i h5
        · simp only [List.mem_cons, List.mem_singleton, List.not_mem_nil, or_false] at h5
          rcases h5 with h6 | h6
          · rw [h6]; exact ⟨e3, e4⟩
          · omega
    · rw [if_neg hlt]
      exact ⟨[], by simp, by simp⟩
  · exact pointLoop_range itEnd _ it s.indexData rfl
  · obtain ⟨new, e1, e2⟩ := fanLoop_range it itEnd _ (it + 2) s.indexData rfl (by omega)
    exact ⟨new, e1, e2⟩
  · obtain ⟨n, hn⟩ := hq hm
    exact quadLoop_range itEnd n it s.indexData hn

/-! ## The floor modulus `uimod` (C40) -/

/-- Inside the `int` range `toInt32` is the identity. -/
theorem toInt32_of_mem (z : Int) (h1 : -2 ^ 31 ≤ z) (h2 : z < 2 ^ 31) : toInt32 z = z := by
  unfold toInt32
  omega

/-- Claim C40: for every `int` `x` other than `INT_MIN` and every `int` `y > 0`,
`r = uimod(x, y)` (computed with the truncating `%` of C, every intermediate result in
the `int` range) satisfies `0 ≤ r < y` and `y` divides `x - r`; so `r` is the floor
modulus `x mod y`. -/
theorem uimod_floor_modulus (x y : Int) (hx1 : -2 ^ 31 < x) (hx2 : x < 2 ^ 31)
    (hy1 : 0 < y) (hy2 : y < 2 ^ 31) :
    0 ≤ uimod x y ∧ uimod x y < y ∧ y ∣ x - uimod x y ∧ uimod x y = x % y := by
  have key : uimod x y = x % y := by
    unfold uimod
    by_cases hx : x < 0
    · rw [if_pos hx, toInt32_of_mem (-x) (by omega) (by omega),
        toInt32_of_mem (-x - 1) (by omega) (by omega),
        toInt32_of_mem (y - 1) (by omega) (by omega),
        Int.tmod_eq_emod (by omega) (by omega)]
      have hr0 := Int.emod_nonneg (-x - 1) (ne_of_gt hy1)
      have hr1 := Int.emod_lt_of_pos (-x - 1) hy1
      rw [toInt32_of_mem _ (by omega) (by omega)]
      have hdiv : (-x - 1) % y + y * ((-x - 1) / y) = -x - 1 := Int.emod_add_ediv _ _
      have h2 : x = (y - 1 - (-x - 1) % y) + y * (-((-x - 1) / y) - 1) := by
        linear_combination hdiv
      rw [h2, Int.add_mul_emod_self_left, ← h2]
      exact (Int.emod_eq_of_lt (by omega) (by omega)).symm
    · rw [if_neg hx, Int.tmod_eq_emod (by omega) (by omega)]
  rw [key]
  exact ⟨Int.emod_nonneg _ (ne_of_gt hy1), Int.emod_lt_of_pos _ hy1,
    Int.dvd_sub_of_emod_eq rfl, rfl⟩

/-- Claim C40 at `x = -7`, `y = 3`: `uimod(-7, 3) = 2`. -/
theorem uimod_floor_modulus_witness :
    (-2 ^ 31 < (-7 : Int) ∧ (-7 : Int) < 2 ^ 31 ∧ (0 : Int) < 3 ∧ (3 : Int) < 2 ^ 31) ∧
    uimod (-7) 3 = 2 ∧ (3 : Int) ∣ -7 - uimod (-7) 3 :=
  ⟨by norm_num, by decide,
   (uimod_floor_modulus (-7) 3 (by norm_num) (by norm_num) (by norm_num) (by norm_num)).2.2.1⟩
